import Mathlib

/-!
# LiteX CSR register codec and LiteSDCard host driver

A shallow embedding of

* `drivers/soc/litex/litex_soc_ctrl.c` (`litex_set_reg`, `litex_get_reg`,
  `litex_check_csr_access`), and
* `drivers/mmc/host/litex_mmc.c` (`sdclk_set_clk`, `sdcard_wait_done`, `send_cmd`,
  `litex_set_bus_width`, `litex_get_cd`, `litex_request`, `litex_set_ios`),

followed by theorems about them.

Machine integers are natural numbers reduced modulo `2 ^ width` wherever the C
type truncates.  Hardware is an environment: every value the driver obtains
from outside (a register read, a read of `jiffies`) is taken from a script of
values, and every effect of the driver is appended to a trace of events.
-/

namespace Litex

/-! ## Platform -/

/-- Properties of the machine the kernel is built for. -/
structure Platform where
  /-- Width of `unsigned long` in bits. -/
  BITS_PER_LONG : Nat
  /-- Timer ticks (jiffies) per second. -/
  HZ : Nat
  /-- Whether the CPU is big-endian. -/
  big_endian : Bool

/-! ## Register codec: `drivers/soc/litex/litex_soc_ctrl.c` -/

def LITEX_REG_SIZE : Nat := 0x4
def LITEX_SUBREG_SIZE : Nat := 0x1
def LITEX_SUBREG_SIZE_BIT : Nat := LITEX_SUBREG_SIZE * 8

/-- One access to a physical 32-bit register, as the device sees it. -/
inductive Access where
  | rd (addr : Nat) (val : Nat)
  | wr (addr : Nat) (val : Nat)
  deriving DecidableEq, Repr

/-- A simulated register bank: `mem a` is the 32-bit physical word the device
holds at address `a` (the word last written there), `log` the accesses made so
far, oldest first. -/
structure Bank where
  mem : Nat → Nat
  log : List Access

/-- Modelled from the spec: `swab32` of `include/uapi/linux/swab.h`, which is
not under src/; it reverses the four bytes of a 32-bit word. -/
def swab32 (x : Nat) : Nat :=
  (x % 256) * 2 ^ 24 + (x / 2 ^ 8 % 256) * 2 ^ 16 + (x / 2 ^ 16 % 256) * 2 ^ 8 + x / 2 ^ 24 % 256

/-- Modelled from the spec: `cpu_to_le32` of the kernel byte-order headers, not
under src/: the identity on a little-endian CPU, a byte swap on a big-endian
one.  The argument is truncated to `u32`. -/
def cpu_to_le32 (p : Platform) (x : Nat) : Nat :=
  if p.big_endian then swab32 (x % 2 ^ 32) else x % 2 ^ 32

/-- Modelled from the spec: `le32_to_cpu`, the inverse conversion, not under
src/. -/
def le32_to_cpu (p : Platform) (x : Nat) : Nat :=
  if p.big_endian then swab32 (x % 2 ^ 32) else x % 2 ^ 32

/-- Modelled from the spec: `writel` of `asm-generic/io.h`, not under src/: it
stores `cpu_to_le32 value` with a native 32-bit store, and the device (whose
CSR bus is in CPU native order) sees the word that was stored. -/
def writel (p : Platform) (b : Bank) (value addr : Nat) : Bank :=
  let word := cpu_to_le32 p value
  { mem := fun a => if a = addr then word else b.mem a
    log := b.log ++ [Access.wr addr word] }

/-- Modelled from the spec: `readl` of `asm-generic/io.h`, not under src/: a
native 32-bit load of the device word, converted with `le32_to_cpu`. -/
def readl (p : Platform) (b : Bank) (addr : Nat) : Nat × Bank :=
  let word := b.mem addr % 2 ^ 32
  (le32_to_cpu p word, { b with log := b.log ++ [Access.rd addr word] })

/-- The function `litex_set_reg` (litex_soc_ctrl.c:49-65).  `val` is an
`unsigned long`; a shift by `BITS_PER_LONG` or more is undefined in C and does
not occur when `8 * reg_size ≤ BITS_PER_LONG`.  The spinlock is not modelled. -/
def litex_set_reg (p : Platform) (b : Bank) (reg reg_size val : Nat) : Bank :=
  (List.range reg_size).foldl
    (fun b i =>
      let shift := (reg_size - i - 1) * LITEX_SUBREG_SIZE_BIT
      let shifted_data := (val % 2 ^ p.BITS_PER_LONG) >>> shift
      writel p b (cpu_to_le32 p shifted_data) (reg + LITEX_REG_SIZE * i))
    b

/-- The function `litex_get_reg` (litex_soc_ctrl.c:68-86); returns the result
and the bank with the reads logged. -/
def litex_get_reg (p : Platform) (b : Bank) (reg reg_size : Nat) : Nat × Bank :=
  (List.range reg_size).foldl
    (fun (acc : Nat × Bank) i =>
      let r := readl p acc.2 (reg + LITEX_REG_SIZE * i)
      let shifted_data := le32_to_cpu p r.1
      let shift := (reg_size - i - 1) * LITEX_SUBREG_SIZE_BIT
      (acc.1 ||| (shifted_data <<< shift) % 2 ^ p.BITS_PER_LONG, r.2))
    (0, b)

def SCRATCH_REG_OFF : Nat := 0x04
def SCRATCH_REG_VALUE : Nat := 0x12345678
def SCRATCH_REG_SIZE : Nat := 4
def SCRATCH_TEST_VALUE : Nat := 0xdeadbeef

/-- The two calls of `panic` in `litex_check_csr_access`, each with the value
that was read from the scratch register. -/
inductive Panic where
  | scratch_read_error (got : Nat)
  | scratch_write_error (got : Nat)
  deriving DecidableEq, Repr

/-- The function `litex_check_csr_access` (litex_soc_ctrl.c:109-139): a call of
`panic` ends the run with an error; otherwise the result is the value returned
and the bank as the function leaves it. -/
def litex_check_csr_access (p : Platform) (b : Bank) (reg_addr : Nat) :
    Except Panic (Int × Bank) :=
  let r := litex_get_reg p b (reg_addr + SCRATCH_REG_OFF) SCRATCH_REG_SIZE
  if r.1 ≠ SCRATCH_REG_VALUE then
    Except.error (Panic.scratch_read_error r.1)
  else
    let b := litex_set_reg p r.2 (reg_addr + SCRATCH_REG_OFF) SCRATCH_REG_SIZE SCRATCH_TEST_VALUE
    let r := litex_get_reg p b (reg_addr + SCRATCH_REG_OFF) SCRATCH_REG_SIZE
    if r.1 ≠ SCRATCH_TEST_VALUE then
      Except.error (Panic.scratch_write_error r.1)
    else
      let b := litex_set_reg p r.2 (reg_addr + SCRATCH_REG_OFF) SCRATCH_REG_SIZE
        SCRATCH_REG_VALUE
      Except.ok (0, b)

/-! ## LiteSDCard host driver: `drivers/mmc/host/litex_mmc.c` -/

def SDCARD_CTRL_DATA_TRANSFER_NONE : Nat := 0
def SDCARD_CTRL_DATA_TRANSFER_READ : Nat := 1
def SDCARD_CTRL_DATA_TRANSFER_WRITE : Nat := 2

def SDCARD_CTRL_RESPONSE_NONE : Nat := 0
def SDCARD_CTRL_RESPONSE_SHORT : Nat := 1
def SDCARD_CTRL_RESPONSE_LONG : Nat := 2

def SD_OK : Nat := 0
def SD_WRITEERROR : Nat := 1
def SD_TIMEOUT : Nat := 2
def SD_CRCERROR : Nat := 3
def SD_ERR_OTHER : Nat := 4

/-- Modelled from the spec: opcode of the stop command, a constant of
`include/linux/mmc/mmc.h`, which is not under src/. -/
def MMC_STOP_TRANSMISSION : Nat := 12
/-- Modelled from the spec: opcode of the app-command introducer (CMD55), a
constant of `include/linux/mmc/mmc.h`, not under src/. -/
def MMC_APP_CMD : Nat := 55
/-- Modelled from the spec: opcode of the multi-block read, a constant of
`include/linux/mmc/mmc.h`, not under src/. -/
def MMC_READ_MULTIPLE_BLOCK : Nat := 18
/-- Modelled from the spec: opcode of the multi-block write, a constant of
`include/linux/mmc/mmc.h`, not under src/. -/
def MMC_WRITE_MULTIPLE_BLOCK : Nat := 25
/-- Modelled from the spec: opcode of the width-set application command
(ACMD6), a constant of `include/linux/mmc/sd.h`, not under src/. -/
def SD_APP_SET_BUS_WIDTH : Nat := 6
/-- Modelled from the spec: opcode of "send relative address" (CMD3), a
constant of `include/linux/mmc/sd.h`, not under src/. -/
def SD_SEND_RELATIVE_ADDR : Nat := 3
/-- Modelled from the spec: the fixed 4-bit width value, a constant of
`include/linux/mmc/host.h`, not under src/. -/
def MMC_BUS_WIDTH_4 : Nat := 2
/-- Modelled from the spec: response flags of `include/linux/mmc/core.h`, not
under src/. -/
def MMC_RSP_PRESENT : Nat := 1 <<< 0
/-- Modelled from the spec: long-response flag of `include/linux/mmc/core.h`,
not under src/. -/
def MMC_RSP_136 : Nat := 1 <<< 1
/-- Modelled from the spec: data direction flags of `include/linux/mmc/core.h`,
not under src/. -/
def MMC_DATA_WRITE : Nat := 1 <<< 8
/-- Modelled from the spec: data direction flags of `include/linux/mmc/core.h`,
not under src/. -/
def MMC_DATA_READ : Nat := 1 <<< 9
/-- Modelled from the spec: error numbers of `include/uapi/asm-generic/errno*.h`,
not under src/. -/
def EIO : Int := 5
/-- Modelled from the spec: error number, not under src/. -/
def EINVAL : Int := 22
/-- Modelled from the spec: error number, not under src/. -/
def EILSEQ : Int := 84
/-- Modelled from the spec: error number, not under src/. -/
def ETIMEDOUT : Int := 110

/-- Modelled from the spec: the logical registers of the four register blocks.
Their byte offsets are the `LITEX_MMC_*_OFF` constants of `litex_mmc.h`, which
is not under src/; a register is named by its block and offset name.
`SDCORE_CMDRSP i` is the `i`-th 32-bit register of the response range. -/
inductive Reg where
  | SDPHY_CARDDETECT
  | SDPHY_CLOCKERDIV
  | SDCORE_CMDARG
  | SDCORE_CMDCMD
  | SDCORE_CMDSND
  | SDCORE_CMDRSP (i : Nat)
  | SDCORE_CMDEVT
  | SDCORE_DATAEVT
  | SDCORE_BLKLEN
  | SDCORE_BLKCNT
  | SDBLK2MEM_BASE
  | SDBLK2MEM_LEN
  | SDBLK2MEM_ENA
  | SDBLK2MEM_DONE
  | SDMEM2BLK_BASE
  | SDMEM2BLK_LEN
  | SDMEM2BLK_ENA
  | SDMEM2BLK_DONE
  deriving DecidableEq, Repr

/-- An effect of the driver that is visible outside it. -/
inductive Ev where
  /-- A logical register write of `size` bytes. -/
  | write (reg : Reg) (size : Nat) (val : Nat)
  /-- A logical register read of `size` bytes that returned `val`. -/
  | read (reg : Reg) (size : Nat) (val : Nat)
  /-- A read of `jiffies` that returned `val`. -/
  | jiffies (val : Nat)
  | udelay (usecs : Nat)
  /-- The call `sg_copy_to_buffer (.., buflen)`. -/
  | sg_copy_to_buffer (buflen : Nat)
  /-- The call `sg_copy_from_buffer (.., buflen)`. -/
  | sg_copy_from_buffer (buflen : Nat)
  | mmc_request_done
  deriving DecidableEq, Repr

/-- The values the environment will supply, in the order the driver asks for
them: one per logical register read and one per read of `jiffies`. -/
abbrev Script := List Nat

/-- A driver computation: it consumes a part of the script and yields a value,
the rest of the script and the events it caused, oldest first.  `none` means
the script ended while the driver was still waiting for the hardware. -/
def Hw (α : Type) : Type := Script → Option (α × Script × List Ev)

instance : Monad Hw where
  pure a := fun s => some (a, s, [])
  bind m f := fun s =>
    match m s with
    | none => none
    | some (a, s1, t1) =>
      match f a s1 with
      | none => none
      | some (b, s2, t2) => some (b, s2, t1 ++ t2)

/-- Modelled from the spec: the logical read of `size` bytes (`litex_read8`,
`litex_read32` of `litex_mmc.h`, not under src/): the next value of the
script, truncated to the width of the register. -/
def litex_read (size : Nat) (reg : Reg) : Hw Nat := fun s =>
  match s with
  | [] => none
  | v :: rest => some (v % 2 ^ (8 * size), rest, [Ev.read reg size (v % 2 ^ (8 * size))])

/-- Modelled from the spec: the logical write of `size` bytes (`litex_write8`,
`litex_write16`, `litex_write32`, `litex_write64` of `litex_mmc.h`, not under
src/); the value is truncated to the width of the register. -/
def litex_write (size : Nat) (reg : Reg) (val : Nat) : Hw Unit := fun s =>
  some ((), s, [Ev.write reg size (val % 2 ^ (8 * size))])

def litex_read8 (reg : Reg) : Hw Nat := litex_read 1 reg
def litex_read32 (reg : Reg) : Hw Nat := litex_read 4 reg
def litex_write8 (reg : Reg) (val : Nat) : Hw Unit := litex_write 1 reg val
def litex_write16 (reg : Reg) (val : Nat) : Hw Unit := litex_write 2 reg val
def litex_write32 (reg : Reg) (val : Nat) : Hw Unit := litex_write 4 reg val
def litex_write64 (reg : Reg) (val : Nat) : Hw Unit := litex_write 8 reg val

/-- An effect without a result. -/
def emit (e : Ev) : Hw Unit := fun s => some ((), s, [e])

/-- A read of the `unsigned long` counter `jiffies`. -/
def jiffies (p : Platform) : Hw Nat := fun s =>
  match s with
  | [] => none
  | v :: rest => some (v % 2 ^ p.BITS_PER_LONG, rest, [Ev.jiffies (v % 2 ^ p.BITS_PER_LONG)])

/-- Modelled from the spec: `time_after (a, b)` of `include/linux/jiffies.h`,
not under src/: `(long) (b - a) < 0` on `unsigned long` operands. -/
def time_after (p : Platform) (a b : Nat) : Bool :=
  decide (2 ^ (p.BITS_PER_LONG - 1) ≤ (b + 2 ^ p.BITS_PER_LONG - a % 2 ^ p.BITS_PER_LONG)
    % 2 ^ p.BITS_PER_LONG)

/-- The fields of `struct litex_mmc_host` (litex_mmc.c:62-82) that the modelled
functions use.  `buffer` holds the bytes of the DMA buffer as the CPU sees
them; what the device moves in or out of it by DMA is not modelled. -/
structure litex_mmc_host where
  resp : Nat → Nat
  rca : Nat
  buffer : List Nat
  buffer_size : Nat
  dma_handle : Nat
  freq : Nat
  clock : Nat
  is_bus_width_set : Bool
  app_cmd : Bool

/-- The parts of `struct mmc_host` that the driver reads: `max_req_size`, the
result of `mmc_card_is_removable`, and the result of `mmc_gpio_get_cd`. -/
structure mmc_host where
  max_req_size : Nat
  removable : Bool
  gpio_cd : Int

/-- The fields of `struct mmc_command` that the driver uses. -/
structure mmc_command where
  opcode : Nat
  arg : Nat
  flags : Nat
  retries : Nat
  resp : Nat → Nat
  error : Int

/-- The fields of `struct mmc_data` that the driver uses; `sg` holds the bytes
of the caller's scatter buffer, segment after segment. -/
structure mmc_data where
  blksz : Nat
  blocks : Nat
  flags : Nat
  bytes_xfered : Nat
  sg : List Nat

/-- The fields of `struct mmc_request` that the driver uses. -/
structure mmc_request where
  cmd : mmc_command
  data : Option mmc_data

/-- The number of halvings, at most `fuel`, that bring `x` to 0. -/
def fls_long_loop : Nat → Nat → Nat
  | 0, _ => 0
  | fuel + 1, x => if x = 0 then 0 else fls_long_loop fuel (x / 2) + 1

/-- Modelled from the spec: `fls_long` of `include/linux/bitops.h`, not under
src/: the position of the highest set bit of an `unsigned long` (of at most 64
bits), counted from 1, and 0 for 0. -/
def fls_long (x : Nat) : Nat := fls_long_loop 64 x

/-- Modelled from the spec: `roundup_pow_of_two` of `include/linux/log2.h`, not
under src/: `1UL << fls_long (n - 1)`, the smallest power of two that is not
below `n`.  The kernel leaves the result undefined for `n = 0` (here it is 1),
and on a 32-bit machine the shift is undefined for `n > 2 ^ 31`; on a 64-bit
machine every `u32` argument other than 0 gives the value of this
definition. -/
def roundup_pow_of_two (n : Nat) : Nat := 1 <<< fls_long (n - 1)

/-- The function `sdclk_set_clk` (litex_mmc.c:85-93).  `clk_freq` and
`host->freq` are `unsigned int`, `div` is a `u32`; the message of `dev_info` is
not modelled. -/
def sdclk_set_clk (host : litex_mmc_host) (clk_freq : Nat) : Hw Unit :=
  let clk_freq := clk_freq % 2 ^ 32
  let div := if clk_freq ≠ 0 then (host.freq % 2 ^ 32) / clk_freq else 256
  let div := roundup_pow_of_two div % 2 ^ 32
  let div := min (max div 2) 256
  litex_write16 Reg.SDPHY_CLOCKERDIV div

/-- The polling loop of `sdcard_wait_done` (litex_mmc.c:98-103): read the event
register until bit 0 is set; returns the event byte. -/
def sdcard_wait_done_poll (reg : Reg) : Script → Option (Nat × Script × List Ev)
  | [] => none
  | v :: rest =>
    let evt := v % 2 ^ 8
    if evt &&& 0x1 ≠ 0 then
      some (evt, rest, [Ev.read reg 1 evt])
    else
      match sdcard_wait_done_poll reg rest with
      | none => none
      | some (e, s, t) => some (e, s, Ev.read reg 1 evt :: Ev.udelay 5 :: t)

/-- The decoding of the event byte in `sdcard_wait_done`
(litex_mmc.c:104-113). -/
def sdcard_wait_done_decode (evt : Nat) : Nat :=
  if evt = 0x1 then SD_OK
  else if evt &&& 0x2 ≠ 0 then SD_WRITEERROR
  else if evt &&& 0x4 ≠ 0 then SD_TIMEOUT
  else if evt &&& 0x8 ≠ 0 then SD_CRCERROR
  else SD_ERR_OTHER

/-- The function `sdcard_wait_done` (litex_mmc.c:96-114). -/
def sdcard_wait_done (reg : Reg) : Hw Nat := do
  let evt ← sdcard_wait_done_poll reg
  pure (sdcard_wait_done_decode evt)

/-- The loop of `send_cmd` that waits for the DMA done flag
(litex_mmc.c:162-166); returns whether the flag was seen before the deadline
`n`. -/
def send_cmd_dma_wait (p : Platform) (reg : Reg) (n : Nat) :
    Script → Option (Bool × Script × List Ev)
  | [] => none
  | v :: rest =>
    let done := v % 2 ^ 8
    if done &&& 0x01 = 0 then
      match rest with
      | [] => none
      | j :: rest2 =>
        let now := j % 2 ^ p.BITS_PER_LONG
        if time_after p now n then
          some (false, rest2, [Ev.read reg 1 done, Ev.jiffies now])
        else
          match send_cmd_dma_wait p reg n rest2 with
          | none => none
          | some (r, s, t) => some (r, s, Ev.read reg 1 done :: Ev.jiffies now :: t)
    else
      some (true, rest, [Ev.read reg 1 done])

/-- The loop of `send_cmd` that reads the four response words
(litex_mmc.c:136-139). -/
def send_cmd_read_resp (host : litex_mmc_host) : Hw litex_mmc_host :=
  [0, 1, 2, 3].foldlM
    (fun host i => do
      let v ← litex_read32 (Reg.SDCORE_CMDRSP i)
      pure { host with resp := fun j => if j = i then v else host.resp j })
    host

/-- The function `send_cmd` (litex_mmc.c:116-169); the parameters are truncated
to their C types (`u8 cmd`, `u32 arg`, `u8 response_len`, `u8 transfer`). -/
def send_cmd (p : Platform) (host : litex_mmc_host) (cmd arg response_len transfer : Nat) :
    Hw (Nat × litex_mmc_host) := do
  let cmd := cmd % 2 ^ 8
  let arg := arg % 2 ^ 32
  let response_len := response_len % 2 ^ 8
  let transfer := transfer % 2 ^ 8
  litex_write32 Reg.SDCORE_CMDARG arg
  litex_write32 Reg.SDCORE_CMDCMD (cmd <<< 8 ||| transfer <<< 5 ||| response_len)
  litex_write8 Reg.SDCORE_CMDSND 1
  let status ← sdcard_wait_done Reg.SDCORE_CMDEVT
  if status ≠ SD_OK then
    pure (status, host)
  else do
    let host ← (if response_len ≠ SDCARD_CTRL_RESPONSE_NONE then send_cmd_read_resp host
      else pure host)
    let host :=
      if !host.app_cmd && cmd == SD_SEND_RELATIVE_ADDR then
        { host with rca := (host.resp 3 >>> 16) &&& 0xffff }
      else host
    let host := { host with app_cmd := (cmd == MMC_APP_CMD) }
    if transfer = SDCARD_CTRL_DATA_TRANSFER_NONE then
      pure (status, host)
    else do
      let status ← sdcard_wait_done Reg.SDCORE_DATAEVT
      if status ≠ SD_OK then
        pure (status, host)
      else do
        let reg := if transfer = SDCARD_CTRL_DATA_TRANSFER_READ then Reg.SDBLK2MEM_DONE
          else Reg.SDMEM2BLK_DONE
        let j ← jiffies p
        let n := (j + (p.HZ <<< 1)) % 2 ^ p.BITS_PER_LONG
        let done ← send_cmd_dma_wait p reg n
        if done then pure (status, host) else pure (SD_TIMEOUT, host)

/-- The function `send_stop_tx_cmd` (litex_mmc.c:172-176), CMD12. -/
def send_stop_tx_cmd (p : Platform) (host : litex_mmc_host) : Hw (Nat × litex_mmc_host) :=
  send_cmd p host MMC_STOP_TRANSMISSION 0 SDCARD_CTRL_RESPONSE_SHORT
    SDCARD_CTRL_DATA_TRANSFER_NONE

/-- The function `send_app_cmd` (litex_mmc.c:179-183), CMD55. -/
def send_app_cmd (p : Platform) (host : litex_mmc_host) : Hw (Nat × litex_mmc_host) :=
  send_cmd p host MMC_APP_CMD ((host.rca % 2 ^ 16) <<< 16) SDCARD_CTRL_RESPONSE_SHORT
    SDCARD_CTRL_DATA_TRANSFER_NONE

/-- The function `send_app_set_bus_width_cmd` (litex_mmc.c:186-191), ACMD6. -/
def send_app_set_bus_width_cmd (p : Platform) (host : litex_mmc_host) (width : Nat) :
    Hw (Nat × litex_mmc_host) :=
  send_cmd p host SD_APP_SET_BUS_WIDTH width SDCARD_CTRL_RESPONSE_SHORT
    SDCARD_CTRL_DATA_TRANSFER_NONE

/-- The function `litex_set_bus_width` (litex_mmc.c:193-209). -/
def litex_set_bus_width (p : Platform) (host : litex_mmc_host) : Hw (Nat × litex_mmc_host) := do
  let app_cmd_sent := host.app_cmd
  let host ← (if !app_cmd_sent then (do let r ← send_app_cmd p host; pure r.2) else pure host)
  let r ← send_app_set_bus_width_cmd p host MMC_BUS_WIDTH_4
  let status := r.1
  let host := r.2
  let host ← (if app_cmd_sent then (do let r ← send_app_cmd p host; pure r.2) else pure host)
  pure (status, host)

/-- The function `litex_get_cd` (litex_mmc.c:211-233). -/
def litex_get_cd (mmc : mmc_host) (host : litex_mmc_host) : Hw (Nat × litex_mmc_host) := do
  let gpio_cd := mmc.gpio_cd
  if !mmc.removable then
    pure (1, host)
  else do
    let ret ← (if gpio_cd ≥ 0 then pure (if gpio_cd ≠ 0 then 1 else 0)
      else do
        let v ← litex_read8 Reg.SDPHY_CARDDETECT
        pure (if v = 0 then 1 else 0))
    let host := if ret = 0 then { host with is_bus_width_set := false } else host
    pure (ret, host)

/-- The loop of `litex_request` that runs `litex_set_bus_width` until it
succeeds or the deadline `n` has passed (litex_mmc.c:266-273); returns whether
it succeeded.  Every iteration consumes script values, so a number of
iterations equal to the length of the script is never reached. -/
def litex_request_bus_width_loop (p : Platform) (n : Nat) :
    Nat → litex_mmc_host → Hw (Bool × litex_mmc_host)
  | 0, _ => fun _ => none
  | fuel + 1, host => do
    let r ← litex_set_bus_width p host
    if r.1 ≠ SD_OK then do
      let now ← jiffies p
      if time_after p now n then pure (false, r.2)
      else litex_request_bus_width_loop p n fuel r.2
    else pure (true, r.2)

/-- The bus-width block of `litex_request` (litex_mmc.c:264-275); returns
whether the request may go on. -/
def litex_request_bus_width (p : Platform) (host : litex_mmc_host) :
    Hw (Bool × litex_mmc_host) :=
  if !host.is_bus_width_set then do
    let j ← jiffies p
    let n := (j + 2 * p.HZ) % 2 ^ p.BITS_PER_LONG
    let r ← (fun s => litex_request_bus_width_loop p n (s.length + 1) host s)
    if r.1 then pure (true, { r.2 with is_bus_width_set := true })
    else pure (false, r.2)
  else pure (true, host)

/-- Conversion of a `u32` value to `int`. -/
def u32_to_int (x : Nat) : Int :=
  if x % 2 ^ 32 < 2 ^ 31 then (x % 2 ^ 32 : Nat) else ((x % 2 ^ 32 : Nat) : Int) - 2 ^ 32

/-- Conversion of an `int` to an unsigned type of `bits` bits. -/
def int_to_unsigned (bits : Nat) (i : Int) : Nat := (i % 2 ^ bits).toNat

/-- Modelled from the spec: `sg_copy_to_buffer` of `lib/scatterlist.c`, not
under src/: copies `buflen` bytes, or all bytes of the scatter list if it has
fewer, to the start of the buffer. -/
def sg_copy_to_buffer (sg : List Nat) (buf : List Nat) (buflen : Nat) : List Nat :=
  sg.take buflen ++ buf.drop (sg.take buflen).length

/-- Modelled from the spec: `sg_copy_from_buffer` of `lib/scatterlist.c`, not
under src/: copies `buflen` bytes from the start of the buffer, or as many as
the scatter list can take, into the scatter list. -/
def sg_copy_from_buffer (sg : List Nat) (buf : List Nat) (buflen : Nat) : List Nat :=
  buf.take (min buflen sg.length) ++ sg.drop (buf.take (min buflen sg.length)).length

/-- The value `litex_request` gives the `int write_length`
(litex_mmc.c:292-293): `min (data->blksz * data->blocks, (u32) host->buffer_size)`. -/
def litex_request_write_length (host : litex_mmc_host) (data : mmc_data) : Int :=
  u32_to_int (min ((data.blksz * data.blocks) % 2 ^ 32) (host.buffer_size % 2 ^ 32))

/-- The transfer setup of `litex_request` (litex_mmc.c:277-319); returns the
host and the value of `transfer`. -/
def litex_request_setup (p : Platform) (host : litex_mmc_host) (data : mmc_data) :
    Hw (litex_mmc_host × Nat) := do
  let r ← (
    if data.flags &&& MMC_DATA_READ ≠ 0 then do
      litex_write8 Reg.SDBLK2MEM_ENA 0
      litex_write64 Reg.SDBLK2MEM_BASE host.dma_handle
      litex_write32 Reg.SDBLK2MEM_LEN ((data.blksz * data.blocks) % 2 ^ 32)
      litex_write8 Reg.SDBLK2MEM_ENA 1
      pure (host, SDCARD_CTRL_DATA_TRANSFER_READ)
    else if data.flags &&& MMC_DATA_WRITE ≠ 0 then do
      let write_length : Int := litex_request_write_length host data
      let buflen := int_to_unsigned p.BITS_PER_LONG write_length
      emit (Ev.sg_copy_to_buffer buflen)
      let host := { host with buffer := sg_copy_to_buffer data.sg host.buffer buflen }
      litex_write8 Reg.SDMEM2BLK_ENA 0
      litex_write64 Reg.SDMEM2BLK_BASE host.dma_handle
      litex_write32 Reg.SDMEM2BLK_LEN (int_to_unsigned 32 write_length)
      litex_write8 Reg.SDMEM2BLK_ENA 1
      pure (host, SDCARD_CTRL_DATA_TRANSFER_WRITE)
    else
      pure (host, SDCARD_CTRL_DATA_TRANSFER_NONE))
  litex_write16 Reg.SDCORE_BLKLEN data.blksz
  litex_write32 Reg.SDCORE_BLKCNT data.blocks
  pure r

/-- The retry loop of `litex_request` (litex_mmc.c:321-324):
`do status = send_cmd (..); while (status != SD_OK && retries-- > 0);`. -/
def litex_request_retry (p : Platform) (opcode arg response_len transfer : Nat) :
    Nat → litex_mmc_host → Hw (Nat × litex_mmc_host)
  | 0, host => send_cmd p host opcode arg response_len transfer
  | retries + 1, host => do
    let r ← send_cmd p host opcode arg response_len transfer
    if r.1 ≠ SD_OK then litex_request_retry p opcode arg response_len transfer retries r.2
    else pure r

/-- The command phase of `litex_request` (litex_mmc.c:321-374): the command
with its retries, the stop command, the error code, the response, the copy of
the data read, and the completion of the request. -/
def litex_request_command (p : Platform) (mmc : mmc_host) (host : litex_mmc_host)
    (mrq : mmc_request) (response_len transfer : Nat) : Hw (litex_mmc_host × mmc_request) := do
  let cmd := mrq.cmd
  let r ← litex_request_retry p cmd.opcode cmd.arg response_len transfer cmd.retries host
  let status := r.1
  let host := r.2
  let host ← (
    if cmd.opcode = MMC_READ_MULTIPLE_BLOCK ∨ cmd.opcode = MMC_WRITE_MULTIPLE_BLOCK then do
      let r ← send_stop_tx_cmd p host
      pure r.2
    else pure host)
  let cmd := { cmd with error :=
    if status = SD_OK then 0
    else if status = SD_WRITEERROR then - EIO
    else if status = SD_TIMEOUT then - ETIMEDOUT
    else if status = SD_CRCERROR then - EILSEQ
    else - EINVAL }
  let cmd :=
    if response_len = SDCARD_CTRL_RESPONSE_SHORT then
      { cmd with resp := fun i =>
          if i = 0 then host.resp 3 else if i = 1 then host.resp 2 &&& 0xFF else cmd.resp i }
    else if response_len = SDCARD_CTRL_RESPONSE_LONG then
      { cmd with resp := fun i => if i < 4 then host.resp i else cmd.resp i }
    else cmd
  if status = SD_OK ∧ transfer ≠ SDCARD_CTRL_DATA_TRANSFER_NONE then
    match mrq.data with
    | none => fun _ => none -- a null `data` is dereferenced; `litex_request` never gets here
    | some data => do
      let data := { data with
        bytes_xfered := min ((data.blksz * data.blocks) % 2 ^ 32) mmc.max_req_size }
      let data ← (
        if transfer = SDCARD_CTRL_DATA_TRANSFER_READ then do
          emit (Ev.sg_copy_from_buffer data.bytes_xfered)
          pure { data with sg := sg_copy_from_buffer data.sg host.buffer data.bytes_xfered }
        else pure data)
      emit Ev.mmc_request_done
      pure (host, { cmd := cmd, data := some data })
  else do
    emit Ev.mmc_request_done
    pure (host, { mrq with cmd := cmd })

/-- The part of `litex_request` that comes before the command
(litex_mmc.c:258-319): for a request with data, the bus-width block and the
transfer setup.  Returns whether the request may go on (`false` is the early
return of line 271), the host and the value of `transfer`. -/
def litex_request_prepare (p : Platform) (host : litex_mmc_host) (data : Option mmc_data) :
    Hw (Bool × litex_mmc_host × Nat) :=
  match data with
  | some data => do
    let r ← litex_request_bus_width p host
    if !r.1 then
      pure (false, r.2, SDCARD_CTRL_DATA_TRANSFER_NONE)
    else do
      let q ← litex_request_setup p r.2 data
      pure (true, q.1, q.2)
  | none => pure (true, host, SDCARD_CTRL_DATA_TRANSFER_NONE)

/-- The value `litex_request` gives `response_len` from the flags of the
command (litex_mmc.c:249-256). -/
def litex_request_response_len (flags : Nat) : Nat :=
  if flags &&& MMC_RSP_136 ≠ 0 then SDCARD_CTRL_RESPONSE_LONG
  else if flags &&& MMC_RSP_PRESENT ≠ 0 then SDCARD_CTRL_RESPONSE_SHORT
  else SDCARD_CTRL_RESPONSE_NONE

/-- The function `litex_request` (litex_mmc.c:239-375); returns the host and
the request as they are when `mmc_request_done` has been called. -/
def litex_request (p : Platform) (mmc : mmc_host) (host : litex_mmc_host) (mrq : mmc_request) :
    Hw (litex_mmc_host × mmc_request) := do
  let cmd := mrq.cmd
  let response_len := litex_request_response_len cmd.flags
  let r ← litex_request_prepare p host mrq.data
  if !r.1 then do
    emit Ev.mmc_request_done
    pure (r.2.1, { mrq with cmd := { cmd with error := - ETIMEDOUT } })
  else
    litex_request_command p mmc r.2.1 mrq response_len r.2.2

/-- The field of `struct mmc_ios` that the driver reads. -/
structure mmc_ios where
  clock : Nat

/-- The function `litex_set_ios` (litex_mmc.c:377-393). -/
def litex_set_ios (host : litex_mmc_host) (ios : mmc_ios) : Hw litex_mmc_host :=
  if ios.clock ≠ host.clock then do
    sdclk_set_clk host ios.clock
    pure { host with clock := ios.clock }
  else pure host

/-! ## Observations on traces -/

/-- Whether an event is something the driver does to the outside (a register
write, a buffer copy, the completion of the request), as opposed to a value it
obtains (a register read, a read of `jiffies`) or a delay. -/
def Ev.is_output : Ev → Bool
  | Ev.write _ _ _ => true
  | Ev.sg_copy_to_buffer _ => true
  | Ev.sg_copy_from_buffer _ => true
  | Ev.mmc_request_done => true
  | Ev.read _ _ _ => false
  | Ev.jiffies _ => false
  | Ev.udelay _ => false

/-- The outputs of a trace, in order. -/
def outputs (t : List Ev) : List Ev := t.filter Ev.is_output

/-- The three register writes by which `send_cmd` issues a command
(litex_mmc.c:123-126): argument, command word, send strobe. -/
def cmd_issue (cmd arg response_len transfer : Nat) : List Ev :=
  [Ev.write Reg.SDCORE_CMDARG 4 (arg % 2 ^ 32 % 2 ^ (8 * 4)),
   Ev.write Reg.SDCORE_CMDCMD 4
     (((cmd % 2 ^ 8) <<< 8 ||| (transfer % 2 ^ 8) <<< 5 ||| response_len % 2 ^ 8) % 2 ^ (8 * 4)),
   Ev.write Reg.SDCORE_CMDSND 1 (1 % 2 ^ (8 * 1))]

/-- The register writes of one call of `litex_set_bus_width`
(litex_mmc.c:193-209) on a host with card address `rca`: CMD55 then ACMD6 when
the previous command was not CMD55 (`app_cmd = false`), ACMD6 then CMD55 when
it was. -/
def bus_width_issue (app_cmd : Bool) (rca : Nat) : List Ev :=
  if app_cmd then
    cmd_issue SD_APP_SET_BUS_WIDTH MMC_BUS_WIDTH_4 SDCARD_CTRL_RESPONSE_SHORT
        SDCARD_CTRL_DATA_TRANSFER_NONE
      ++ cmd_issue MMC_APP_CMD ((rca % 2 ^ 16) <<< 16) SDCARD_CTRL_RESPONSE_SHORT
        SDCARD_CTRL_DATA_TRANSFER_NONE
  else
    cmd_issue MMC_APP_CMD ((rca % 2 ^ 16) <<< 16) SDCARD_CTRL_RESPONSE_SHORT
        SDCARD_CTRL_DATA_TRANSFER_NONE
      ++ cmd_issue SD_APP_SET_BUS_WIDTH MMC_BUS_WIDTH_4 SDCARD_CTRL_RESPONSE_SHORT
        SDCARD_CTRL_DATA_TRANSFER_NONE

/-- The register writes that the specification gives for one call of
`litex_set_bus_width` on a host with card address `rca`: CMD55 when the previous
command was not CMD55 (`app_cmd = false`), then ACMD6, then CMD55 again exactly
when the first CMD55 was issued.  To be compared with `bus_width_issue`. -/
def bus_width_issue_stated (app_cmd : Bool) (rca : Nat) : List Ev :=
  (if app_cmd then []
    else cmd_issue MMC_APP_CMD ((rca % 2 ^ 16) <<< 16) SDCARD_CTRL_RESPONSE_SHORT
      SDCARD_CTRL_DATA_TRANSFER_NONE)
  ++ cmd_issue SD_APP_SET_BUS_WIDTH MMC_BUS_WIDTH_4 SDCARD_CTRL_RESPONSE_SHORT
      SDCARD_CTRL_DATA_TRANSFER_NONE
  ++ (if app_cmd then []
    else cmd_issue MMC_APP_CMD ((rca % 2 ^ 16) <<< 16) SDCARD_CTRL_RESPONSE_SHORT
      SDCARD_CTRL_DATA_TRANSFER_NONE)

/-- The call `send_cmd (host, cmd, arg, response_len, transfer)` made `m` times
in a row; returns the statuses of the calls, in order. -/
def send_cmd_times (p : Platform) (cmd arg response_len transfer : Nat) :
    Nat → litex_mmc_host → Hw (List Nat × litex_mmc_host)
  | 0, host => pure ([], host)
  | m + 1, host => do
    let r ← send_cmd p host cmd arg response_len transfer
    let rs ← send_cmd_times p cmd arg response_len transfer m r.2
    pure (r.1 :: rs.1, rs.2)

/-- The script values of the polls of the DMA wait that neither see the flag nor
the deadline: a flag byte and a value of `jiffies` for each. -/
def dma_polls_script (polls : List (Nat × Nat)) : Script :=
  polls.flatMap (fun q => [q.1, q.2])

/-- The trace of these polls. -/
def dma_polls_trace (p : Platform) (reg : Reg) (polls : List (Nat × Nat)) : List Ev :=
  polls.flatMap (fun q => [Ev.read reg 1 (q.1 % 2 ^ 8), Ev.jiffies (q.2 % 2 ^ p.BITS_PER_LONG)])

/-! ## Example values -/

/-- A 32-bit big-endian machine with 100 ticks per second. -/
def ex_platform : Platform := { BITS_PER_LONG := 32, HZ := 100, big_endian := true }

/-- A removable card slot without a card-detect GPIO; `max_req_size` is one
page of 4096 bytes. -/
def ex_mmc : mmc_host := { max_req_size := 4096, removable := true, gpio_cd := -1 }

/-- A host as `litex_mmc_probe` leaves it (litex_mmc.c:442-467), with the bus
width already set; every byte of the DMA buffer is `0xA5`. -/
def ex_host : litex_mmc_host :=
  { resp := fun _ => 0
    rca := 0
    buffer := List.replicate 8192 0xA5
    buffer_size := 8192
    dma_handle := 0x40000000
    freq := 100000000
    clock := 0
    is_bus_width_set := true
    app_cmd := false }

/-- A command with the given opcode, flags and retries. -/
def ex_cmd (opcode flags retries : Nat) : mmc_command :=
  { opcode := opcode, arg := 0x200, flags := flags, retries := retries,
    resp := fun _ => 0, error := 0 }

/-- A data descriptor with a scatter buffer of `blksz * blocks` zero bytes. -/
def ex_data (blksz blocks flags : Nat) : mmc_data :=
  { blksz := blksz, blocks := blocks, flags := flags, bytes_xfered := 0,
    sg := List.replicate (blksz * blocks) 0 }

/-- The example host once `litex_get_cd` has reported the card absent. -/
def ex_host_absent : litex_mmc_host := { ex_host with is_bus_width_set := false }

/-- The host `h` after `send_cmd` has stored the response words `r0 .. r3`. -/
def ex_with_resp (h : litex_mmc_host) (r0 r1 r2 r3 : Nat) : litex_mmc_host :=
  { h with resp := fun j =>
      if j = 3 then r3 else if j = 2 then r2 else if j = 1 then r1 else if j = 0 then r0
      else h.resp j }

/-- The trace of a command phase of `send_cmd` that sees the event byte `evt`
at its first poll and then reads the response words `r0 .. r3`. -/
def ex_cmd_trace (cmd arg response_len transfer evt r0 r1 r2 r3 : Nat) : List Ev :=
  cmd_issue cmd arg response_len transfer ++
    [Ev.read Reg.SDCORE_CMDEVT 1 evt,
     Ev.read (Reg.SDCORE_CMDRSP 0) 4 r0, Ev.read (Reg.SDCORE_CMDRSP 1) 4 r1,
     Ev.read (Reg.SDCORE_CMDRSP 2) 4 r2, Ev.read (Reg.SDCORE_CMDRSP 3) 4 r3]

/-- The trace of a call of `send_cmd` whose command fails with the event byte
`evt` at its first poll. -/
def ex_cmd_fail_trace (cmd arg response_len transfer evt : Nat) : List Ev :=
  cmd_issue cmd arg response_len transfer ++ [Ev.read Reg.SDCORE_CMDEVT 1 evt]

/-- The example command as `litex_request` leaves it: error code `error` and
short response `r0, r1`. -/
def ex_cmd_done (opcode flags retries : Nat) (error : Int) (r0 r1 : Nat) : mmc_command :=
  { ex_cmd opcode flags retries with
    error := error
    resp := fun i => if i = 0 then r0 else if i = 1 then r1 else 0 }

/-- Example: a status command (CMD13, short response, 2 retries, no data). -/
def ex_status_mrq (retries : Nat) : mmc_request := ⟨ex_cmd 13 1 retries, none⟩

/-- Example: a single-block read (CMD17) of 512 bytes. -/
def ex_read_data : mmc_data := ex_data 512 1 MMC_DATA_READ

/-- Example: a single-block read (CMD17) of 512 bytes. -/
def ex_read_mrq : mmc_request := ⟨ex_cmd 17 1 0, some ex_read_data⟩

/-- The script of the single-block read: command event, four response words,
data event, `jiffies`, reader done flag. -/
def ex_read_script : Script := [1, 0x11, 0x22, 0x33, 0x900, 1, 5000, 1]

/-- The register writes of the transfer setup of the single-block read. -/
def ex_read_setup_trace : List Ev :=
  [Ev.write Reg.SDBLK2MEM_ENA 1 0, Ev.write Reg.SDBLK2MEM_BASE 8 0x40000000,
   Ev.write Reg.SDBLK2MEM_LEN 4 512, Ev.write Reg.SDBLK2MEM_ENA 1 1,
   Ev.write Reg.SDCORE_BLKLEN 2 512, Ev.write Reg.SDCORE_BLKCNT 4 1]

/-- The trace of the one attempt of the single-block read. -/
def ex_read_cmd_trace : List Ev :=
  ex_cmd_trace 17 0x200 1 1 1 0x11 0x22 0x33 0x900 ++
    [Ev.read Reg.SDCORE_DATAEVT 1 1, Ev.jiffies 5000, Ev.read Reg.SDBLK2MEM_DONE 1 1]

/-- The single-block read request at completion. -/
def ex_read_mrq_done : mmc_request :=
  ⟨ex_cmd_done 17 1 0 0 0x900 0x33,
   some { ex_read_data with
     bytes_xfered := 512
     sg := sg_copy_from_buffer ex_read_data.sg ex_host.buffer 512 }⟩

/-- Example: a multi-block write (CMD25) of 8 blocks of 512 bytes. -/
def ex_write_data : mmc_data := ex_data 512 8 MMC_DATA_WRITE

/-- Example: a multi-block write (CMD25) of 8 blocks of 512 bytes. -/
def ex_write_mrq : mmc_request := ⟨ex_cmd 25 1 0, some ex_write_data⟩

/-- The script of the multi-block write: command event, four response words,
data event, `jiffies`, writer done flag, then the event and response words of
the stop command. -/
def ex_write_script : Script :=
  [1, 0x11, 0x22, 0x33, 0x900, 1, 5000, 1, 1, 0x55, 0x66, 0x77, 0xb00]

/-- The example host with the 4096 bytes of the write staged. -/
def ex_write_host : litex_mmc_host :=
  { ex_host with buffer := sg_copy_to_buffer ex_write_data.sg ex_host.buffer 4096 }

/-- The transfer setup of the multi-block write. -/
def ex_write_setup_trace : List Ev :=
  [Ev.sg_copy_to_buffer 4096,
   Ev.write Reg.SDMEM2BLK_ENA 1 0, Ev.write Reg.SDMEM2BLK_BASE 8 0x40000000,
   Ev.write Reg.SDMEM2BLK_LEN 4 4096, Ev.write Reg.SDMEM2BLK_ENA 1 1,
   Ev.write Reg.SDCORE_BLKLEN 2 512, Ev.write Reg.SDCORE_BLKCNT 4 8]

/-- The trace of the one attempt of the multi-block write. -/
def ex_write_cmd_trace : List Ev :=
  ex_cmd_trace 25 0x200 1 2 1 0x11 0x22 0x33 0x900 ++
    [Ev.read Reg.SDCORE_DATAEVT 1 1, Ev.jiffies 5000, Ev.read Reg.SDMEM2BLK_DONE 1 1]

/-- The multi-block write request at completion. -/
def ex_write_mrq_done : mmc_request :=
  ⟨ex_cmd_done 25 1 0 0 0xb00 0x77, some { ex_write_data with bytes_xfered := 4096 }⟩

/-- The script of the single-block read after a card removal: `jiffies`, then
CMD55 and ACMD6 with their response words, then the script of the read. -/
def ex_reinsert_script : Script :=
  [4000, 1, 1, 2, 3, 0x120, 1, 5, 6, 7, 0x920] ++ ex_read_script

/-- The example host once the width-set sequence has been run again. -/
def ex_reinsert_host : litex_mmc_host :=
  { ex_with_resp (ex_with_resp ex_host_absent 1 2 3 0x120) 5 6 7 0x920 with
    is_bus_width_set := true }

/-- The trace of the one call of `litex_set_bus_width` in that run. -/
def ex_reinsert_width_trace : List Ev :=
  ex_cmd_trace 55 0 1 0 1 1 2 3 0x120 ++ ex_cmd_trace 6 2 1 0 1 5 6 7 0x920

/-- The script of a bus-width block that times out: `jiffies` reads 1000, both
commands of the sequence fail, `jiffies` reads 1100, they fail again, `jiffies`
reads 1201, which is after the deadline 1200. -/
def ex_timeout_script : Script := [1000, 3, 3, 1100, 3, 3, 1201]

/-- The trace of that bus-width block. -/
def ex_timeout_trace : List Ev :=
  [Ev.jiffies 1000] ++ ex_cmd_fail_trace 55 0 1 0 3 ++ ex_cmd_fail_trace 6 2 1 0 3 ++
  [Ev.jiffies 1100] ++ ex_cmd_fail_trace 55 0 1 0 3 ++ ex_cmd_fail_trace 6 2 1 0 3 ++
  [Ev.jiffies 1201]

/-- A register bank whose scratch register, the four words from `0x804`, holds
the bytes of `0x12345678`, high byte first. -/
def ex_scratch_bank : Bank :=
  { mem := fun a =>
      if a = 0x804 then 0x12 else if a = 0x808 then 0x34 else if a = 0x80c then 0x56
      else if a = 0x810 then 0x78 else 0
    log := [] }

/-- The example host after a successful CMD55 with response words
`1, 2, 3, 0x120`. -/
def ex_app_host : litex_mmc_host :=
  { ex_with_resp ex_host 1 2 3 0x120 with app_cmd := true }

/-- The example host after a successful CMD3 whose response word 3 is
`0xabcd0520`. -/
def ex_rca_host : litex_mmc_host :=
  { ex_with_resp ex_host 0x11 0x22 0x33 0xabcd0520 with rca := 0xabcd }

/-- Example: a multi-block read (CMD18) of 32 blocks of 512 bytes, 16384 bytes
in all, twice the size of the DMA buffer of the example host. -/
def ex_big_read_data : mmc_data := ex_data 512 32 MMC_DATA_READ

/-- Example: a multi-block write (CMD25) of 12 blocks of 512 bytes, 6144 bytes
in all: more than `max_req_size`, less than the size of the DMA buffer. -/
def ex_big_write_data : mmc_data := ex_data 512 12 MMC_DATA_WRITE

/-- Example: a multi-block write (CMD25) of 12 blocks of 512 bytes. -/
def ex_big_write_mrq : mmc_request := ⟨ex_cmd 25 1 0, some ex_big_write_data⟩

/-- The example host with the 6144 bytes of that write staged. -/
def ex_big_write_host : litex_mmc_host :=
  { ex_host with buffer := sg_copy_to_buffer ex_big_write_data.sg ex_host.buffer 6144 }

/-- The transfer setup of that write. -/
def ex_big_write_setup_trace : List Ev :=
  [Ev.sg_copy_to_buffer 6144,
   Ev.write Reg.SDMEM2BLK_ENA 1 0, Ev.write Reg.SDMEM2BLK_BASE 8 0x40000000,
   Ev.write Reg.SDMEM2BLK_LEN 4 6144, Ev.write Reg.SDMEM2BLK_ENA 1 1,
   Ev.write Reg.SDCORE_BLKLEN 2 512, Ev.write Reg.SDCORE_BLKCNT 4 12]

/-- That write request at completion. -/
def ex_big_write_mrq_done : mmc_request :=
  ⟨ex_cmd_done 25 1 0 0 0xb00 0x77, some { ex_big_write_data with bytes_xfered := 4096 }⟩

/-- A register bank whose eight words from `0x800` hold the bytes `0x11, 0x22,
.., 0x88`. -/
def ex_wide_bank : Bank :=
  { mem := fun a =>
      if a = 0x800 then 0x11 else if a = 0x804 then 0x22 else if a = 0x808 then 0x33
      else if a = 0x80c then 0x44 else if a = 0x810 then 0x55 else if a = 0x814 then 0x66
      else if a = 0x818 then 0x77 else if a = 0x81c then 0x88 else 0
    log := [] }

/-- Example: the multi-block write (CMD25) of 8 blocks of 512 bytes with one
retry. -/
def ex_retry_mrq : mmc_request := ⟨ex_cmd 25 1 1, some ex_write_data⟩

/-- The script of that write when its first attempt fails with a CRC error
(event byte `0x09`), its second attempt succeeds with the response words
`0x11, 0x22, 0x33, 0x900`, and the stop command then times out (event byte
`0x05`). -/
def ex_retry_script : Script := [9, 1, 0x11, 0x22, 0x33, 0x900, 1, 5000, 1, 5]

/-- That write request at completion. -/
def ex_retry_mrq_done : mmc_request :=
  ⟨ex_cmd_done 25 1 1 0 0x900 0x33, some { ex_write_data with bytes_xfered := 4096 }⟩

/-- The trace of that run. -/
def ex_retry_trace : List Ev :=
  ex_write_setup_trace ++ ex_cmd_fail_trace 25 0x200 1 2 9 ++ ex_write_cmd_trace ++
    ex_cmd_fail_trace 12 0 1 0 5 ++ [Ev.mmc_request_done]

/-- Example: a request (CMD17) whose data has neither direction flag. -/
def ex_noflag_data : mmc_data := ex_data 512 1 0

/-- Example: a request (CMD17) whose data has neither direction flag. -/
def ex_noflag_mrq : mmc_request := ⟨ex_cmd 17 1 0, some ex_noflag_data⟩

/-- The script of a command without transfer that succeeds: command event and
four response words. -/
def ex_noflag_script : Script := [1, 0x11, 0x22, 0x33, 0x900]

/-- The block length and block count writes of the request without direction
flag. -/
def ex_noflag_setup_trace : List Ev :=
  [Ev.write Reg.SDCORE_BLKLEN 2 512, Ev.write Reg.SDCORE_BLKCNT 4 1]

/-! ## Theorems: register codec -/

theorem swab32_lt (x : Nat) : swab32 x < 2 ^ 32 := by
  unfold swab32; omega

theorem swab32_bytes (a b c d : Nat) (ha : a < 256) (hb : b < 256) (hc : c < 256)
    (hd : d < 256) :
    swab32 (a * 2 ^ 24 + b * 2 ^ 16 + c * 2 ^ 8 + d) = d * 2 ^ 24 + c * 2 ^ 16 + b * 2 ^ 8 + a := by
  unfold swab32; omega

theorem swab32_swab32 (x : Nat) (h : x < 2 ^ 32) : swab32 (swab32 x) = x := by
  have e : swab32 x
      = (x % 256) * 2 ^ 24 + (x / 2 ^ 8 % 256) * 2 ^ 16 + (x / 2 ^ 16 % 256) * 2 ^ 8
        + x / 2 ^ 24 % 256 := rfl
  rw [e, swab32_bytes _ _ _ _ (by omega) (by omega) (by omega) (by omega)]
  have h1 : x / 2 ^ 8 / 256 = x / 2 ^ 16 := by rw [Nat.div_div_eq_div_mul]; norm_num
  have h2 : x / 2 ^ 16 / 256 = x / 2 ^ 24 := by rw [Nat.div_div_eq_div_mul]; norm_num
  have h3 : x / 2 ^ 24 / 256 = 0 := by
    rw [Nat.div_div_eq_div_mul]; exact Nat.div_eq_of_lt (by norm_num; omega)
  omega

theorem cpu_to_le32_lt (p : Platform) (x : Nat) : cpu_to_le32 p x < 2 ^ 32 := by
  unfold cpu_to_le32
  split
  · exact swab32_lt _
  · exact Nat.mod_lt _ (by norm_num)

/-- Converting twice gives back the word truncated to 32 bits, on either byte
order. -/
theorem cpu_to_le32_twice (p : Platform) (x : Nat) :
    cpu_to_le32 p (cpu_to_le32 p x) = x % 2 ^ 32 := by
  unfold cpu_to_le32
  split
  · rw [Nat.mod_eq_of_lt (swab32_lt _), swab32_swab32 _ (Nat.mod_lt _ (by norm_num))]
  · simp

theorem le32_to_cpu_twice (p : Platform) (x : Nat) :
    le32_to_cpu p (le32_to_cpu p x) = x % 2 ^ 32 :=
  cpu_to_le32_twice p x

theorem writel_log (p : Platform) (b : Bank) (v a : Nat) :
    (writel p b v a).log = b.log ++ [Access.wr a (cpu_to_le32 p v)] := rfl

theorem writel_mem (p : Platform) (b : Bank) (v a x : Nat) :
    (writel p b v a).mem x = if x = a then cpu_to_le32 p v else b.mem x := rfl

/-- The physical accesses of the first `k` iterations of the loop of
`litex_set_reg`, and the words the bank then holds. -/
theorem set_reg_loop (p : Platform) (b : Bank) (reg reg_size val : Nat) (k : Nat) :
    ((List.range k).foldl
        (fun b i =>
          writel p b (cpu_to_le32 p ((val % 2 ^ p.BITS_PER_LONG) >>>
            ((reg_size - i - 1) * LITEX_SUBREG_SIZE_BIT))) (reg + LITEX_REG_SIZE * i)) b).log
      = b.log ++ (List.range k).map (fun i =>
          Access.wr (reg + 4 * i)
            (((val % 2 ^ p.BITS_PER_LONG) >>> (8 * (reg_size - 1 - i))) % 2 ^ 32))
    ∧ ∀ i, i < k →
      ((List.range k).foldl
        (fun b i =>
          writel p b (cpu_to_le32 p ((val % 2 ^ p.BITS_PER_LONG) >>>
            ((reg_size - i - 1) * LITEX_SUBREG_SIZE_BIT))) (reg + LITEX_REG_SIZE * i)) b).mem
        (reg + 4 * i)
      = ((val % 2 ^ p.BITS_PER_LONG) >>> (8 * (reg_size - 1 - i))) % 2 ^ 32 := by
  induction k with
  | zero => simp
  | succ k ih =>
    obtain ⟨ihl, ihm⟩ := ih
    have hs : ∀ i, (reg_size - i - 1) * LITEX_SUBREG_SIZE_BIT = 8 * (reg_size - 1 - i) := by
      intro i; simp only [LITEX_SUBREG_SIZE_BIT, LITEX_SUBREG_SIZE]; omega
    refine ⟨?_, ?_⟩
    · rw [List.range_succ, List.foldl_append, List.map_append]
      simp only [List.foldl_cons, List.foldl_nil, List.map_cons, List.map_nil]
      rw [writel_log, ihl]
      simp only [cpu_to_le32_twice, hs, LITEX_REG_SIZE, List.append_assoc]
    · intro i hi
      rw [List.range_succ, List.foldl_append]
      simp only [List.foldl_cons, List.foldl_nil]
      rw [writel_mem]
      by_cases hik : i = k
      · subst hik
        simp only [cpu_to_le32_twice, hs, LITEX_REG_SIZE, if_true]
      · have : reg + 4 * i ≠ reg + LITEX_REG_SIZE * k := by
          simp only [LITEX_REG_SIZE]; omega
        rw [if_neg this]
        exact ihm i (by omega)

theorem readl_fst (p : Platform) (b : Bank) (a : Nat) :
    (readl p b a).1 = le32_to_cpu p (b.mem a % 2 ^ 32) := rfl

theorem readl_mem (p : Platform) (b : Bank) (a : Nat) : (readl p b a).2.mem = b.mem := rfl

theorem readl_log (p : Platform) (b : Bank) (a : Nat) :
    (readl p b a).2.log = b.log ++ [Access.rd a (b.mem a % 2 ^ 32)] := rfl

/-- The first `k` iterations of the loop of `litex_get_reg`: the bank keeps its
words, the reads are those of the `k` physical registers, and the value is the
accumulation of the words read. -/
theorem get_reg_loop (p : Platform) (b : Bank) (reg reg_size : Nat) (k : Nat) :
    ((List.range k).foldl
        (fun (acc : Nat × Bank) i =>
          (acc.1 ||| (le32_to_cpu p (readl p acc.2 (reg + LITEX_REG_SIZE * i)).1 <<<
              ((reg_size - i - 1) * LITEX_SUBREG_SIZE_BIT)) % 2 ^ p.BITS_PER_LONG,
            (readl p acc.2 (reg + LITEX_REG_SIZE * i)).2)) (0, b))
      = ((List.range k).foldl
            (fun acc i => acc ||| ((b.mem (reg + 4 * i) % 2 ^ 32) <<<
              (8 * (reg_size - 1 - i))) % 2 ^ p.BITS_PER_LONG) 0,
          { mem := b.mem
            log := b.log ++ (List.range k).map (fun i =>
              Access.rd (reg + 4 * i) (b.mem (reg + 4 * i) % 2 ^ 32)) }) := by
  induction k with
  | zero => simp
  | succ k ih =>
    have hs : (reg_size - k - 1) * LITEX_SUBREG_SIZE_BIT = 8 * (reg_size - 1 - k) := by
      simp only [LITEX_SUBREG_SIZE_BIT, LITEX_SUBREG_SIZE]; omega
    rw [List.range_succ, List.foldl_append, List.foldl_append, List.map_append, ih]
    simp only [List.foldl_cons, List.foldl_nil, List.map_cons, List.map_nil, readl_fst,
      le32_to_cpu_twice, Nat.mod_mod, hs, LITEX_REG_SIZE]
    simp only [readl, List.append_assoc]

/-- Accumulating the words that `litex_set_reg` stored for `v` rebuilds, after
`k` iterations, the bits of `v` from position `8 * (w - k)` upwards. -/
theorem get_after_set_bits (L w v : Nat) (hL : 8 * w ≤ L) (hv : v < 2 ^ (8 * w)) (k : Nat)
    (hk : k ≤ w) (j : Nat) :
    ((List.range k).foldl
        (fun acc i => acc ||| (((v >>> (8 * (w - 1 - i))) % 2 ^ 32 % 2 ^ 32) <<<
          (8 * (w - 1 - i))) % 2 ^ L) 0).testBit j
      = (v.testBit j && decide (8 * (w - k) ≤ j)) := by
  induction k with
  | zero =>
    simp only [List.range_zero, List.foldl_nil, Nat.zero_testBit, Nat.sub_zero]
    by_cases hj : 8 * w ≤ j
    · have : v < 2 ^ j := lt_of_lt_of_le hv (Nat.pow_le_pow_right (by norm_num) hj)
      simp [Nat.testBit_lt_two_pow this]
    · simp [hj]
  | succ k ih =>
    rw [List.range_succ, List.foldl_append]
    simp only [List.foldl_cons, List.foldl_nil, Nat.testBit_or, ih (by omega),
      Nat.testBit_mod_two_pow, Nat.testBit_shiftLeft, Nat.testBit_shiftRight]
    by_cases hb : v.testBit j
    · have hj : j < 8 * w := by
        by_contra hc
        have : v < 2 ^ j := lt_of_lt_of_le hv (Nat.pow_le_pow_right (by norm_num) (by omega))
        rw [Nat.testBit_lt_two_pow this] at hb
        exact Bool.false_ne_true hb
      by_cases h1 : 8 * (w - k) ≤ j
      · have h2 : 8 * (w - (k + 1)) ≤ j := by omega
        simp [hb, h1, h2]
      · by_cases h2 : 8 * (w - (k + 1)) ≤ j
        · have e : 8 * (w - 1 - k) + (j - 8 * (w - 1 - k)) = j := by omega
          have h3 : j < L := by omega
          have h4 : j ≥ 8 * (w - 1 - k) := by omega
          have h5 : j - 8 * (w - 1 - k) < 32 := by omega
          simp [hb, h1, h2, e, h3, h4, h5]
        · have h4 : ¬ (j ≥ 8 * (w - 1 - k)) := by omega
          simp [hb, h1, h2, h4]
    · by_cases h4 : j ≥ 8 * (w - 1 - k)
      · have e : 8 * (w - 1 - k) + (j - 8 * (w - 1 - k)) = j := by omega
        simp [hb, e]
      · simp [hb, h4]

theorem litex_get_reg_eq (p : Platform) (b : Bank) (reg reg_size : Nat) :
    litex_get_reg p b reg reg_size
      = ((List.range reg_size).foldl
            (fun acc i => acc ||| ((b.mem (reg + 4 * i) % 2 ^ 32) <<<
              (8 * (reg_size - 1 - i))) % 2 ^ p.BITS_PER_LONG) 0,
          { mem := b.mem
            log := b.log ++ (List.range reg_size).map (fun i =>
              Access.rd (reg + 4 * i) (b.mem (reg + 4 * i) % 2 ^ 32)) }) :=
  get_reg_loop p b reg reg_size reg_size

theorem litex_set_reg_log (p : Platform) (b : Bank) (reg reg_size val : Nat) :
    (litex_set_reg p b reg reg_size val).log
      = b.log ++ (List.range reg_size).map (fun i =>
          Access.wr (reg + 4 * i)
            (((val % 2 ^ p.BITS_PER_LONG) >>> (8 * (reg_size - 1 - i))) % 2 ^ 32)) :=
  (set_reg_loop p b reg reg_size val reg_size).1

theorem litex_set_reg_mem (p : Platform) (b : Bank) (reg reg_size val i : Nat)
    (hi : i < reg_size) :
    (litex_set_reg p b reg reg_size val).mem (reg + 4 * i)
      = ((val % 2 ^ p.BITS_PER_LONG) >>> (8 * (reg_size - 1 - i))) % 2 ^ 32 :=
  (set_reg_loop p b reg reg_size val reg_size).2 i hi

/-- C1, amended. Round trip of the register codec: on a register bank that returns on
read the 32-bit physical word last written, for every width `w` whose `8 * w`
bits fit an `unsigned long` (so 1, 2, 4 and 8 on a 64-bit machine, 1, 2 and 4
on a 32-bit one) and every value `v < 2 ^ (8 * w)`, `litex_get_reg (reg, w)`
executed after `litex_set_reg (reg, w, v)` returns `v`, on either byte order
of the CPU. -/
theorem litex_reg_roundtrip (p : Platform) (b : Bank) (reg w v : Nat)
    (hw : 8 * w ≤ p.BITS_PER_LONG) (hv : v < 2 ^ (8 * w)) :
    (litex_get_reg p (litex_set_reg p b reg w v) reg w).1 = v := by
  have hvL : v % 2 ^ p.BITS_PER_LONG = v :=
    Nat.mod_eq_of_lt (lt_of_lt_of_le hv (Nat.pow_le_pow_right (by norm_num) hw))
  rw [litex_get_reg_eq]
  have hfold :
      (List.range w).foldl
          (fun acc i => acc ||| (((litex_set_reg p b reg w v).mem (reg + 4 * i) % 2 ^ 32) <<<
            (8 * (w - 1 - i))) % 2 ^ p.BITS_PER_LONG) 0
        = (List.range w).foldl
          (fun acc i => acc ||| (((v >>> (8 * (w - 1 - i))) % 2 ^ 32 % 2 ^ 32) <<<
            (8 * (w - 1 - i))) % 2 ^ p.BITS_PER_LONG) 0 := by
    apply List.foldl_ext
    intro acc i hi
    rw [litex_set_reg_mem p b reg w v i (List.mem_range.mp hi), hvL]
  show (List.range w).foldl _ 0 = v
  rw [hfold]
  apply Nat.eq_of_testBit_eq
  intro j
  rw [get_after_set_bits p.BITS_PER_LONG w v hw hv w le_rfl j]
  simp

/-- Witness for C1: an 8-byte register on a 64-bit big-endian machine. -/
theorem litex_reg_roundtrip_witness :
    8 * 8 ≤ (Platform.mk 64 100 true).BITS_PER_LONG ∧ 0x1122334455667788 < 2 ^ (8 * 8) ∧
    (litex_get_reg ⟨64, 100, true⟩
        (litex_set_reg ⟨64, 100, true⟩ ⟨fun _ => 0, []⟩ 0x800 8 0x1122334455667788) 0x800 8).1
      = 0x1122334455667788 :=
  ⟨by decide, by norm_num,
    litex_reg_roundtrip ⟨64, 100, true⟩ ⟨fun _ => 0, []⟩ 0x800 8 0x1122334455667788
      (by decide) (by norm_num)⟩

/-- C2, as stated, fails: writing the 2-byte value `0x1234` puts the word
`0x1234` (not the byte `0x34`) at index 1, so the words written are not the
bytes `(V >> 8 * (w - 1 - i)) & 0xFF`. -/
theorem litex_set_reg_words_not_bytes :
    (litex_set_reg ⟨64, 100, false⟩ ⟨fun _ => 0, []⟩ 0 2 0x1234).log
        = [Access.wr 0 0x12, Access.wr 4 0x1234]
      ∧ (litex_set_reg ⟨64, 100, false⟩ ⟨fun _ => 0, []⟩ 0 2 0x1234).log
        ≠ (List.range 2).map (fun i =>
            Access.wr (0 + 4 * i) ((0x1234 >>> (8 * (2 - 1 - i))) &&& 0xFF)) := by
  constructor
  · rw [litex_set_reg_log]; decide
  · rw [litex_set_reg_log]; decide

/-- C2, amended. Word ordering of a logical write: for every width `w` whose
`8 * w` bits fit an `unsigned long` and every `V < 2 ^ (8 * w)`,
`litex_set_reg (reg, w, V)` performs exactly `w` physical accesses, the writes
at `reg + 4 * i` for `i = 0 .. w - 1` in this order, on either byte order of the
CPU; the word written at index `i` is `V >> 8 * (w - 1 - i)` truncated to 32
bits, whose low byte is the `i`-th byte of the big-endian decomposition of `V`,
`(V >> 8 * (w - 1 - i)) & 0xFF`; the word at index 0 is exactly that byte. -/
theorem litex_set_reg_words (p : Platform) (b : Bank) (reg w V : Nat)
    (hw : 8 * w ≤ p.BITS_PER_LONG) (hV : V < 2 ^ (8 * w)) :
    (litex_set_reg p b reg w V).log
        = b.log ++ (List.range w).map (fun i =>
            Access.wr (reg + 4 * i) ((V >>> (8 * (w - 1 - i))) % 2 ^ 32))
      ∧ (∀ i, i < w →
          ((V >>> (8 * (w - 1 - i))) % 2 ^ 32) % 256 = (V >>> (8 * (w - 1 - i))) &&& 0xFF)
      ∧ (0 < w → (V >>> (8 * (w - 1 - 0))) % 2 ^ 32 = (V >>> (8 * (w - 1 - 0))) &&& 0xFF) := by
  have hVL : V % 2 ^ p.BITS_PER_LONG = V :=
    Nat.mod_eq_of_lt (lt_of_lt_of_le hV (Nat.pow_le_pow_right (by norm_num) hw))
  have hand : ∀ x : Nat, x &&& 0xFF = x % 256 := fun x => Nat.and_pow_two_sub_one_eq_mod x 8
  refine ⟨?_, ?_, ?_⟩
  · rw [litex_set_reg_log, hVL]
  · intro i _
    rw [hand]
    omega
  · intro h0
    rw [hand, Nat.shiftRight_eq_div_pow]
    have hlt : V / 2 ^ (8 * (w - 1 - 0)) < 256 := by
      rw [Nat.div_lt_iff_lt_mul (by positivity)]
      calc V < 2 ^ (8 * w) := hV
        _ = 256 * 2 ^ (8 * (w - 1 - 0)) := by
            rw [show 8 * w = 8 + 8 * (w - 1 - 0) by omega, pow_add]; norm_num
    rw [Nat.mod_eq_of_lt (lt_trans hlt (by norm_num)), Nat.mod_eq_of_lt hlt]

/-- Witness for C2 (amended): a 4-byte register on a 32-bit big-endian machine. -/
theorem litex_set_reg_words_witness :
    8 * 4 ≤ (Platform.mk 32 100 true).BITS_PER_LONG ∧ 0xdeadbeef < 2 ^ (8 * 4) ∧
    (litex_set_reg ⟨32, 100, true⟩ ⟨fun _ => 0, []⟩ 0x10 4 0xdeadbeef).log
      = [] ++ (List.range 4).map (fun i =>
            Access.wr (0x10 + 4 * i) ((0xdeadbeef >>> (8 * (4 - 1 - i))) % 2 ^ 32)) :=
  ⟨by decide, by norm_num,
    (litex_set_reg_words ⟨32, 100, true⟩ ⟨fun _ => 0, []⟩ 0x10 4 0xdeadbeef
      (by decide) (by norm_num)).1⟩

theorem litex_get_reg_mem (p : Platform) (b : Bank) (reg w : Nat) :
    (litex_get_reg p b reg w).2.mem = b.mem := by
  rw [litex_get_reg_eq]

theorem litex_get_reg_congr (p : Platform) (b b2 : Bank) (reg w : Nat) (h : b.mem = b2.mem) :
    (litex_get_reg p b reg w).1 = (litex_get_reg p b2 reg w).1 := by
  rw [litex_get_reg_eq, litex_get_reg_eq, h]

/-- What `litex_set_reg` writes, `litex_get_reg` reads back. -/
theorem litex_get_set_reg (p : Platform) (b : Bank) (reg w v : Nat)
    (hw : 8 * w ≤ p.BITS_PER_LONG) (hv : v < 2 ^ (8 * w)) :
    (litex_get_reg p (litex_set_reg p b reg w v) reg w).1 = v := by
  have hvL : v % 2 ^ p.BITS_PER_LONG = v :=
    Nat.mod_eq_of_lt (lt_of_lt_of_le hv (Nat.pow_le_pow_right (by norm_num) hw))
  rw [litex_get_reg_eq]
  have hfold :
      (List.range w).foldl
          (fun acc i => acc ||| (((litex_set_reg p b reg w v).mem (reg + 4 * i) % 2 ^ 32) <<<
            (8 * (w - 1 - i))) % 2 ^ p.BITS_PER_LONG) 0
        = (List.range w).foldl
          (fun acc i => acc ||| (((v >>> (8 * (w - 1 - i))) % 2 ^ 32 % 2 ^ 32) <<<
            (8 * (w - 1 - i))) % 2 ^ p.BITS_PER_LONG) 0 := by
    apply List.foldl_ext
    intro acc i hi
    rw [litex_set_reg_mem p b reg w v i (List.mem_range.mp hi), hvL]
  show (List.range w).foldl _ 0 = v
  rw [hfold]
  apply Nat.eq_of_testBit_eq
  intro j
  rw [get_after_set_bits p.BITS_PER_LONG w v hw hv w le_rfl j]
  simp

/-- C13. Self-test probe: on a register bank that stores the words written to
it, on a machine whose `unsigned long` has at least 32 bits,
`litex_check_csr_access (reg_addr)` ends in a call of `panic` iff the 4-byte
scratch register at `reg_addr + 0x04` does not read `0x12345678` at the start,
and then it is the panic of the first read (the value `0xdeadbeef` written
always reads back); otherwise it returns 0 and the scratch register reads
`0x12345678` afterwards. -/
theorem litex_check_csr_access_spec (p : Platform) (b : Bank) (reg_addr : Nat)
    (hL : 32 ≤ p.BITS_PER_LONG) :
    ((∃ e, litex_check_csr_access p b reg_addr = Except.error e)
        ↔ (litex_get_reg p b (reg_addr + 0x04) 4).1 ≠ 0x12345678) ∧
      (∀ e, litex_check_csr_access p b reg_addr = Except.error e →
        e = Panic.scratch_read_error (litex_get_reg p b (reg_addr + 0x04) 4).1) ∧
      (∀ r b2, litex_check_csr_access p b reg_addr = Except.ok (r, b2) →
        r = 0 ∧ (litex_get_reg p b2 (reg_addr + 0x04) 4).1 = 0x12345678) := by
  have h1 : ∀ bb : Bank, (litex_get_reg p (litex_set_reg p bb (reg_addr + 0x04) 4 0xdeadbeef)
      (reg_addr + 0x04) 4).1 = 0xdeadbeef :=
    fun bb => litex_get_set_reg p bb _ 4 _ (by omega) (by norm_num)
  have h2 : ∀ bb : Bank, (litex_get_reg p (litex_set_reg p bb (reg_addr + 0x04) 4 0x12345678)
      (reg_addr + 0x04) 4).1 = 0x12345678 :=
    fun bb => litex_get_set_reg p bb _ 4 _ (by omega) (by norm_num)
  unfold litex_check_csr_access
  simp only [SCRATCH_REG_OFF, SCRATCH_REG_SIZE, SCRATCH_REG_VALUE, SCRATCH_TEST_VALUE]
  by_cases hr : (litex_get_reg p b (reg_addr + 0x04) 4).1 = 0x12345678
  · simp only [hr, h1, h2, ne_eq, not_true_eq_false, if_false]
    refine ⟨?_, ?_, ?_⟩
    · simp
    · intro e he; cases he
    · intro r b2 he
      simp only [Except.ok.injEq, Prod.mk.injEq] at he
      obtain ⟨rfl, rfl⟩ := he
      exact ⟨rfl, h2 _⟩
  · simp only [ne_eq, hr, not_false_eq_true, if_true]
    refine ⟨?_, ?_, ?_⟩
    · simp
    · intro e he
      simp only [Except.error.injEq] at he
      exact he.symm
    · intro r b2 he; cases he

/-- Witness for C13: the scratch register of `ex_scratch_bank` on the 32-bit
big-endian example machine. -/
theorem litex_check_csr_access_spec_witness :
    32 ≤ ex_platform.BITS_PER_LONG ∧
    (((∃ e, litex_check_csr_access ex_platform ex_scratch_bank 0x800 = Except.error e)
        ↔ (litex_get_reg ex_platform ex_scratch_bank (0x800 + 0x04) 4).1 ≠ 0x12345678) ∧
      (∀ e, litex_check_csr_access ex_platform ex_scratch_bank 0x800 = Except.error e →
        e = Panic.scratch_read_error
          (litex_get_reg ex_platform ex_scratch_bank (0x800 + 0x04) 4).1) ∧
      (∀ r b2, litex_check_csr_access ex_platform ex_scratch_bank 0x800 = Except.ok (r, b2) →
        r = 0 ∧ (litex_get_reg ex_platform b2 (0x800 + 0x04) 4).1 = 0x12345678)) :=
  ⟨by decide, litex_check_csr_access_spec ex_platform ex_scratch_bank 0x800 (by decide)⟩

/-- An OR of bytes shifted to distinct byte positions is their weighted sum. -/
theorem or_fold_sum (f : Nat → Nat) (w : Nat) (hf : ∀ i, i < w → f i < 256) :
    ∀ k, k ≤ w →
      (List.range k).foldl (fun acc i => acc ||| (f i <<< (8 * (w - 1 - i)))) 0
          = ((List.range k).map (fun i => f i * 256 ^ (w - 1 - i))).sum ∧
        2 ^ (8 * (w - k)) ∣ ((List.range k).map (fun i => f i * 256 ^ (w - 1 - i))).sum := by
  intro k
  induction k with
  | zero => intro _; simp
  | succ k ih =>
    intro hk
    obtain ⟨ih1, q, hq⟩ := ih (by omega)
    rw [List.range_succ, List.foldl_append, List.map_append, List.sum_append, ih1]
    simp only [List.foldl_cons, List.foldl_nil, List.map_cons, List.map_nil, List.sum_cons,
      List.sum_nil, Nat.add_zero]
    have hlt : f k * 256 ^ (w - 1 - k) < 2 ^ (8 * (w - k)) := by
      have : 8 * (w - k) = 8 + 8 * (w - 1 - k) := by omega
      rw [this, pow_add, show (256 : Nat) = 2 ^ 8 by norm_num, ← pow_mul]
      exact Nat.mul_lt_mul_of_lt_of_le (hf k (by omega)) le_rfl (by positivity)
    have h256 : f k <<< (8 * (w - 1 - k)) = f k * 256 ^ (w - 1 - k) := by
      rw [Nat.shiftLeft_eq, show (256 : Nat) = 2 ^ 8 by norm_num, ← pow_mul]
    refine ⟨?_, ?_⟩
    · rw [h256, hq]
      exact (Nat.mul_add_lt_is_or hlt q).symm
    · have hd : 2 ^ (8 * (w - (k + 1))) ∣ 2 ^ (8 * (w - k)) :=
        pow_dvd_pow 2 (by omega)
      refine Dvd.dvd.add (hd.trans ⟨q, hq⟩) ?_
      rw [show (256 : Nat) = 2 ^ 8 by norm_num, ← pow_mul, show w - (k + 1) = w - 1 - k by omega]
      exact Dvd.intro_left _ rfl

/-- C14, amended. Logical read as big-endian composition: for every width `w` whose
`8 * w` bits fit an `unsigned long` and every bank whose words at `reg + 4 * i`
(`i = 0 .. w - 1`) hold values `b_i < 256`, `litex_get_reg (reg, w)` returns the
sum over `i` of `b_i * 256 ^ (w - 1 - i)`; its accesses are exactly the reads of
the addresses `reg + 4 * i`, in this order, and it changes no word. -/
theorem litex_get_reg_big_endian (p : Platform) (b : Bank) (reg w : Nat)
    (hw : 8 * w ≤ p.BITS_PER_LONG) (hb : ∀ i, i < w → b.mem (reg + 4 * i) < 256) :
    (litex_get_reg p b reg w).1
        = ((List.range w).map (fun i => b.mem (reg + 4 * i) * 256 ^ (w - 1 - i))).sum ∧
      (litex_get_reg p b reg w).2.log
        = b.log ++ (List.range w).map (fun i => Access.rd (reg + 4 * i) (b.mem (reg + 4 * i))) ∧
      (litex_get_reg p b reg w).2.mem = b.mem := by
  rw [litex_get_reg_eq]
  refine ⟨?_, ?_, rfl⟩
  · rw [← (or_fold_sum (fun i => b.mem (reg + 4 * i)) w hb w le_rfl).1]
    apply List.foldl_ext
    intro acc i hi
    have hi' := List.mem_range.mp hi
    have hbi := hb i hi'
    rw [Nat.mod_eq_of_lt (lt_trans hbi (by norm_num))]
    rw [Nat.mod_eq_of_lt]
    rw [Nat.shiftLeft_eq]
    calc b.mem (reg + 4 * i) * 2 ^ (8 * (w - 1 - i))
        < 2 ^ 8 * 2 ^ (8 * (w - 1 - i)) := Nat.mul_lt_mul_of_lt_of_le hbi le_rfl (by positivity)
      _ = 2 ^ (8 + 8 * (w - 1 - i)) := (pow_add 2 _ _).symm
      _ ≤ 2 ^ p.BITS_PER_LONG := Nat.pow_le_pow_right (by norm_num) (by omega)
  · show b.log ++ _ = b.log ++ _
    congr 1
    apply List.map_congr_left
    intro i hi
    rw [Nat.mod_eq_of_lt (lt_trans (hb i (List.mem_range.mp hi)) (by norm_num))]

/-- Witness for C14: the four bytes `0x12, 0x34, 0x56, 0x78` of
`ex_scratch_bank`. -/
theorem litex_get_reg_big_endian_witness :
    8 * 4 ≤ ex_platform.BITS_PER_LONG ∧
    (∀ i, i < 4 → ex_scratch_bank.mem (0x804 + 4 * i) < 256) ∧
    ((litex_get_reg ex_platform ex_scratch_bank 0x804 4).1
        = ((List.range 4).map
            (fun i => ex_scratch_bank.mem (0x804 + 4 * i) * 256 ^ (4 - 1 - i))).sum ∧
      (litex_get_reg ex_platform ex_scratch_bank 0x804 4).2.log
        = ex_scratch_bank.log ++ (List.range 4).map
            (fun i => Access.rd (0x804 + 4 * i) (ex_scratch_bank.mem (0x804 + 4 * i))) ∧
      (litex_get_reg ex_platform ex_scratch_bank 0x804 4).2.mem = ex_scratch_bank.mem) :=
  ⟨by decide, by decide,
    litex_get_reg_big_endian ex_platform ex_scratch_bank 0x804 4 (by decide) (by decide)⟩

theorem fold_or_lt (f : Nat → Nat) (n : Nat) (hf : ∀ i, f i < 2 ^ n) :
    ∀ (l : List Nat) (a : Nat), a < 2 ^ n → l.foldl (fun acc i => acc ||| f i) a < 2 ^ n
  | [], _, ha => ha
  | i :: l, a, ha => fold_or_lt f n hf l (a ||| f i) (Nat.or_lt_two_pow ha (hf i))

/-- The result of `litex_get_reg` is an `unsigned long`. -/
theorem litex_get_reg_lt (p : Platform) (b : Bank) (reg reg_size : Nat) :
    (litex_get_reg p b reg reg_size).1 < 2 ^ p.BITS_PER_LONG := by
  rw [litex_get_reg_eq]
  exact fold_or_lt _ _ (fun i => Nat.mod_lt _ (Nat.two_pow_pos _)) _ _ (Nat.two_pow_pos _)

/-- C1, as stated, fails: on a 32-bit machine the result of `litex_get_reg` is
below `2 ^ 32` whatever was written, so no 8-byte value from `2 ^ 32` on comes
back; after `litex_set_reg (0x800, 8, 0x1122334455667788)` the read
`litex_get_reg (0x800, 8)` returns `0x55667788`. -/
theorem litex_reg_roundtrip_fails_wide :
    ex_platform.BITS_PER_LONG = 32 ∧
    (0x1122334455667788 : Nat) < 2 ^ (8 * 8) ∧
    (litex_get_reg ex_platform
        (litex_set_reg ex_platform ⟨fun _ => 0, []⟩ 0x800 8 0x1122334455667788) 0x800 8).1
      = 0x55667788 ∧
    (0x55667788 : Nat) ≠ 0x1122334455667788 ∧
    (∀ (b : Bank) (reg : Nat), (litex_get_reg ex_platform b reg 8).1 < 2 ^ 32) := by
  refine ⟨rfl, by norm_num, ?_, by norm_num, fun b reg => litex_get_reg_lt ex_platform b reg 8⟩
  rw [litex_get_reg_eq]
  decide

/-- C14, as stated, fails: on a 32-bit machine, for the bank whose words at
`0x800 + 4 * i` (`i = 0 .. 7`) hold the bytes `0x11, 0x22, .., 0x88`,
`litex_get_reg (0x800, 8)` returns `0x55667788`, the low 32 bits of the sum
`0x1122334455667788` of the `b_i * 256 ^ (7 - i)`; its result is below `2 ^ 32`
for every bank. -/
theorem litex_get_reg_big_endian_fails_wide :
    ex_platform.BITS_PER_LONG = 32 ∧
    (∀ i, i < 8 → ex_wide_bank.mem (0x800 + 4 * i) < 256) ∧
    (litex_get_reg ex_platform ex_wide_bank 0x800 8).1 = 0x55667788 ∧
    ((List.range 8).map (fun i => ex_wide_bank.mem (0x800 + 4 * i) * 256 ^ (8 - 1 - i))).sum
      = 0x1122334455667788 ∧
    (0x55667788 : Nat) ≠ 0x1122334455667788 ∧
    (∀ (b : Bank) (reg : Nat), (litex_get_reg ex_platform b reg 8).1 < 2 ^ 32) := by
  refine ⟨rfl, by decide, ?_, by decide, by norm_num,
    fun b reg => litex_get_reg_lt ex_platform b reg 8⟩
  rw [litex_get_reg_eq]
  decide

/-! ## Lemmas: the driver computations -/

theorem Hw_pure_run {α : Type} (a : α) (s : Script) : (pure a : Hw α) s = some (a, s, []) := rfl

theorem Hw_bind_run {α β : Type} (m : Hw α) (f : α → Hw β) (s : Script) :
    (m >>= f) s = match m s with
      | none => none
      | some (a, s1, t1) =>
        match f a s1 with
        | none => none
        | some (b, s2, t2) => some (b, s2, t1 ++ t2) := rfl

theorem Hw_bind_eq_some {α β : Type} {m : Hw α} {f : α → Hw β} {s : Script} {b : β}
    {s2 : Script} {t : List Ev} :
    (m >>= f) s = some (b, s2, t) ↔
      ∃ a s1 t1 t2, m s = some (a, s1, t1) ∧ f a s1 = some (b, s2, t2) ∧ t = t1 ++ t2 := by
  rw [Hw_bind_run]
  constructor
  · intro h
    rcases hm : m s with _ | ⟨a, s1, t1⟩
    · rw [hm] at h; exact absurd h (by simp)
    · rw [hm] at h
      dsimp only at h
      rcases hf : f a s1 with _ | ⟨b1, s3, t2⟩
      · rw [hf] at h; exact absurd h (by simp)
      · rw [hf] at h
        simp only [Option.some.injEq, Prod.mk.injEq] at h
        obtain ⟨rfl, rfl, rfl⟩ := h
        exact ⟨a, s1, t1, t2, rfl, hf, rfl⟩
  · rintro ⟨a, s1, t1, t2, hm, hf, rfl⟩
    rw [hm]
    dsimp only
    rw [hf]

theorem Hw_pure_eq_some {α : Type} {a b : α} {s s2 : Script} {t : List Ev} :
    (pure a : Hw α) s = some (b, s2, t) ↔ a = b ∧ s = s2 ∧ t = [] := by
  rw [Hw_pure_run]
  simp only [Option.some.injEq, Prod.mk.injEq]
  constructor
  · rintro ⟨h1, h2, h3⟩; exact ⟨h1, h2, h3.symm⟩
  · rintro ⟨h1, h2, h3⟩; exact ⟨h1, h2, h3.symm⟩

theorem Hw_ite_run {α : Type} (c : Prop) [Decidable c] (m1 m2 : Hw α) (s : Script) :
    (if c then m1 else m2) s = if c then m1 s else m2 s := by
  split <;> rfl

theorem outputs_append (a b : List Ev) : outputs (a ++ b) = outputs a ++ outputs b :=
  List.filter_append _ _

theorem outputs_nil : outputs [] = [] := rfl

theorem litex_read_eq_some {size : Nat} {reg : Reg} {s : Script} {v : Nat} {s2 : Script}
    {t : List Ev} (h : litex_read size reg s = some (v, s2, t)) :
    ∃ x, s = x :: s2 ∧ v = x % 2 ^ (8 * size) ∧ t = [Ev.read reg size v] := by
  cases s with
  | nil => simp [litex_read] at h
  | cons x rest =>
    simp only [litex_read, Option.some.injEq, Prod.mk.injEq] at h
    obtain ⟨rfl, rfl, rfl⟩ := h
    exact ⟨x, rfl, rfl, rfl⟩

theorem jiffies_eq_some {p : Platform} {s : Script} {v : Nat} {s2 : Script}
    {t : List Ev} (h : jiffies p s = some (v, s2, t)) :
    ∃ x, s = x :: s2 ∧ v = x % 2 ^ p.BITS_PER_LONG ∧ t = [Ev.jiffies v] := by
  cases s with
  | nil => simp [jiffies] at h
  | cons x rest =>
    simp only [jiffies, Option.some.injEq, Prod.mk.injEq] at h
    obtain ⟨rfl, rfl, rfl⟩ := h
    exact ⟨x, rfl, rfl, rfl⟩

theorem poll_outputs (reg : Reg) : ∀ (s : Script) (e : Nat) (s2 : Script) (t : List Ev),
    sdcard_wait_done_poll reg s = some (e, s2, t) → outputs t = [] ∧ s2.length < s.length
  | [], e, s2, t, h => by simp [sdcard_wait_done_poll] at h
  | v :: rest, e, s2, t, h => by
    rw [sdcard_wait_done_poll] at h
    split at h
    · simp only [Option.some.injEq, Prod.mk.injEq] at h
      obtain ⟨_, rfl, rfl⟩ := h
      exact ⟨rfl, by simp⟩
    · cases hr : sdcard_wait_done_poll reg rest with
      | none => rw [hr] at h; simp at h
      | some y =>
        obtain ⟨e', s', t'⟩ := y
        rw [hr] at h
        simp only [Option.some.injEq, Prod.mk.injEq] at h
        obtain ⟨_, rfl, rfl⟩ := h
        have ih := poll_outputs reg rest e' s' t' hr
        refine ⟨?_, ?_⟩
        · show outputs ([Ev.read reg 1 (v % 2 ^ 8), Ev.udelay 5] ++ t') = []
          rw [outputs_append, ih.1]; rfl
        · simp only [List.length_cons]; omega

theorem litex_write_eq_some {size : Nat} {reg : Reg} {val : Nat} {s : Script} {u : Unit}
    {s2 : Script} {t : List Ev} (h : litex_write size reg val s = some (u, s2, t)) :
    s2 = s ∧ t = [Ev.write reg size (val % 2 ^ (8 * size))] := by
  simp only [litex_write, Option.some.injEq, Prod.mk.injEq] at h
  exact ⟨h.2.1.symm, h.2.2.symm⟩

theorem emit_eq_some {e : Ev} {s : Script} {u : Unit}
    {s2 : Script} {t : List Ev} (h : emit e s = some (u, s2, t)) :
    s2 = s ∧ t = [e] := by
  simp only [emit, Option.some.injEq, Prod.mk.injEq] at h
  exact ⟨h.2.1.symm, h.2.2.symm⟩

theorem sdcard_wait_done_eq_some {reg : Reg} {s : Script} {st : Nat} {s2 : Script}
    {t : List Ev} (h : sdcard_wait_done reg s = some (st, s2, t)) :
    outputs t = [] ∧ s2.length < s.length := by
  unfold sdcard_wait_done at h
  obtain ⟨e, s1, t1, t2, h1, h2, rfl⟩ := Hw_bind_eq_some.mp h
  obtain ⟨_, rfl, rfl⟩ := Hw_pure_eq_some.mp h2
  have := poll_outputs reg s e s1 t1 h1
  exact ⟨by rw [outputs_append, this.1]; rfl, this.2⟩

theorem dma_wait_outputs (p : Platform) (reg : Reg) (n : Nat) :
    ∀ (k : Nat) (s : Script), s.length ≤ k → ∀ (r : Bool) (s2 : Script) (t : List Ev),
    send_cmd_dma_wait p reg n s = some (r, s2, t) → outputs t = [] ∧ s2.length < s.length := by
  intro k
  induction k with
  | zero =>
    intro s hs r s2 t h
    have : s = [] := List.length_eq_zero.mp (by omega)
    subst this
    simp [send_cmd_dma_wait] at h
  | succ k ih =>
    intro s hs r s2 t h
    cases s with
    | nil => simp [send_cmd_dma_wait] at h
    | cons v rest =>
      cases rest with
      | nil =>
        rw [send_cmd_dma_wait] at h
        split at h
        · simp at h
        · simp only [Option.some.injEq, Prod.mk.injEq] at h
          obtain ⟨_, rfl, rfl⟩ := h
          exact ⟨rfl, by simp⟩
      | cons j rest2 =>
        rw [send_cmd_dma_wait] at h
        split at h
        · dsimp only at h
          split at h
          · simp only [Option.some.injEq, Prod.mk.injEq] at h
            obtain ⟨_, rfl, rfl⟩ := h
            exact ⟨rfl, by simp only [List.length_cons]; omega⟩
          · rcases hr : send_cmd_dma_wait p reg n rest2 with _ | ⟨r1, s3, t3⟩
            · rw [hr] at h; simp at h
            · rw [hr] at h
              simp only [Option.some.injEq, Prod.mk.injEq] at h
              obtain ⟨_, rfl, rfl⟩ := h
              have := ih rest2 (by simp only [List.length_cons] at hs; omega) r1 s3 t3 hr
              refine ⟨?_, ?_⟩
              · show outputs ([Ev.read reg 1 (v % 2 ^ 8), Ev.jiffies (j % 2 ^ p.BITS_PER_LONG)]
                  ++ t3) = []
                rw [outputs_append, this.1]; rfl
              · simp only [List.length_cons]; omega
        · simp only [Option.some.injEq, Prod.mk.injEq] at h
          obtain ⟨_, rfl, rfl⟩ := h
          exact ⟨rfl, by simp⟩

theorem send_cmd_read_resp_run (host : litex_mmc_host) (r0 r1 r2 r3 : Nat) (rest : Script) :
    send_cmd_read_resp host (r0 :: r1 :: r2 :: r3 :: rest)
      = some ({ host with resp := fun j =>
            if j = 3 then r3 % 2 ^ (8 * 4) else if j = 2 then r2 % 2 ^ (8 * 4)
            else if j = 1 then r1 % 2 ^ (8 * 4) else if j = 0 then r0 % 2 ^ (8 * 4)
            else host.resp j },
          rest,
          [Ev.read (Reg.SDCORE_CMDRSP 0) 4 (r0 % 2 ^ (8 * 4)),
           Ev.read (Reg.SDCORE_CMDRSP 1) 4 (r1 % 2 ^ (8 * 4)),
           Ev.read (Reg.SDCORE_CMDRSP 2) 4 (r2 % 2 ^ (8 * 4)),
           Ev.read (Reg.SDCORE_CMDRSP 3) 4 (r3 % 2 ^ (8 * 4))]) := rfl

theorem send_cmd_read_resp_eq_some {host h2 : litex_mmc_host} {s s2 : Script} {t : List Ev}
    (h : send_cmd_read_resp host s = some (h2, s2, t)) :
    ∃ r0 r1 r2 r3, s = r0 :: r1 :: r2 :: r3 :: s2 ∧
      h2 = { host with resp := fun j =>
                if j = 3 then r3 % 2 ^ (8 * 4) else if j = 2 then r2 % 2 ^ (8 * 4)
                else if j = 1 then r1 % 2 ^ (8 * 4) else if j = 0 then r0 % 2 ^ (8 * 4)
                else host.resp j } ∧
      t = [Ev.read (Reg.SDCORE_CMDRSP 0) 4 (r0 % 2 ^ (8 * 4)),
           Ev.read (Reg.SDCORE_CMDRSP 1) 4 (r1 % 2 ^ (8 * 4)),
           Ev.read (Reg.SDCORE_CMDRSP 2) 4 (r2 % 2 ^ (8 * 4)),
           Ev.read (Reg.SDCORE_CMDRSP 3) 4 (r3 % 2 ^ (8 * 4))] := by
  rcases s with _ | ⟨r0, _ | ⟨r1, _ | ⟨r2, _ | ⟨r3, rest⟩⟩⟩⟩
  · cases h
  · cases h
  · cases h
  · cases h
  · rw [send_cmd_read_resp_run] at h
    simp only [Option.some.injEq, Prod.mk.injEq] at h
    obtain ⟨rfl, rfl, rfl⟩ := h
    exact ⟨r0, r1, r2, r3, rfl, rfl, rfl⟩

theorem send_cmd_eq_some {p : Platform} {host h2 : litex_mmc_host} {cmd arg rl tr st : Nat}
    {s s2 : Script} {t : List Ev}
    (h : send_cmd p host cmd arg rl tr s = some ((st, h2), s2, t)) :
    (∃ t', t = cmd_issue cmd arg rl tr ++ t' ∧ outputs t' = []) ∧
      h2 = { host with resp := h2.resp, rca := h2.rca, app_cmd := h2.app_cmd } ∧
      s2.length < s.length ∧
      (cmd % 2 ^ 8 ≠ SD_SEND_RELATIVE_ADDR → h2.rca = host.rca) := by
  unfold send_cmd at h
  obtain ⟨_, sa, ta, ta', hw1, ha, rfl⟩ := Hw_bind_eq_some.mp h
  clear h
  obtain ⟨rfl, rfl⟩ := litex_write_eq_some hw1
  obtain ⟨_, sb, tb, tb', hw2, hb, rfl⟩ := Hw_bind_eq_some.mp ha
  clear ha
  obtain ⟨rfl, rfl⟩ := litex_write_eq_some hw2
  obtain ⟨_, sc, tc, tc', hw3, hc, rfl⟩ := Hw_bind_eq_some.mp hb
  clear hb
  obtain ⟨rfl, rfl⟩ := litex_write_eq_some hw3
  obtain ⟨status, s1, t1, t1', hwd, hd, rfl⟩ := Hw_bind_eq_some.mp hc
  clear hc hw1 hw2 hw3
  have hwd' := sdcard_wait_done_eq_some hwd
  have key : ∀ (tl : List Ev) (hh : litex_mmc_host) (sl : Script),
      outputs tl = [] → sl.length ≤ s1.length →
      hh = { host with resp := hh.resp, rca := hh.rca, app_cmd := hh.app_cmd } →
      (cmd % 2 ^ 8 ≠ SD_SEND_RELATIVE_ADDR → hh.rca = host.rca) →
      (∃ t', [Ev.write Reg.SDCORE_CMDARG 4 (arg % 2 ^ 32 % 2 ^ (8 * 4))] ++
        ([Ev.write Reg.SDCORE_CMDCMD 4
            (((cmd % 2 ^ 8) <<< 8 ||| (tr % 2 ^ 8) <<< 5 ||| rl % 2 ^ 8) % 2 ^ (8 * 4))] ++
          ([Ev.write Reg.SDCORE_CMDSND 1 (1 % 2 ^ (8 * 1))] ++ (t1 ++ tl)))
          = cmd_issue cmd arg rl tr ++ t' ∧ outputs t' = []) ∧
        hh = { host with resp := hh.resp, rca := hh.rca, app_cmd := hh.app_cmd } ∧
        sl.length < sc.length ∧
        (cmd % 2 ^ 8 ≠ SD_SEND_RELATIVE_ADDR → hh.rca = host.rca) := by
    intro tl hh sl htl hsl hhh hrca
    refine ⟨⟨t1 ++ tl, rfl, ?_⟩, hhh, by omega, hrca⟩
    rw [outputs_append, hwd'.1, htl]; rfl
  rw [Hw_ite_run] at hd
  split at hd
  · obtain ⟨he, rfl, rfl⟩ := Hw_pure_eq_some.mp hd
    simp only [Prod.mk.injEq] at he
    obtain ⟨rfl, rfl⟩ := he
    exact key [] host s1 rfl le_rfl rfl (fun _ => rfl)
  · obtain ⟨hr, sr, tr1, tr1', hrd, he, rfl⟩ := Hw_bind_eq_some.mp hd
    clear hd
    have hrd' : outputs tr1 = [] ∧ sr.length ≤ s1.length ∧
        hr = { host with resp := hr.resp } := by
      rw [Hw_ite_run] at hrd
      split at hrd
      · obtain ⟨r0, r1, r2, r3, rfl, rfl, rfl⟩ := send_cmd_read_resp_eq_some hrd
        exact ⟨rfl, by simp only [List.length_cons]; omega, rfl⟩
      · obtain ⟨rfl, rfl, rfl⟩ := Hw_pure_eq_some.mp hrd
        exact ⟨rfl, le_rfl, rfl⟩
    obtain ⟨hro, hrl, hrh⟩ := hrd'
    dsimp only at he
    have hframe : ∀ b : Bool,
        ({ (if (!hr.app_cmd && cmd % 2 ^ 8 == SD_SEND_RELATIVE_ADDR) = true then
              { hr with rca := (hr.resp 3 >>> 16) &&& 0xffff } else hr) with
            app_cmd := b } : litex_mmc_host)
          = { host with
              resp := hr.resp
              rca := (if (!hr.app_cmd && cmd % 2 ^ 8 == SD_SEND_RELATIVE_ADDR) = true then
                (hr.resp 3 >>> 16) &&& 0xffff else hr.rca)
              app_cmd := b } := by
      intro b
      rw [hrh]; split <;> rfl
    have hrca : ∀ b : Bool, cmd % 2 ^ 8 ≠ SD_SEND_RELATIVE_ADDR →
        ({ (if (!hr.app_cmd && cmd % 2 ^ 8 == SD_SEND_RELATIVE_ADDR) = true then
              { hr with rca := (hr.resp 3 >>> 16) &&& 0xffff } else hr) with
            app_cmd := b } : litex_mmc_host).rca = host.rca := by
      intro b hne
      have hc : ¬ ((!hr.app_cmd && cmd % 2 ^ 8 == SD_SEND_RELATIVE_ADDR) = true) := by
        rw [Bool.and_eq_true, beq_iff_eq]
        exact fun hh => hne hh.2
      rw [hframe b, if_neg hc, hrh]
    rw [Hw_ite_run] at he
    split at he
    · obtain ⟨hx, rfl, rfl⟩ := Hw_pure_eq_some.mp he
      simp only [Prod.mk.injEq] at hx
      obtain ⟨rfl, rfl⟩ := hx
      refine key _ _ _ (by rw [outputs_append, hro]; rfl) hrl ?_ ?_
      · rw [hframe]
      · exact hrca _
    · obtain ⟨st2, sd, td, td', hdd, hf, rfl⟩ := Hw_bind_eq_some.mp he
      clear he
      have hdd' := sdcard_wait_done_eq_some hdd
      rw [Hw_ite_run] at hf
      split at hf
      · obtain ⟨hx, rfl, rfl⟩ := Hw_pure_eq_some.mp hf
        simp only [Prod.mk.injEq] at hx
        obtain ⟨rfl, rfl⟩ := hx
        refine key _ _ _ (by simp only [outputs_append, hro, hdd'.1, outputs_nil, List.append_nil])
          (by omega) ?_ ?_
        · rw [hframe]
        · exact hrca _
      · obtain ⟨j, sj, tj, tj', hj, hg, rfl⟩ := Hw_bind_eq_some.mp hf
        clear hf
        obtain ⟨x, rfl, rfl, rfl⟩ := jiffies_eq_some hj
        obtain ⟨dn, sw, tw, tw', hwt, hk, rfl⟩ := Hw_bind_eq_some.mp hg
        clear hg
        have hwt' := dma_wait_outputs p _ _ _ _ le_rfl _ _ _ hwt
        have hfin : outputs (tr1 ++ (td ++ ([Ev.jiffies (x % 2 ^ p.BITS_PER_LONG)] ++ (tw ++ tw'))))
            = outputs tw' := by
          simp only [outputs_append, hro, hdd'.1, hwt'.1, List.nil_append]
          rfl
        have hlen : sw.length ≤ s1.length := by
          have := hdd'.2
          simp only [List.length_cons] at this
          omega
        rw [Hw_ite_run] at hk
        split at hk
        · obtain ⟨hx, rfl, rfl⟩ := Hw_pure_eq_some.mp hk
          simp only [Prod.mk.injEq] at hx
          obtain ⟨rfl, rfl⟩ := hx
          refine key _ _ _ (by rw [hfin]; rfl) hlen ?_ ?_
          · rw [hframe]
          · exact hrca _
        · obtain ⟨hx, rfl, rfl⟩ := Hw_pure_eq_some.mp hk
          simp only [Prod.mk.injEq] at hx
          obtain ⟨rfl, rfl⟩ := hx
          refine key _ _ _ (by rw [hfin]; rfl) hlen ?_ ?_
          · rw [hframe]
          · exact hrca _

theorem send_cmd_times_eq_some {p : Platform} {cmd arg rl tr : Nat} :
    ∀ (m : Nat) {host h2 : litex_mmc_host} {sts : List Nat} {s s2 : Script} {t : List Ev},
    send_cmd_times p cmd arg rl tr m host s = some ((sts, h2), s2, t) →
      sts.length = m ∧
      outputs t = (List.replicate m (cmd_issue cmd arg rl tr)).flatten ∧
      h2 = { host with resp := h2.resp, rca := h2.rca, app_cmd := h2.app_cmd }
  | 0, host, h2, sts, s, s2, t, h => by
    obtain ⟨he, rfl, rfl⟩ := Hw_pure_eq_some.mp h
    simp only [Prod.mk.injEq] at he
    obtain ⟨rfl, rfl⟩ := he
    exact ⟨rfl, rfl, rfl⟩
  | m + 1, host, h2, sts, s, s2, t, h => by
    rw [send_cmd_times] at h
    obtain ⟨r, s1, t1, t1', h1, ha, rfl⟩ := Hw_bind_eq_some.mp h
    clear h
    obtain ⟨rs, s3, t3, t3', h3, hb, rfl⟩ := Hw_bind_eq_some.mp ha
    clear ha
    obtain ⟨he, rfl, rfl⟩ := Hw_pure_eq_some.mp hb
    simp only [Prod.mk.injEq] at he
    obtain ⟨rfl, rfl⟩ := he
    obtain ⟨⟨t', rfl, ho⟩, hf, _, _⟩ := send_cmd_eq_some h1
    obtain ⟨hl, hout, hfr⟩ := send_cmd_times_eq_some m h3
    refine ⟨by simp [hl], ?_, ?_⟩
    · simp only [outputs_append, ho, hout, List.replicate_succ, List.flatten_cons,
        List.append_nil, outputs_nil]
      rfl
    · rw [hfr, hf]

theorem outputs_cmd_issue (cmd arg rl tr : Nat) :
    outputs (cmd_issue cmd arg rl tr) = cmd_issue cmd arg rl tr := rfl

/-- The retry loop makes between 1 and `retries + 1` calls of `send_cmd`, every
call but the last fails, and the loop ends at the first success or when the
retries are used up. -/
theorem litex_request_retry_eq_some {p : Platform} {cmd arg rl tr : Nat} :
    ∀ (n : Nat) {host h2 : litex_mmc_host} {st : Nat} {s s2 : Script} {t : List Ev},
    litex_request_retry p cmd arg rl tr n host s = some ((st, h2), s2, t) →
      ∃ sts : List Nat,
        send_cmd_times p cmd arg rl tr sts.length host s = some ((sts, h2), s2, t) ∧
        1 ≤ sts.length ∧ sts.length ≤ n + 1 ∧
        (∀ x ∈ sts.dropLast, x ≠ SD_OK) ∧
        sts.getLast? = some st ∧
        (st = SD_OK ∨ sts.length = n + 1)
  | 0, host, h2, st, s, s2, t, h => by
    rw [litex_request_retry] at h
    refine ⟨[st], ?_, by simp, by simp, by simp, by simp, Or.inr rfl⟩
    show (send_cmd p host cmd arg rl tr >>= fun r =>
      send_cmd_times p cmd arg rl tr 0 r.2 >>= fun rs => pure (r.1 :: rs.1, rs.2)) s = _
    rw [Hw_bind_eq_some]
    exact ⟨(st, h2), s2, t, [], h, rfl, by simp⟩
  | n + 1, host, h2, st, s, s2, t, h => by
    rw [litex_request_retry] at h
    obtain ⟨r, s1, t1, t1', h1, ha, rfl⟩ := Hw_bind_eq_some.mp h
    clear h
    rw [Hw_ite_run] at ha
    split at ha
    · rename_i hne
      obtain ⟨sts, hs, hl1, hl2, hd, hlast, hor⟩ := litex_request_retry_eq_some n ha
      refine ⟨r.1 :: sts, ?_, by simp, by simp; omega, ?_, ?_, ?_⟩
      · show (send_cmd p host cmd arg rl tr >>= fun r =>
          send_cmd_times p cmd arg rl tr sts.length r.2 >>= fun rs =>
            pure (r.1 :: rs.1, rs.2)) s = _
        rw [Hw_bind_eq_some]
        refine ⟨r, s1, t1, t1', h1, ?_, rfl⟩
        rw [Hw_bind_eq_some]
        exact ⟨(sts, h2), s2, t1', [], hs, rfl, by simp⟩
      · intro x hx
        cases sts with
        | nil => simp at hl1
        | cons y ys =>
          simp only [List.dropLast_cons₂, List.mem_cons] at hx
          rcases hx with rfl | hx
          · exact hne
          · exact hd x hx
      · cases sts with
        | nil => simp at hl1
        | cons y ys => simpa using hlast
      · rcases hor with h0 | h0
        · exact Or.inl h0
        · exact Or.inr (by simp [h0])
    · rename_i hok
      obtain ⟨he, rfl, rfl⟩ := Hw_pure_eq_some.mp ha
      subst he
      refine ⟨[st], ?_, by simp, by simp, by simp, by simp, Or.inl (by simpa using hok)⟩
      show (send_cmd p host cmd arg rl tr >>= fun r =>
        send_cmd_times p cmd arg rl tr 0 r.2 >>= fun rs => pure (r.1 :: rs.1, rs.2)) s = _
      rw [Hw_bind_eq_some]
      exact ⟨_, _, _, [], h1, rfl, by simp⟩


theorem litex_set_bus_width_eq_some {p : Platform} {host h2 : litex_mmc_host} {st : Nat}
    {s s2 : Script} {t : List Ev}
    (h : litex_set_bus_width p host s = some ((st, h2), s2, t)) :
    outputs t = bus_width_issue host.app_cmd host.rca ∧
      h2 = { host with resp := h2.resp, app_cmd := h2.app_cmd } ∧
      s2.length < s.length := by
  unfold litex_set_bus_width at h
  obtain ⟨ha, sa, ta, ta', h1, hb, rfl⟩ := Hw_bind_eq_some.mp h
  clear h
  obtain ⟨r, sb, tb, tb', h2', hc, rfl⟩ := Hw_bind_eq_some.mp hb
  clear hb
  obtain ⟨hd, sd, td, td', h3, he, rfl⟩ := Hw_bind_eq_some.mp hc
  clear hc
  obtain ⟨hx, rfl, rfl⟩ := Hw_pure_eq_some.mp he
  simp only [Prod.mk.injEq] at hx
  obtain ⟨rfl, rfl⟩ := hx
  obtain ⟨⟨t6, rfl, ho6⟩, hf6, hl6, hrca6⟩ :=
    send_cmd_eq_some h2'
  have hrca6' : r.2.rca = ha.rca := hrca6 (by decide)
  cases hac : host.app_cmd with
  | false =>
    rw [hac] at h1 h3
    simp only [Bool.not_false, if_true, Bool.false_eq_true, if_false] at h1 h3
    obtain ⟨rfl, rfl, rfl⟩ := Hw_pure_eq_some.mp h3
    obtain ⟨r1, s1, t1, t1', hs1, hp1, rfl⟩ := Hw_bind_eq_some.mp h1
    obtain ⟨rfl, rfl, rfl⟩ := Hw_pure_eq_some.mp hp1
    obtain ⟨⟨t5, rfl, ho5⟩, hf5, hl5, hrca5⟩ :=
      send_cmd_eq_some hs1
    have hrca5' : r1.2.rca = host.rca := hrca5 (by decide)
    refine ⟨?_, ?_, by omega⟩
    · simp only [outputs_append, ho5, ho6, outputs_cmd_issue, outputs_nil, List.append_nil,
        bus_width_issue, Bool.false_eq_true, if_false, List.nil_append]
    · rw [hf6, hf5, hrca6', hrca5']
  | true =>
    rw [hac] at h1 h3
    simp only [Bool.not_true, Bool.false_eq_true, if_false, if_true] at h1 h3
    obtain ⟨rfl, rfl, rfl⟩ := Hw_pure_eq_some.mp h1
    obtain ⟨r1, s1, t1, t1', hs1, hp1, rfl⟩ := Hw_bind_eq_some.mp h3
    obtain ⟨rfl, rfl, rfl⟩ := Hw_pure_eq_some.mp hp1
    obtain ⟨⟨t5, rfl, ho5⟩, hf5, hl5, hrca5⟩ :=
      send_cmd_eq_some hs1
    have hrca5' : r1.2.rca = r.2.rca := hrca5 (by decide)
    refine ⟨?_, ?_, by omega⟩
    · simp only [outputs_append, ho5, ho6, outputs_cmd_issue, outputs_nil, List.append_nil,
        bus_width_issue, if_true, hrca6', List.nil_append]
    · rw [hf5, hf6, hrca5', hrca6']


theorem mem_bus_width_issue {app_cmd : Bool} {rca : Nat} {e : Ev}
    (he : e ∈ bus_width_issue app_cmd rca) :
    e ∈ cmd_issue MMC_APP_CMD ((rca % 2 ^ 16) <<< 16) SDCARD_CTRL_RESPONSE_SHORT
          SDCARD_CTRL_DATA_TRANSFER_NONE
      ∨ e ∈ cmd_issue SD_APP_SET_BUS_WIDTH MMC_BUS_WIDTH_4 SDCARD_CTRL_RESPONSE_SHORT
          SDCARD_CTRL_DATA_TRANSFER_NONE := by
  unfold bus_width_issue at he
  split at he
  · rcases List.mem_append.mp he with h | h
    · exact Or.inr h
    · exact Or.inl h
  · rcases List.mem_append.mp he with h | h
    · exact Or.inl h
    · exact Or.inr h

theorem litex_request_bus_width_loop_eq_some {p : Platform} {n : Nat} :
    ∀ (fuel : Nat) {host h2 : litex_mmc_host} {ok : Bool} {s s2 : Script} {t : List Ev},
    litex_request_bus_width_loop p n fuel host s = some ((ok, h2), s2, t) →
      (∀ e ∈ outputs t,
        e ∈ cmd_issue MMC_APP_CMD ((host.rca % 2 ^ 16) <<< 16) SDCARD_CTRL_RESPONSE_SHORT
            SDCARD_CTRL_DATA_TRANSFER_NONE
        ∨ e ∈ cmd_issue SD_APP_SET_BUS_WIDTH MMC_BUS_WIDTH_4 SDCARD_CTRL_RESPONSE_SHORT
            SDCARD_CTRL_DATA_TRANSFER_NONE) ∧
      h2 = { host with resp := h2.resp, app_cmd := h2.app_cmd } ∧
      s2.length < s.length
  | 0, host, h2, ok, s, s2, t, h => by
    rw [litex_request_bus_width_loop] at h
    cases h
  | fuel + 1, host, h2, ok, s, s2, t, h => by
    rw [litex_request_bus_width_loop] at h
    obtain ⟨r, s1, t1, t1', h1, ha, rfl⟩ := Hw_bind_eq_some.mp h
    clear h
    obtain ⟨ho, hf, hl⟩ := litex_set_bus_width_eq_some h1
    have hrca : r.2.rca = host.rca := by rw [hf]
    rw [Hw_ite_run] at ha
    split at ha
    · obtain ⟨now, sj, tj, tj', hj, hb, rfl⟩ := Hw_bind_eq_some.mp ha
      clear ha
      obtain ⟨x, rfl, rfl, rfl⟩ := jiffies_eq_some hj
      rw [Hw_ite_run] at hb
      split at hb
      · obtain ⟨hx, rfl, rfl⟩ := Hw_pure_eq_some.mp hb
        simp only [Prod.mk.injEq] at hx
        obtain ⟨rfl, rfl⟩ := hx
        refine ⟨?_, hf, by simp only [List.length_cons] at hl; omega⟩
        intro e he
        simp only [outputs_append, ho, outputs_nil, List.append_nil] at he
        have he' : e ∈ bus_width_issue host.app_cmd host.rca := by
          simpa [outputs, Ev.is_output] using he
        exact mem_bus_width_issue he'
      · obtain ⟨ih1, ih2, ih3⟩ := litex_request_bus_width_loop_eq_some fuel hb
        refine ⟨?_, ?_, by simp only [List.length_cons] at hl; omega⟩
        · intro e he
          simp only [outputs_append, ho, List.mem_append] at he
          rcases he with he | he | he
          · exact mem_bus_width_issue he
          · simp [outputs, Ev.is_output] at he
          · rw [← hrca]; exact ih1 e he
        · rw [ih2, hf]
    · obtain ⟨hx, rfl, rfl⟩ := Hw_pure_eq_some.mp ha
      simp only [Prod.mk.injEq] at hx
      obtain ⟨rfl, rfl⟩ := hx
      refine ⟨?_, hf, hl⟩
      intro e he
      simp only [outputs_append, ho, outputs_nil, List.append_nil] at he
      exact mem_bus_width_issue he

theorem litex_request_bus_width_eq_some {p : Platform} {host h2 : litex_mmc_host} {ok : Bool}
    {s s2 : Script} {t : List Ev}
    (h : litex_request_bus_width p host s = some ((ok, h2), s2, t)) :
    (∀ e ∈ outputs t,
        e ∈ cmd_issue MMC_APP_CMD ((host.rca % 2 ^ 16) <<< 16) SDCARD_CTRL_RESPONSE_SHORT
            SDCARD_CTRL_DATA_TRANSFER_NONE
        ∨ e ∈ cmd_issue SD_APP_SET_BUS_WIDTH MMC_BUS_WIDTH_4 SDCARD_CTRL_RESPONSE_SHORT
            SDCARD_CTRL_DATA_TRANSFER_NONE) ∧
      h2 = { host with resp := h2.resp, app_cmd := h2.app_cmd,
                       is_bus_width_set := h2.is_bus_width_set } ∧
      (ok = false → host.is_bus_width_set = false ∧ h2.is_bus_width_set = false) ∧
      (ok = true → h2.is_bus_width_set = true) ∧
      (host.is_bus_width_set = true → ok = true ∧ h2 = host ∧ s2 = s ∧ t = []) := by
  unfold litex_request_bus_width at h
  rw [Hw_ite_run] at h
  split at h
  · rename_i hflag
    have hflag' : host.is_bus_width_set = false := by simpa using hflag
    obtain ⟨j, sj, tj, tj', hj, ha, rfl⟩ := Hw_bind_eq_some.mp h
    clear h
    obtain ⟨x, rfl, rfl, rfl⟩ := jiffies_eq_some hj
    obtain ⟨r, s1, t1, t1', h1, hb, rfl⟩ := Hw_bind_eq_some.mp ha
    clear ha
    obtain ⟨ho, hf, hl⟩ := litex_request_bus_width_loop_eq_some _ h1
    have houts : ∀ (tl : List Ev), outputs tl = [] →
        ∀ e ∈ outputs ([Ev.jiffies (x % 2 ^ p.BITS_PER_LONG)] ++ (t1 ++ tl)),
        e ∈ cmd_issue MMC_APP_CMD ((host.rca % 2 ^ 16) <<< 16) SDCARD_CTRL_RESPONSE_SHORT
            SDCARD_CTRL_DATA_TRANSFER_NONE
        ∨ e ∈ cmd_issue SD_APP_SET_BUS_WIDTH MMC_BUS_WIDTH_4 SDCARD_CTRL_RESPONSE_SHORT
            SDCARD_CTRL_DATA_TRANSFER_NONE := by
      intro tl htl e he
      simp only [outputs_append, htl, List.append_nil, List.mem_append] at he
      rcases he with he | he
      · simp [outputs, Ev.is_output] at he
      · exact ho e he
    rw [Hw_ite_run] at hb
    split at hb
    · rename_i hok
      obtain ⟨hx, rfl, rfl⟩ := Hw_pure_eq_some.mp hb
      simp only [Prod.mk.injEq] at hx
      obtain ⟨rfl, rfl⟩ := hx
      refine ⟨houts [] rfl, ?_, by simp, fun _ => rfl, ?_⟩
      · rw [hf]
      · intro hc; rw [hflag'] at hc; cases hc
    · rename_i hok
      obtain ⟨hx, rfl, rfl⟩ := Hw_pure_eq_some.mp hb
      simp only [Prod.mk.injEq] at hx
      obtain ⟨rfl, rfl⟩ := hx
      refine ⟨houts [] rfl, ?_, ?_, ?_, ?_⟩
      · rw [hf]
      · intro _; exact ⟨hflag', by rw [hf]; exact hflag'⟩
      · intro hc; cases hc
      · intro hc; rw [hflag'] at hc; cases hc
  · rename_i hflag
    have hflag' : host.is_bus_width_set = true := by simpa using hflag
    obtain ⟨hx, rfl, rfl⟩ := Hw_pure_eq_some.mp h
    simp only [Prod.mk.injEq] at hx
    obtain ⟨rfl, rfl⟩ := hx
    refine ⟨by simp [outputs], rfl, ?_, fun _ => hflag', fun _ => ⟨rfl, rfl, rfl, rfl⟩⟩
    intro hc; cases hc


theorem litex_request_setup_read (p : Platform) (host : litex_mmc_host) (d : mmc_data)
    (s : Script) (hr : d.flags &&& MMC_DATA_READ ≠ 0) :
    litex_request_setup p host d s
      = some ((host, SDCARD_CTRL_DATA_TRANSFER_READ), s,
          [Ev.write Reg.SDBLK2MEM_ENA 1 0,
           Ev.write Reg.SDBLK2MEM_BASE 8 (host.dma_handle % 2 ^ 64),
           Ev.write Reg.SDBLK2MEM_LEN 4 ((d.blksz * d.blocks) % 2 ^ 32),
           Ev.write Reg.SDBLK2MEM_ENA 1 1,
           Ev.write Reg.SDCORE_BLKLEN 2 (d.blksz % 2 ^ 16),
           Ev.write Reg.SDCORE_BLKCNT 4 (d.blocks % 2 ^ 32)]) := by
  unfold litex_request_setup
  rw [if_pos hr]
  simp only [Hw_bind_run, litex_write8, litex_write16, litex_write32, litex_write64, litex_write,
    Hw_pure_run, List.append_nil, List.singleton_append, List.cons_append, List.nil_append,
    Nat.mod_mod]
  rfl

theorem litex_request_setup_write (p : Platform) (host : litex_mmc_host) (d : mmc_data)
    (s : Script) (hr : ¬ d.flags &&& MMC_DATA_READ ≠ 0) (hw : d.flags &&& MMC_DATA_WRITE ≠ 0) :
    litex_request_setup p host d s
      = some (({ host with
                  buffer := sg_copy_to_buffer d.sg host.buffer
                              (int_to_unsigned p.BITS_PER_LONG (litex_request_write_length host d)) },
              SDCARD_CTRL_DATA_TRANSFER_WRITE), s,
          [Ev.sg_copy_to_buffer
             (int_to_unsigned p.BITS_PER_LONG (litex_request_write_length host d)),
           Ev.write Reg.SDMEM2BLK_ENA 1 0,
           Ev.write Reg.SDMEM2BLK_BASE 8 (host.dma_handle % 2 ^ 64),
           Ev.write Reg.SDMEM2BLK_LEN 4
             (int_to_unsigned 32 (litex_request_write_length host d) % 2 ^ 32),
           Ev.write Reg.SDMEM2BLK_ENA 1 1,
           Ev.write Reg.SDCORE_BLKLEN 2 (d.blksz % 2 ^ 16),
           Ev.write Reg.SDCORE_BLKCNT 4 (d.blocks % 2 ^ 32)]) := by
  unfold litex_request_setup
  rw [if_neg hr, if_pos hw]
  simp only [Hw_bind_run, litex_write8, litex_write16, litex_write32, litex_write64, litex_write,
    Hw_pure_run, emit, List.append_nil, List.singleton_append, List.cons_append, List.nil_append,
    Nat.mod_mod]
  rfl

theorem litex_request_setup_none (p : Platform) (host : litex_mmc_host) (d : mmc_data)
    (s : Script) (hr : ¬ d.flags &&& MMC_DATA_READ ≠ 0) (hw : ¬ d.flags &&& MMC_DATA_WRITE ≠ 0) :
    litex_request_setup p host d s
      = some ((host, SDCARD_CTRL_DATA_TRANSFER_NONE), s,
          [Ev.write Reg.SDCORE_BLKLEN 2 (d.blksz % 2 ^ 16),
           Ev.write Reg.SDCORE_BLKCNT 4 (d.blocks % 2 ^ 32)]) := by
  unfold litex_request_setup
  rw [if_neg hr, if_neg hw]
  rfl


theorem litex_request_command_eq_some {p : Platform} {mmc : mmc_host}
    {host host' : litex_mmc_host} {mrq mrq' : mmc_request} {rl tr : Nat} {s s' : Script}
    {t : List Ev}
    (h : litex_request_command p mmc host mrq rl tr s = some ((host', mrq'), s', t)) :
    ∃ st h2 s2 t2 t3,
      litex_request_retry p mrq.cmd.opcode mrq.cmd.arg rl tr mrq.cmd.retries host s
        = some ((st, h2), s2, t2) ∧
      (if mrq.cmd.opcode = MMC_READ_MULTIPLE_BLOCK ∨ mrq.cmd.opcode = MMC_WRITE_MULTIPLE_BLOCK
        then ∃ st3, send_stop_tx_cmd p h2 s2 = some ((st3, host'), s', t3)
        else host' = h2 ∧ s' = s2 ∧ t3 = []) ∧
      mrq'.cmd.error =
        (if st = SD_OK then 0
         else if st = SD_WRITEERROR then - EIO
         else if st = SD_TIMEOUT then - ETIMEDOUT
         else if st = SD_CRCERROR then - EILSEQ
         else - EINVAL) ∧
      (rl = SDCARD_CTRL_RESPONSE_SHORT →
        mrq'.cmd.resp 0 = host'.resp 3 ∧ mrq'.cmd.resp 1 = host'.resp 2 &&& 0xFF) ∧
      (rl = SDCARD_CTRL_RESPONSE_LONG → ∀ i, i < 4 → mrq'.cmd.resp i = host'.resp i) ∧
      ((st = SD_OK ∧ tr ≠ SDCARD_CTRL_DATA_TRANSFER_NONE) →
        ∃ d, mrq.data = some d ∧
          mrq'.data = some { d with
            bytes_xfered := min ((d.blksz * d.blocks) % 2 ^ 32) mmc.max_req_size
            sg := if tr = SDCARD_CTRL_DATA_TRANSFER_READ then
                sg_copy_from_buffer d.sg host'.buffer
                  (min ((d.blksz * d.blocks) % 2 ^ 32) mmc.max_req_size)
              else d.sg } ∧
          t = t2 ++ t3 ++
            ((if tr = SDCARD_CTRL_DATA_TRANSFER_READ then
                [Ev.sg_copy_from_buffer (min ((d.blksz * d.blocks) % 2 ^ 32) mmc.max_req_size)]
              else []) ++ [Ev.mmc_request_done])) ∧
      (¬ (st = SD_OK ∧ tr ≠ SDCARD_CTRL_DATA_TRANSFER_NONE) →
        mrq'.data = mrq.data ∧ t = t2 ++ t3 ++ [Ev.mmc_request_done]) := by
  unfold litex_request_command at h
  obtain ⟨r, s2, t2, ta, hretry, ha, rfl⟩ := Hw_bind_eq_some.mp h
  clear h
  obtain ⟨h3, s3, t3, tb, hstop, hb, rfl⟩ := Hw_bind_eq_some.mp ha
  clear ha
  have hstop' : (if mrq.cmd.opcode = MMC_READ_MULTIPLE_BLOCK ∨
        mrq.cmd.opcode = MMC_WRITE_MULTIPLE_BLOCK
      then ∃ st3, send_stop_tx_cmd p r.2 s2 = some ((st3, h3), s3, t3)
      else h3 = r.2 ∧ s3 = s2 ∧ t3 = []) := by
    rw [Hw_ite_run] at hstop
    split at hstop
    · rename_i hm
      rw [if_pos hm]
      obtain ⟨q, sq, tq, tq', hq, hp, rfl⟩ := Hw_bind_eq_some.mp hstop
      obtain ⟨rfl, rfl, rfl⟩ := Hw_pure_eq_some.mp hp
      exact ⟨q.1, by rw [List.append_nil]; exact hq⟩
    · rename_i hm
      rw [if_neg hm]
      obtain ⟨rfl, rfl, rfl⟩ := Hw_pure_eq_some.mp hstop
      exact ⟨rfl, rfl, rfl⟩
  clear hstop
  dsimp only at hb
  have hcmd : ∀ c : mmc_command,
      c = (if rl = SDCARD_CTRL_RESPONSE_SHORT then
            { mrq.cmd with
              error := (if r.1 = SD_OK then 0
                else if r.1 = SD_WRITEERROR then - EIO
                else if r.1 = SD_TIMEOUT then - ETIMEDOUT
                else if r.1 = SD_CRCERROR then - EILSEQ
                else - EINVAL)
              resp := fun i =>
                if i = 0 then h3.resp 3 else if i = 1 then h3.resp 2 &&& 0xFF
                else mrq.cmd.resp i }
          else if rl = SDCARD_CTRL_RESPONSE_LONG then
            { mrq.cmd with
              error := (if r.1 = SD_OK then 0
                else if r.1 = SD_WRITEERROR then - EIO
                else if r.1 = SD_TIMEOUT then - ETIMEDOUT
                else if r.1 = SD_CRCERROR then - EILSEQ
                else - EINVAL)
              resp := fun i => if i < 4 then h3.resp i else mrq.cmd.resp i }
          else
            { mrq.cmd with
              error := (if r.1 = SD_OK then 0
                else if r.1 = SD_WRITEERROR then - EIO
                else if r.1 = SD_TIMEOUT then - ETIMEDOUT
                else if r.1 = SD_CRCERROR then - EILSEQ
                else - EINVAL) }) →
      c.error = (if r.1 = SD_OK then 0
          else if r.1 = SD_WRITEERROR then - EIO
          else if r.1 = SD_TIMEOUT then - ETIMEDOUT
          else if r.1 = SD_CRCERROR then - EILSEQ
          else - EINVAL) ∧
      (rl = SDCARD_CTRL_RESPONSE_SHORT →
        c.resp 0 = h3.resp 3 ∧ c.resp 1 = h3.resp 2 &&& 0xFF) ∧
      (rl = SDCARD_CTRL_RESPONSE_LONG → ∀ i, i < 4 → c.resp i = h3.resp i) := by
    intro c hc
    subst hc
    refine ⟨?_, ?_, ?_⟩
    · split
      · rfl
      · split <;> rfl
    · intro hs
      rw [if_pos hs]
      exact ⟨rfl, rfl⟩
    · intro hl i hi
      have hns : ¬ rl = SDCARD_CTRL_RESPONSE_SHORT := by rw [hl]; decide
      rw [if_neg hns, if_pos hl]
      exact if_pos hi
  rw [Hw_ite_run] at hb
  split at hb
  · rename_i hok
    rcases hd : mrq.data with _ | d
    · rw [hd] at hb; cases hb
    · rw [hd] at hb
      dsimp only at hb
      obtain ⟨d2, sd, td, td', hcopy, hc, rfl⟩ := Hw_bind_eq_some.mp hb
      clear hb
      obtain ⟨_, se, te, te', hdone, hfin, rfl⟩ := Hw_bind_eq_some.mp hc
      clear hc
      obtain ⟨rfl, rfl⟩ := emit_eq_some hdone
      obtain ⟨hx, rfl, rfl⟩ := Hw_pure_eq_some.mp hfin
      simp only [Prod.mk.injEq] at hx
      obtain ⟨rfl, rfl⟩ := hx
      obtain ⟨hc1, hc2, hc3⟩ := hcmd _ rfl
      rw [Hw_ite_run] at hcopy
      split at hcopy
      · rename_i hrd
        obtain ⟨_, sx, tx, tx', hem, hpu, rfl⟩ := Hw_bind_eq_some.mp hcopy
        obtain ⟨rfl, rfl⟩ := emit_eq_some hem
        obtain ⟨rfl, rfl, rfl⟩ := Hw_pure_eq_some.mp hpu
        refine ⟨r.1, r.2, s2, t2, t3, hretry, hstop', hc1, hc2, hc3, ?_, ?_⟩
        · intro _
          refine ⟨d, rfl, ?_, ?_⟩
          · simp only [if_pos hrd]
          · simp only [if_pos hrd, List.append_nil, List.append_assoc]
        · intro hn; exact absurd hok hn
      · rename_i hrd
        obtain ⟨rfl, rfl, rfl⟩ := Hw_pure_eq_some.mp hcopy
        refine ⟨r.1, r.2, s2, t2, t3, hretry, hstop', hc1, hc2, hc3, ?_, ?_⟩
        · intro _
          refine ⟨d, rfl, ?_, ?_⟩
          · simp only [if_neg hrd]
          · simp only [if_neg hrd, List.append_nil, List.nil_append, List.append_assoc]
        · intro hn; exact absurd hok hn
  · rename_i hok
    obtain ⟨_, se, te, te', hdone, hfin, rfl⟩ := Hw_bind_eq_some.mp hb
    clear hb
    obtain ⟨rfl, rfl⟩ := emit_eq_some hdone
    obtain ⟨hx, rfl, rfl⟩ := Hw_pure_eq_some.mp hfin
    simp only [Prod.mk.injEq] at hx
    obtain ⟨rfl, rfl⟩ := hx
    obtain ⟨hc1, hc2, hc3⟩ := hcmd _ rfl
    refine ⟨r.1, r.2, s2, t2, t3, hretry, hstop', hc1, hc2, hc3, ?_, ?_⟩
    · intro hn; exact absurd hn hok
    · intro _
      exact ⟨rfl, by simp only [List.append_nil, List.append_assoc]⟩


/-- A request that gets past its preparation runs the command phase on the host
and script the preparation left. -/
theorem litex_request_of_prepare {p : Platform} {mmc : mmc_host}
    {host h1 host' : litex_mmc_host} {mrq mrq' : mmc_request} {transfer : Nat}
    {s s1 s' : Script} {t1 tr : List Ev}
    (hprep : litex_request_prepare p host mrq.data s = some ((true, h1, transfer), s1, t1))
    (h : litex_request p mmc host mrq s = some ((host', mrq'), s', tr)) :
    ∃ t', tr = t1 ++ t' ∧
      litex_request_command p mmc h1 mrq (litex_request_response_len mrq.cmd.flags) transfer s1
        = some ((host', mrq'), s', t') := by
  unfold litex_request at h
  obtain ⟨r, sa, ta, ta', hp, ha, rfl⟩ := Hw_bind_eq_some.mp h
  clear h
  rw [hprep] at hp
  simp only [Option.some.injEq, Prod.mk.injEq] at hp
  obtain ⟨rfl, rfl, rfl⟩ := hp
  exact ⟨ta', rfl, ha⟩

/-- A request whose preparation fails is completed at once with the timeout
code. -/
theorem litex_request_of_prepare_fail {p : Platform} {mmc : mmc_host}
    {host h1 : litex_mmc_host} {mrq : mmc_request} {transfer : Nat}
    {s s1 : Script} {t1 : List Ev}
    (hprep : litex_request_prepare p host mrq.data s = some ((false, h1, transfer), s1, t1)) :
    litex_request p mmc host mrq s
      = some ((h1, { mrq with cmd := { mrq.cmd with error := - ETIMEDOUT } }), s1,
          t1 ++ [Ev.mmc_request_done]) := by
  unfold litex_request
  rw [Hw_bind_run, hprep]
  rfl

theorem litex_request_prepare_none (p : Platform) (host : litex_mmc_host) (s : Script) :
    litex_request_prepare p host none s
      = some ((true, host, SDCARD_CTRL_DATA_TRANSFER_NONE), s, []) := rfl

theorem litex_request_prepare_some_eq_some {p : Platform} {host h1 : litex_mmc_host}
    {d : mmc_data} {ok : Bool} {transfer : Nat} {s s1 : Script} {t1 : List Ev}
    (h : litex_request_prepare p host (some d) s = some ((ok, h1, transfer), s1, t1)) :
    ∃ hb sb tb, litex_request_bus_width p host s = some ((ok, hb), sb, tb) ∧
      (ok = false → h1 = hb ∧ s1 = sb ∧ t1 = tb) ∧
      (ok = true → ∃ ts, litex_request_setup p hb d sb = some ((h1, transfer), s1, ts) ∧
        t1 = tb ++ ts) := by
  unfold litex_request_prepare at h
  dsimp only at h
  obtain ⟨r, sb, tb, tb', hbw, ha, rfl⟩ := Hw_bind_eq_some.mp h
  clear h
  rw [Hw_ite_run] at ha
  split at ha
  · rename_i hno
    obtain ⟨hx, rfl, rfl⟩ := Hw_pure_eq_some.mp ha
    simp only [Prod.mk.injEq] at hx
    obtain ⟨rfl, rfl, rfl⟩ := hx
    have hr : r.1 = false := by simpa using hno
    refine ⟨r.2, sb, tb, ?_, fun _ => ⟨rfl, rfl, by simp⟩, fun hc => by cases hc⟩
    rw [hbw, ← hr]
  · rename_i hyes
    have hr : r.1 = true := by simpa using hyes
    obtain ⟨q, sq, tq, tq', hq, hpu, rfl⟩ := Hw_bind_eq_some.mp ha
    clear ha
    obtain ⟨hx, rfl, rfl⟩ := Hw_pure_eq_some.mp hpu
    simp only [Prod.mk.injEq] at hx
    obtain ⟨rfl, rfl, rfl⟩ := hx
    refine ⟨r.2, sb, tb, ?_, ?_, ?_⟩
    · rw [hbw, ← hr]
    · intro hc; cases hc
    · intro _; exact ⟨tq, hq, by simp⟩


theorem litex_request_retry_frame {p : Platform} {cmd arg rl tr : Nat} {n : Nat}
    {host h2 : litex_mmc_host} {st : Nat} {s s2 : Script} {t : List Ev}
    (h : litex_request_retry p cmd arg rl tr n host s = some ((st, h2), s2, t)) :
    (∃ t', t = cmd_issue cmd arg rl tr ++ t') ∧
      h2 = { host with resp := h2.resp, rca := h2.rca, app_cmd := h2.app_cmd } := by
  obtain ⟨sts, hs, hl1, _, _, _, _⟩ := litex_request_retry_eq_some n h
  obtain ⟨_, _, hf⟩ := send_cmd_times_eq_some _ hs
  refine ⟨?_, hf⟩
  cases sts with
  | nil => simp at hl1
  | cons x xs =>
    simp only [List.length_cons] at hs
    rw [send_cmd_times] at hs
    obtain ⟨r, s1, t1, t1', h1, _, rfl⟩ := Hw_bind_eq_some.mp hs
    obtain ⟨⟨t', rfl, _⟩, _⟩ := send_cmd_eq_some h1
    exact ⟨t' ++ t1', by simp only [List.append_assoc]⟩

/-- The command phase begins by issuing the request's own command, and leaves
the configuration of the host as it is. -/
theorem litex_request_command_frame {p : Platform} {mmc : mmc_host}
    {host host' : litex_mmc_host} {mrq mrq' : mmc_request} {rl tr : Nat} {s s' : Script}
    {t : List Ev}
    (h : litex_request_command p mmc host mrq rl tr s = some ((host', mrq'), s', t)) :
    (∃ t', t = cmd_issue mrq.cmd.opcode mrq.cmd.arg rl tr ++ t') ∧
      host' = { host with resp := host'.resp, rca := host'.rca, app_cmd := host'.app_cmd } := by
  obtain ⟨st, h2, s2, t2, t3, hretry, hstop, _, _, _, hdok, hdno⟩ :=
    litex_request_command_eq_some h
  obtain ⟨⟨t', rfl⟩, hf⟩ := litex_request_retry_frame hretry
  have ht : ∃ tail, t = cmd_issue mrq.cmd.opcode mrq.cmd.arg rl tr ++ t' ++ t3 ++ tail := by
    by_cases hk : st = SD_OK ∧ tr ≠ SDCARD_CTRL_DATA_TRANSFER_NONE
    · obtain ⟨d, _, _, ht⟩ := hdok hk
      exact ⟨_, ht⟩
    · exact ⟨_, (hdno hk).2⟩
  obtain ⟨tail, rfl⟩ := ht
  refine ⟨⟨t' ++ t3 ++ tail, by simp only [List.append_assoc]⟩, ?_⟩
  split at hstop
  · obtain ⟨st3, hs3⟩ := hstop
    obtain ⟨_, hf3, _, _⟩ := send_cmd_eq_some hs3
    rw [hf3, hf]
  · rw [hstop.1]; exact hf

theorem litex_request_setup_eq_some {p : Platform} {host h1 : litex_mmc_host} {d : mmc_data}
    {transfer : Nat} {s s1 : Script} {ts : List Ev}
    (h : litex_request_setup p host d s = some ((h1, transfer), s1, ts)) :
    s1 = s ∧ h1 = { host with buffer := h1.buffer } ∧
      (∀ e ∈ ts, ∀ v, e ≠ Ev.write Reg.SDCORE_CMDCMD 4 v) := by
  by_cases hr : d.flags &&& MMC_DATA_READ ≠ 0
  · rw [litex_request_setup_read p host d s hr] at h
    simp only [Option.some.injEq, Prod.mk.injEq] at h
    obtain ⟨⟨rfl, rfl⟩, rfl, rfl⟩ := h
    refine ⟨rfl, rfl, ?_⟩
    intro e he v hv
    subst hv
    simp at he
  · by_cases hw : d.flags &&& MMC_DATA_WRITE ≠ 0
    · rw [litex_request_setup_write p host d s hr hw] at h
      simp only [Option.some.injEq, Prod.mk.injEq] at h
      obtain ⟨⟨rfl, rfl⟩, rfl, rfl⟩ := h
      refine ⟨rfl, rfl, ?_⟩
      intro e he v hv
      subst hv
      simp at he
    · rw [litex_request_setup_none p host d s hr hw] at h
      simp only [Option.some.injEq, Prod.mk.injEq] at h
      obtain ⟨⟨rfl, rfl⟩, rfl, rfl⟩ := h
      refine ⟨rfl, rfl, ?_⟩
      intro e he v hv
      subst hv
      simp at he


/-- A request whose preparation succeeds and whose command phase ends is
completed with the result of the command phase. -/
theorem litex_request_of_parts (p : Platform) (mmc : mmc_host)
    (host h1 : litex_mmc_host) (mrq : mmc_request) (transfer : Nat)
    (s s1 s' : Script) (t1 t' : List Ev) (r : litex_mmc_host × mmc_request)
    (hprep : litex_request_prepare p host mrq.data s = some ((true, h1, transfer), s1, t1))
    (hc : litex_request_command p mmc h1 mrq (litex_request_response_len mrq.cmd.flags)
        transfer s1 = some (r, s', t')) :
    litex_request p mmc host mrq s = some (r, s', t1 ++ t') := by
  unfold litex_request
  rw [Hw_bind_run, hprep]
  dsimp only
  rw [Hw_ite_run, if_neg (by simp), hc]

/-! ## Theorems: the request state machine -/

/-- C3. Response reordering in `litex_request`: for every request that gets to
the command phase and is completed, with `host'` the host and `mrq'` the request
at completion: a short-response request (`MMC_RSP_PRESENT` without
`MMC_RSP_136`) has `cmd->resp[0] = host->resp[3]` and
`cmd->resp[1] = host->resp[2] & 0xFF`; a long-response request (`MMC_RSP_136`)
has `cmd->resp[i] = host->resp[i]` for `i = 0 .. 3`. -/
theorem litex_request_response_reordering (p : Platform) (mmc : mmc_host)
    (host h1 host' : litex_mmc_host) (mrq mrq' : mmc_request) (transfer : Nat)
    (s s1 s' : Script) (t1 tr : List Ev)
    (hprep : litex_request_prepare p host mrq.data s = some ((true, h1, transfer), s1, t1))
    (h : litex_request p mmc host mrq s = some ((host', mrq'), s', tr)) :
    (mrq.cmd.flags &&& MMC_RSP_136 = 0 → mrq.cmd.flags &&& MMC_RSP_PRESENT ≠ 0 →
        mrq'.cmd.resp 0 = host'.resp 3 ∧ mrq'.cmd.resp 1 = host'.resp 2 &&& 0xFF) ∧
    (mrq.cmd.flags &&& MMC_RSP_136 ≠ 0 →
        mrq'.cmd.resp 0 = host'.resp 0 ∧ mrq'.cmd.resp 1 = host'.resp 1 ∧
        mrq'.cmd.resp 2 = host'.resp 2 ∧ mrq'.cmd.resp 3 = host'.resp 3) := by
  obtain ⟨t', _, hc⟩ := litex_request_of_prepare hprep h
  obtain ⟨st, h2, s2, t2, t3, _, _, _, hshort, hlong, _, _⟩ := litex_request_command_eq_some hc
  refine ⟨?_, ?_⟩
  · intro h136 hpres
    apply hshort
    unfold litex_request_response_len
    rw [if_neg (not_not.mpr h136), if_pos hpres]
  · intro h136
    have hl := hlong (by unfold litex_request_response_len; rw [if_pos h136])
    exact ⟨hl 0 (by decide), hl 1 (by decide), hl 2 (by decide), hl 3 (by decide)⟩

theorem send_stop_tx_cmd_eq_some {p : Platform} {host h2 : litex_mmc_host} {st : Nat}
    {s s2 : Script} {t : List Ev}
    (h : send_stop_tx_cmd p host s = some ((st, h2), s2, t)) :
    outputs t = cmd_issue MMC_STOP_TRANSMISSION 0 SDCARD_CTRL_RESPONSE_SHORT
      SDCARD_CTRL_DATA_TRANSFER_NONE := by
  obtain ⟨⟨t', rfl, ho⟩, _, _, _⟩ := send_cmd_eq_some h
  rw [outputs_append, ho, List.append_nil, outputs_cmd_issue]

/-- C4. Retry bound in `litex_request`: for every request that gets to the
command phase and is completed, the calls of `send_cmd` for the request's own
command are `m` consecutive calls with the same arguments, where
`1 ≤ m ≤ retries + 1`, every call but the last returns a status other than
`SD_OK`, and the last returns `SD_OK` or is call number `retries + 1`; so `m` is
the smaller of `retries + 1` and the index of the first call that returns
`SD_OK`.  Each call writes argument, command word and send strobe.  What follows
these calls writes no register but, for a multi-block opcode, the stop command.
If every call reports a write error, there are exactly `retries + 1` calls and
the request ends with `cmd->error = -EIO`. -/
theorem litex_request_retry_bound (p : Platform) (mmc : mmc_host)
    (host h1 host' : litex_mmc_host) (mrq mrq' : mmc_request) (transfer : Nat)
    (s s1 s' : Script) (t1 tr : List Ev)
    (hprep : litex_request_prepare p host mrq.data s = some ((true, h1, transfer), s1, t1))
    (h : litex_request p mmc host mrq s = some ((host', mrq'), s', tr)) :
    ∃ (sts : List Nat) (h2 : litex_mmc_host) (s2 : Script) (t2 rest tail : List Ev),
      send_cmd_times p mrq.cmd.opcode mrq.cmd.arg (litex_request_response_len mrq.cmd.flags)
          transfer sts.length h1 s1 = some ((sts, h2), s2, t2) ∧
      tr = t1 ++ t2 ++ rest ∧
      1 ≤ sts.length ∧ sts.length ≤ mrq.cmd.retries + 1 ∧
      (∀ x ∈ sts.dropLast, x ≠ SD_OK) ∧
      (sts.getLast? = some SD_OK ∨ sts.length = mrq.cmd.retries + 1) ∧
      outputs t2 = (List.replicate sts.length
        (cmd_issue mrq.cmd.opcode mrq.cmd.arg (litex_request_response_len mrq.cmd.flags)
          transfer)).flatten ∧
      outputs rest =
        (if mrq.cmd.opcode = MMC_READ_MULTIPLE_BLOCK ∨ mrq.cmd.opcode = MMC_WRITE_MULTIPLE_BLOCK
          then cmd_issue MMC_STOP_TRANSMISSION 0 SDCARD_CTRL_RESPONSE_SHORT
            SDCARD_CTRL_DATA_TRANSFER_NONE
          else []) ++ tail ∧
      (∀ e ∈ tail, e = Ev.mmc_request_done ∨ ∃ n, e = Ev.sg_copy_from_buffer n) ∧
      ((∀ x ∈ sts, x = SD_WRITEERROR) →
        sts.length = mrq.cmd.retries + 1 ∧ mrq'.cmd.error = - EIO) := by
  obtain ⟨t', rfl, hc⟩ := litex_request_of_prepare hprep h
  obtain ⟨st, h2, s2, t2, t3, hretry, hstop, herr, _, _, hdok, hdno⟩ :=
    litex_request_command_eq_some hc
  obtain ⟨sts, hsts, hl1, hl2, hdrop, hlast, hor⟩ := litex_request_retry_eq_some _ hretry
  obtain ⟨_, hout, _⟩ := send_cmd_times_eq_some _ hsts
  -- the trace after the attempts
  have htail : ∃ tail, t' = t2 ++ (t3 ++ tail) ∧
      (∀ e ∈ tail, e = Ev.mmc_request_done ∨ ∃ n, e = Ev.sg_copy_from_buffer n) ∧
      outputs tail = tail := by
    by_cases hk : st = SD_OK ∧ transfer ≠ SDCARD_CTRL_DATA_TRANSFER_NONE
    · obtain ⟨d, _, _, ht⟩ := hdok hk
      refine ⟨_, by rw [ht, List.append_assoc], ?_, ?_⟩
      · intro e he
        split at he
        · simp only [List.singleton_append, List.mem_cons, List.mem_singleton,
            List.not_mem_nil, or_false] at he
          rcases he with rfl | rfl
          · exact Or.inr ⟨_, rfl⟩
          · exact Or.inl rfl
        · simp only [List.nil_append, List.mem_singleton] at he
          exact Or.inl he
      · split <;> rfl
    · obtain ⟨_, ht⟩ := hdno hk
      refine ⟨[Ev.mmc_request_done], by rw [ht, List.append_assoc], ?_, rfl⟩
      intro e he
      exact Or.inl (List.mem_singleton.mp he)
  obtain ⟨tail, rfl, htl, hto⟩ := htail
  have hstop_out : outputs t3 =
      (if mrq.cmd.opcode = MMC_READ_MULTIPLE_BLOCK ∨ mrq.cmd.opcode = MMC_WRITE_MULTIPLE_BLOCK
        then cmd_issue MMC_STOP_TRANSMISSION 0 SDCARD_CTRL_RESPONSE_SHORT
          SDCARD_CTRL_DATA_TRANSFER_NONE
        else []) := by
    split at hstop
    · rename_i hm
      obtain ⟨st3, hs3⟩ := hstop
      rw [if_pos hm]
      exact send_stop_tx_cmd_eq_some hs3
    · rename_i hm
      rw [if_neg hm, hstop.2.2]; rfl
  refine ⟨sts, h2, s2, t2, t3 ++ tail, tail, hsts, by simp only [List.append_assoc],
    hl1, hl2, hdrop, ?_, hout, ?_, htl, ?_⟩
  · rcases hor with h0 | h0
    · exact Or.inl (by rw [hlast, h0])
    · exact Or.inr h0
  · rw [outputs_append, hstop_out, hto]
  · intro hall
    have hst : st = SD_WRITEERROR := by
      have : st ∈ sts := List.mem_of_getLast?_eq_some hlast
      exact hall st this
    refine ⟨?_, ?_⟩
    · rcases hor with h0 | h0
      · rw [hst] at h0; exact absurd h0 (by decide)
      · exact h0
    · rw [herr, hst]; rfl


/-- C5. Stop-command rule in `litex_request`: for every request that gets to
the command phase and is completed, the trace is that of the preparation, then
that of the attempts of the request's own command, then `t3`, then `t4`, where
`t4` holds no register access (only the copy of the data read and the
completion).  When the opcode is `MMC_READ_MULTIPLE_BLOCK` (18) or
`MMC_WRITE_MULTIPLE_BLOCK` (25), `t3` is the trace of one call
`send_cmd (host, 12, 0, SDCARD_CTRL_RESPONSE_SHORT, SDCARD_CTRL_DATA_TRANSFER_NONE)`,
which issues the stop command once, whatever the status `st` of the last attempt
and the number of attempts; for every other opcode `t3` is empty. -/
theorem litex_request_stop_command (p : Platform) (mmc : mmc_host)
    (host h1 host' : litex_mmc_host) (mrq mrq' : mmc_request) (transfer : Nat)
    (s s1 s' : Script) (t1 tr : List Ev)
    (hprep : litex_request_prepare p host mrq.data s = some ((true, h1, transfer), s1, t1))
    (h : litex_request p mmc host mrq s = some ((host', mrq'), s', tr)) :
    ∃ (st : Nat) (h2 : litex_mmc_host) (s2 : Script) (t2 t3 t4 : List Ev),
      litex_request_retry p mrq.cmd.opcode mrq.cmd.arg
          (litex_request_response_len mrq.cmd.flags) transfer mrq.cmd.retries h1 s1
        = some ((st, h2), s2, t2) ∧
      tr = t1 ++ t2 ++ t3 ++ t4 ∧
      (∀ e ∈ t4, e = Ev.mmc_request_done ∨ ∃ n, e = Ev.sg_copy_from_buffer n) ∧
      ((mrq.cmd.opcode = MMC_READ_MULTIPLE_BLOCK ∨ mrq.cmd.opcode = MMC_WRITE_MULTIPLE_BLOCK) →
        (∃ st3, send_cmd p h2 MMC_STOP_TRANSMISSION 0 SDCARD_CTRL_RESPONSE_SHORT
            SDCARD_CTRL_DATA_TRANSFER_NONE s2 = some ((st3, host'), s', t3)) ∧
        outputs t3 = [Ev.write Reg.SDCORE_CMDARG 4 0,
                      Ev.write Reg.SDCORE_CMDCMD 4 (12 <<< 8 ||| 0 <<< 5 ||| 1),
                      Ev.write Reg.SDCORE_CMDSND 1 1]) ∧
      (¬ (mrq.cmd.opcode = MMC_READ_MULTIPLE_BLOCK ∨
          mrq.cmd.opcode = MMC_WRITE_MULTIPLE_BLOCK) → t3 = []) := by
  obtain ⟨t', rfl, hc⟩ := litex_request_of_prepare hprep h
  obtain ⟨st, h2, s2, t2, t3, hretry, hstop, _, _, _, hdok, hdno⟩ :=
    litex_request_command_eq_some hc
  have htail : ∃ tail, t' = t2 ++ t3 ++ tail ∧
      (∀ e ∈ tail, e = Ev.mmc_request_done ∨ ∃ n, e = Ev.sg_copy_from_buffer n) := by
    by_cases hk : st = SD_OK ∧ transfer ≠ SDCARD_CTRL_DATA_TRANSFER_NONE
    · obtain ⟨d, _, _, ht⟩ := hdok hk
      refine ⟨_, ht, ?_⟩
      intro e he
      split at he
      · simp only [List.singleton_append, List.mem_cons, List.mem_singleton,
          List.not_mem_nil, or_false] at he
        rcases he with rfl | rfl
        · exact Or.inr ⟨_, rfl⟩
        · exact Or.inl rfl
      · simp only [List.nil_append, List.mem_singleton] at he
        exact Or.inl he
    · obtain ⟨_, ht⟩ := hdno hk
      exact ⟨[Ev.mmc_request_done], ht, fun e he => Or.inl (List.mem_singleton.mp he)⟩
  obtain ⟨tail, rfl, htl⟩ := htail
  refine ⟨st, h2, s2, t2, t3, tail, hretry, by simp only [List.append_assoc], htl, ?_, ?_⟩
  · intro hm
    rw [if_pos hm] at hstop
    obtain ⟨st3, hs3⟩ := hstop
    exact ⟨⟨st3, hs3⟩, send_stop_tx_cmd_eq_some hs3⟩
  · intro hm
    rw [if_neg hm] at hstop
    exact hstop.2.2


theorem litex_get_cd_absent {mmc : mmc_host} {hprev host : litex_mmc_host} {sprev s0 : Script}
    {t0 : List Ev} (h : litex_get_cd mmc hprev sprev = some ((0, host), s0, t0)) :
    host.is_bus_width_set = false := by
  unfold litex_get_cd at h
  dsimp only at h
  rw [Hw_ite_run] at h
  split at h
  · obtain ⟨hx, _, _⟩ := Hw_pure_eq_some.mp h
    simp only [Prod.mk.injEq] at hx
    exact absurd hx.1 (by decide)
  · obtain ⟨ret, s1, t1, t1', _, hp, _⟩ := Hw_bind_eq_some.mp h
    obtain ⟨hx, _, _⟩ := Hw_pure_eq_some.mp hp
    simp only [Prod.mk.injEq] at hx
    obtain ⟨hret, hhost⟩ := hx
    rw [← hhost, if_pos hret]

/-- C6. Bus-width quirk idempotence.  For a completed request with data:
(1) when `host->is_bus_width_set` is true, the trace begins with the transfer
setup, which issues no command, immediately followed by the issue of the
request's own command, so no CMD55/ACMD6 is injected, and the flag is still true
afterwards;
(2) when the host is the one `litex_get_cd` left on reporting the card absent,
the flag is false, and if the first call of `litex_set_bus_width` succeeds, the
trace is the read of `jiffies`, that single call (which issues CMD55 and ACMD6
once), the transfer setup and then the request's own command, and the flag is
true afterwards, so that by (1) the requests after it do not run the sequence
again. -/
theorem litex_request_bus_width_once (p : Platform) (mmc : mmc_host)
    (host host' : litex_mmc_host) (mrq mrq' : mmc_request) (d : mmc_data)
    (s s' : Script) (tr : List Ev)
    (hd : mrq.data = some d)
    (h : litex_request p mmc host mrq s = some ((host', mrq'), s', tr)) :
    (host.is_bus_width_set = true →
      ∃ (h1 : litex_mmc_host) (transfer : Nat) (ts t' : List Ev),
        litex_request_setup p host d s = some ((h1, transfer), s, ts) ∧
        (∀ e ∈ ts, ∀ v, e ≠ Ev.write Reg.SDCORE_CMDCMD 4 v) ∧
        tr = ts ++ cmd_issue mrq.cmd.opcode mrq.cmd.arg
          (litex_request_response_len mrq.cmd.flags) transfer ++ t' ∧
        host'.is_bus_width_set = true) ∧
    (∀ (hprev : litex_mmc_host) (sprev s0 : Script) (t0 : List Ev),
      litex_get_cd mmc hprev sprev = some ((0, host), s0, t0) →
      host.is_bus_width_set = false ∧
      ∀ (j : Nat) (sj : Script) (hb : litex_mmc_host) (sb : Script) (tb : List Ev),
        s = j :: sj → litex_set_bus_width p host sj = some ((SD_OK, hb), sb, tb) →
        outputs tb = bus_width_issue host.app_cmd host.rca ∧
        ∃ (h1 : litex_mmc_host) (transfer : Nat) (ts t' : List Ev),
          litex_request_setup p { hb with is_bus_width_set := true } d sb
            = some ((h1, transfer), sb, ts) ∧
          (∀ e ∈ ts, ∀ v, e ≠ Ev.write Reg.SDCORE_CMDCMD 4 v) ∧
          tr = [Ev.jiffies (j % 2 ^ p.BITS_PER_LONG)] ++ tb ++ ts ++
            cmd_issue mrq.cmd.opcode mrq.cmd.arg
              (litex_request_response_len mrq.cmd.flags) transfer ++ t' ∧
          host'.is_bus_width_set = true) := by
  -- the shape of any completed request whose preparation succeeded
  have key : ∀ (hb : litex_mmc_host) (sb : Script) (tb : List Ev),
      litex_request_bus_width p host s = some ((true, hb), sb, tb) →
      hb.is_bus_width_set = true →
      ∃ (h1 : litex_mmc_host) (transfer : Nat) (ts t' : List Ev),
        litex_request_setup p hb d sb = some ((h1, transfer), sb, ts) ∧
        (∀ e ∈ ts, ∀ v, e ≠ Ev.write Reg.SDCORE_CMDCMD 4 v) ∧
        tr = tb ++ ts ++ cmd_issue mrq.cmd.opcode mrq.cmd.arg
          (litex_request_response_len mrq.cmd.flags) transfer ++ t' ∧
        host'.is_bus_width_set = true := by
    intro hb sb tb hbw hflag
    rcases hsetup : litex_request_setup p hb d sb with _ | ⟨⟨h1, transfer⟩, s1, ts⟩
    · -- the setup always returns
      by_cases hr : d.flags &&& MMC_DATA_READ ≠ 0
      · rw [litex_request_setup_read p hb d sb hr] at hsetup; cases hsetup
      · by_cases hw : d.flags &&& MMC_DATA_WRITE ≠ 0
        · rw [litex_request_setup_write p hb d sb hr hw] at hsetup; cases hsetup
        · rw [litex_request_setup_none p hb d sb hr hw] at hsetup; cases hsetup
    · obtain ⟨rfl, hf1, hts⟩ := litex_request_setup_eq_some hsetup
      have hprep : litex_request_prepare p host mrq.data s
          = some ((true, h1, transfer), s1, tb ++ ts) := by
        rw [hd]
        unfold litex_request_prepare
        dsimp only
        rw [Hw_bind_run, hbw]
        dsimp only
        rw [Hw_ite_run, if_neg (by simp), Hw_bind_run, hsetup]
        simp only [Hw_pure_run, List.append_nil]
      obtain ⟨tc, rfl, hc⟩ := litex_request_of_prepare hprep h
      obtain ⟨⟨t', rfl⟩, hf⟩ := litex_request_command_frame hc
      refine ⟨h1, transfer, ts, t', rfl, hts, by simp only [List.append_assoc], ?_⟩
      rw [hf, hf1]
      exact hflag
  refine ⟨?_, ?_⟩
  · intro hflag
    have hbw : litex_request_bus_width p host s = some ((true, host), s, []) := by
      unfold litex_request_bus_width
      rw [Hw_ite_run, if_neg (by simp [hflag])]
      rfl
    obtain ⟨h1, transfer, ts, t', h1', h2', h3', h4'⟩ := key host s [] hbw hflag
    exact ⟨h1, transfer, ts, t', h1', h2', by simpa using h3', h4'⟩
  · intro hprev sprev s0 t0 hcd
    have hflag := litex_get_cd_absent hcd
    refine ⟨hflag, ?_⟩
    intro j sj hb sb tb hs hsbw
    subst hs
    have hbw : litex_request_bus_width p host (j :: sj)
        = some ((true, { hb with is_bus_width_set := true }), sb,
            [Ev.jiffies (j % 2 ^ p.BITS_PER_LONG)] ++ tb) := by
      unfold litex_request_bus_width
      rw [Hw_ite_run, if_pos (by simp [hflag])]
      rw [Hw_bind_run]
      simp only [jiffies]
      rw [Hw_bind_run]
      simp only [litex_request_bus_width_loop]
      rw [Hw_bind_run, hsbw]
      simp only [Hw_ite_run, ne_eq, not_true_eq_false, if_false, Hw_pure_run, if_true,
        List.append_nil]
    obtain ⟨h1, transfer, ts, t', h1', h2', h3', h4'⟩ := key _ sb _ hbw rfl
    exact ⟨(litex_set_bus_width_eq_some hsbw).1, h1, transfer, ts, t', h1', h2', h3', h4'⟩


/-- C7. Bus-width quirk failure: for a request with data, if the bus-width
block of `litex_request` ends by its timeout branch (every call of
`litex_set_bus_width` failed until one failed after the deadline, which only
happens when `is_bus_width_set` is false), then the request is completed right
after the loop with `cmd->error = -ETIMEDOUT`; everything the driver has written
is the CMD55 and ACMD6 of the width-set sequence, so the request's own command
is not sent and no DMA unit, block-length or block-count register is
programmed; and `is_bus_width_set` is still false. -/
theorem litex_request_bus_width_timeout (p : Platform) (mmc : mmc_host)
    (host h1 : litex_mmc_host) (mrq : mmc_request) (d : mmc_data)
    (s s1 : Script) (t1 : List Ev)
    (hd : mrq.data = some d)
    (hbw : litex_request_bus_width p host s = some ((false, h1), s1, t1)) :
    litex_request p mmc host mrq s
        = some ((h1, { mrq with cmd := { mrq.cmd with error := - ETIMEDOUT } }), s1,
            t1 ++ [Ev.mmc_request_done]) ∧
      host.is_bus_width_set = false ∧ h1.is_bus_width_set = false ∧
      (∀ e ∈ outputs t1,
        e ∈ cmd_issue MMC_APP_CMD ((host.rca % 2 ^ 16) <<< 16) SDCARD_CTRL_RESPONSE_SHORT
            SDCARD_CTRL_DATA_TRANSFER_NONE
        ∨ e ∈ cmd_issue SD_APP_SET_BUS_WIDTH MMC_BUS_WIDTH_4 SDCARD_CTRL_RESPONSE_SHORT
            SDCARD_CTRL_DATA_TRANSFER_NONE) := by
  obtain ⟨hout, _, hfalse, _, _⟩ := litex_request_bus_width_eq_some hbw
  have hprep : litex_request_prepare p host mrq.data s
      = some ((false, h1, SDCARD_CTRL_DATA_TRANSFER_NONE), s1, t1) := by
    rw [hd]
    unfold litex_request_prepare
    dsimp only
    rw [Hw_bind_run, hbw]
    dsimp only
    rw [Hw_ite_run, if_pos (by simp)]
    simp only [Hw_pure_run, List.append_nil]
  exact ⟨litex_request_of_prepare_fail hprep, (hfalse rfl).1, (hfalse rfl).2, hout⟩

theorem take_min_length {α : Type} (l : List α) (n : Nat) :
    l.take (min n l.length) = l.take n := by
  rcases Nat.le_total n l.length with h | h
  · rw [Nat.min_eq_left h]
  · rw [Nat.min_eq_right h, List.take_length, List.take_of_length_le h]

/-- C8. Successful read in `litex_request`: for every completed read request
(data with `MMC_DATA_READ`) whose own command ends with status `SD_OK`,
`cmd->error` is 0, `data->bytes_xfered` is
`min (blksz * blocks, max_req_size)` (the product taken in `u32`), the call
`sg_copy_from_buffer (.., bytes_xfered)` is made, and when the scatter buffer
and the DMA buffer hold at least that many bytes, exactly the first
`bytes_xfered` bytes of the DMA buffer are copied to the start of the scatter
buffer.  For one block of 512 bytes and an opcode that is not a multi-block one,
the caller's 512-byte buffer receives the first 512 bytes of the DMA buffer, and
after the attempts of the command there is only the copy and the completion, so
no stop command. -/
theorem litex_request_read_success (p : Platform) (mmc : mmc_host)
    (host h1 h2 host' : litex_mmc_host) (mrq mrq' : mmc_request) (d : mmc_data)
    (transfer : Nat) (s s1 s2 s' : Script) (t1 t2 tr : List Ev)
    (hd : mrq.data = some d) (hread : d.flags &&& MMC_DATA_READ ≠ 0)
    (hprep : litex_request_prepare p host mrq.data s = some ((true, h1, transfer), s1, t1))
    (hok : litex_request_retry p mrq.cmd.opcode mrq.cmd.arg
        (litex_request_response_len mrq.cmd.flags) transfer mrq.cmd.retries h1 s1
      = some ((SD_OK, h2), s2, t2))
    (h : litex_request p mmc host mrq s = some ((host', mrq'), s', tr)) :
    mrq'.cmd.error = 0 ∧
    ∃ d' : mmc_data, mrq'.data = some d' ∧
      d'.bytes_xfered = min ((d.blksz * d.blocks) % 2 ^ 32) mmc.max_req_size ∧
      (d.blksz * d.blocks < 2 ^ 32 →
        d'.bytes_xfered = min (d.blksz * d.blocks) mmc.max_req_size) ∧
      Ev.sg_copy_from_buffer d'.bytes_xfered ∈ tr ∧
      d'.sg = sg_copy_from_buffer d.sg host'.buffer d'.bytes_xfered ∧
      (d'.bytes_xfered ≤ d.sg.length → d'.bytes_xfered ≤ host'.buffer.length →
        d'.sg = host'.buffer.take d'.bytes_xfered ++ d.sg.drop d'.bytes_xfered) ∧
      (d.blksz = 512 → d.blocks = 1 → mrq.cmd.opcode ≠ MMC_READ_MULTIPLE_BLOCK →
        mrq.cmd.opcode ≠ MMC_WRITE_MULTIPLE_BLOCK → 512 ≤ mmc.max_req_size →
        d.sg.length = 512 → 512 ≤ host'.buffer.length →
        d'.bytes_xfered = 512 ∧ d'.sg = host'.buffer.take 512 ∧
        tr = t1 ++ t2 ++ [Ev.sg_copy_from_buffer 512, Ev.mmc_request_done]) := by
  -- the transfer is a read
  have htr : transfer = SDCARD_CTRL_DATA_TRANSFER_READ := by
    rw [hd] at hprep
    obtain ⟨hb, sb, tb, _, _, hyes⟩ := litex_request_prepare_some_eq_some hprep
    obtain ⟨ts, hsetup, _⟩ := hyes rfl
    rw [litex_request_setup_read p hb d sb hread] at hsetup
    simp only [Option.some.injEq, Prod.mk.injEq] at hsetup
    exact hsetup.1.2.symm
  obtain ⟨t', rfl, hc⟩ := litex_request_of_prepare hprep h
  obtain ⟨st, h2', s2', t2', t3, hretry, hstop, herr, _, _, hdok, _⟩ :=
    litex_request_command_eq_some hc
  rw [hok] at hretry
  simp only [Option.some.injEq, Prod.mk.injEq] at hretry
  obtain ⟨⟨rfl, rfl⟩, rfl, rfl⟩ := hretry
  have hne : transfer ≠ SDCARD_CTRL_DATA_TRANSFER_NONE := by rw [htr]; decide
  obtain ⟨d0, hd0, hdata, ht⟩ := hdok ⟨rfl, hne⟩
  rw [hd] at hd0
  simp only [Option.some.injEq] at hd0
  subst hd0
  rw [if_pos htr] at hdata ht
  refine ⟨by rw [herr, if_pos rfl], _, hdata, rfl, ?_, ?_, rfl, ?_, ?_⟩
  · intro hlt
    show min ((d.blksz * d.blocks) % 2 ^ 32) mmc.max_req_size = _
    rw [Nat.mod_eq_of_lt hlt]
  · rw [ht]
    simp
  · intro hsg hbuf
    show sg_copy_from_buffer d.sg host'.buffer _ = _
    unfold sg_copy_from_buffer
    rw [Nat.min_eq_left hsg, List.length_take, Nat.min_eq_left hbuf]
  · intro hsz hbl hnr hnw hmax hsg hbuf
    have hn : min ((d.blksz * d.blocks) % 2 ^ 32) mmc.max_req_size = 512 := by
      rw [hsz, hbl]
      exact Nat.min_eq_left hmax
    have hnm : ¬ (mrq.cmd.opcode = MMC_READ_MULTIPLE_BLOCK ∨
        mrq.cmd.opcode = MMC_WRITE_MULTIPLE_BLOCK) := by
      rintro (hx | hx)
      · exact hnr hx
      · exact hnw hx
    rw [if_neg hnm] at hstop
    obtain ⟨_, _, rfl⟩ := hstop
    refine ⟨hn, ?_, ?_⟩
    · show sg_copy_from_buffer d.sg host'.buffer _ = _
      rw [hn]
      unfold sg_copy_from_buffer
      rw [hsg, Nat.min_self, List.length_take, Nat.min_eq_left hbuf, ← hsg, List.drop_length,
        List.append_nil]
    · rw [ht, hn]
      simp only [List.append_nil, List.append_assoc, List.singleton_append]


theorem u32_to_int_of_lt (x : Nat) (h : x < 2 ^ 31) : u32_to_int x = (x : Int) := by
  unfold u32_to_int
  have h1 : x % 2 ^ 32 = x := Nat.mod_eq_of_lt (by omega)
  rw [h1, if_pos h]

theorem int_to_unsigned_natCast (bits x : Nat) (h : x < 2 ^ bits) :
    int_to_unsigned bits (x : Int) = x := by
  unfold int_to_unsigned
  have : ((x : Int) % 2 ^ bits) = ((x % 2 ^ bits : Nat) : Int) := by
    push_cast; rfl
  rw [this, Int.toNat_ofNat, Nat.mod_eq_of_lt h]

/-- C9. Write staging in `litex_request`: for every completed write request
(data with `MMC_DATA_WRITE` and without `MMC_DATA_READ`) on a host whose buffer
is smaller than 2 GiB, with `n = min (blksz * blocks, buffer_size)` (the product
taken in `u32`): `n` does not exceed the buffer capacity; for 8 blocks of 512
bytes it is `min (4096, buffer_size)`; and right after the bus-width block the
driver calls `sg_copy_to_buffer (.., n)` and then writes, in this order, writer
enable = 0, writer base = `dma_handle`, writer length = `n`, writer enable = 1.
When the scatter buffer holds at least `n` bytes, exactly its first `n` bytes
are copied to the start of the DMA buffer. -/
theorem litex_request_write_staging (p : Platform) (mmc : mmc_host)
    (host hb host' : litex_mmc_host) (mrq mrq' : mmc_request) (d : mmc_data)
    (s sb s' : Script) (tb tr : List Ev)
    (hd : mrq.data = some d) (hnr : d.flags &&& MMC_DATA_READ = 0)
    (hw : d.flags &&& MMC_DATA_WRITE ≠ 0)
    (hL : 32 ≤ p.BITS_PER_LONG) (hbuf : host.buffer_size < 2 ^ 31)
    (hbw : litex_request_bus_width p host s = some ((true, hb), sb, tb))
    (h : litex_request p mmc host mrq s = some ((host', mrq'), s', tr)) :
    ∃ (n : Nat) (rest : List Ev),
      n = min ((d.blksz * d.blocks) % 2 ^ 32) host.buffer_size ∧
      n ≤ host.buffer_size ∧
      (d.blksz * d.blocks < 2 ^ 32 → n = min (d.blksz * d.blocks) host.buffer_size) ∧
      (d.blksz = 512 → d.blocks = 8 → n = min 4096 host.buffer_size) ∧
      tr = tb ++ [Ev.sg_copy_to_buffer n,
                  Ev.write Reg.SDMEM2BLK_ENA 1 0,
                  Ev.write Reg.SDMEM2BLK_BASE 8 (host.dma_handle % 2 ^ 64),
                  Ev.write Reg.SDMEM2BLK_LEN 4 n,
                  Ev.write Reg.SDMEM2BLK_ENA 1 1] ++ rest ∧
      host'.buffer = sg_copy_to_buffer d.sg host.buffer n ∧
      (n ≤ d.sg.length → host'.buffer = d.sg.take n ++ host.buffer.drop n) := by
  obtain ⟨_, hfb, _, _, _⟩ := litex_request_bus_width_eq_some hbw
  have hbs : hb.buffer_size = host.buffer_size := by rw [hfb]
  have hbd : hb.dma_handle = host.dma_handle := by rw [hfb]
  have hbb : hb.buffer = host.buffer := by rw [hfb]
  have hnr' : ¬ d.flags &&& MMC_DATA_READ ≠ 0 := not_not.mpr hnr
  have hsetup := litex_request_setup_write p hb d sb hnr' hw
  -- the value of `write_length`
  have hmin_lt : min ((d.blksz * d.blocks) % 2 ^ 32) host.buffer_size < 2 ^ 31 :=
    lt_of_le_of_lt (Nat.min_le_right _ _) hbuf
  have hwl : litex_request_write_length hb d
      = ((min ((d.blksz * d.blocks) % 2 ^ 32) host.buffer_size : Nat) : Int) := by
    unfold litex_request_write_length
    rw [hbs, Nat.mod_eq_of_lt (lt_trans hbuf (by norm_num)), u32_to_int_of_lt _ hmin_lt]
  have hpow : (2 : Nat) ^ 31 ≤ 2 ^ p.BITS_PER_LONG :=
    Nat.pow_le_pow_right (by norm_num) (by omega)
  have hlen1 : int_to_unsigned p.BITS_PER_LONG (litex_request_write_length hb d)
      = min ((d.blksz * d.blocks) % 2 ^ 32) host.buffer_size := by
    rw [hwl, int_to_unsigned_natCast _ _ (lt_of_lt_of_le hmin_lt hpow)]
  have hlen2 : int_to_unsigned 32 (litex_request_write_length hb d) % 2 ^ 32
      = min ((d.blksz * d.blocks) % 2 ^ 32) host.buffer_size := by
    rw [hwl, int_to_unsigned_natCast _ _ (lt_trans hmin_lt (by norm_num)),
      Nat.mod_eq_of_lt (lt_trans hmin_lt (by norm_num))]
  rw [hlen1, hlen2, hbd, hbb] at hsetup
  have hprep : litex_request_prepare p host mrq.data s
      = some ((true,
          { hb with buffer := sg_copy_to_buffer d.sg host.buffer
                      (min ((d.blksz * d.blocks) % 2 ^ 32) host.buffer_size) },
          SDCARD_CTRL_DATA_TRANSFER_WRITE), sb,
          tb ++ [Ev.sg_copy_to_buffer (min ((d.blksz * d.blocks) % 2 ^ 32) host.buffer_size),
            Ev.write Reg.SDMEM2BLK_ENA 1 0,
            Ev.write Reg.SDMEM2BLK_BASE 8 (host.dma_handle % 2 ^ 64),
            Ev.write Reg.SDMEM2BLK_LEN 4 (min ((d.blksz * d.blocks) % 2 ^ 32) host.buffer_size),
            Ev.write Reg.SDMEM2BLK_ENA 1 1,
            Ev.write Reg.SDCORE_BLKLEN 2 (d.blksz % 2 ^ 16),
            Ev.write Reg.SDCORE_BLKCNT 4 (d.blocks % 2 ^ 32)]) := by
    rw [hd]
    unfold litex_request_prepare
    dsimp only
    rw [Hw_bind_run, hbw]
    dsimp only
    rw [Hw_ite_run, if_neg (by simp), Hw_bind_run, hsetup]
    simp only [Hw_pure_run, List.append_nil, hbd]
  obtain ⟨tc, rfl, hc⟩ := litex_request_of_prepare hprep h
  obtain ⟨_, hf⟩ := litex_request_command_frame hc
  have hbuf' : host'.buffer = sg_copy_to_buffer d.sg host.buffer
      (min ((d.blksz * d.blocks) % 2 ^ 32) host.buffer_size) := by rw [hf]
  refine ⟨_, [Ev.write Reg.SDCORE_BLKLEN 2 (d.blksz % 2 ^ 16),
      Ev.write Reg.SDCORE_BLKCNT 4 (d.blocks % 2 ^ 32)] ++ tc, rfl, Nat.min_le_right _ _,
    ?_, ?_, by simp only [List.append_assoc, List.cons_append, List.nil_append], hbuf', ?_⟩
  · intro hlt
    rw [Nat.mod_eq_of_lt hlt]
  · intro h1 h2
    rw [h1, h2]
    norm_num
  · intro hsg
    rw [hbuf']
    unfold sg_copy_to_buffer
    rw [List.length_take, Nat.min_eq_left hsg]


theorem poll_ready (reg : Reg) (v : Nat) (rest : Script) (hv : v % 2 = 1) :
    sdcard_wait_done_poll reg (v :: rest) = some (v % 2 ^ 8, rest, [Ev.read reg 1 (v % 2 ^ 8)]) := by
  have h : v % 2 ^ 8 &&& 0x1 ≠ 0 := by
    rw [Nat.and_one_is_mod]; omega
  rw [sdcard_wait_done_poll]
  exact if_pos h

theorem poll_idle (reg : Reg) (x : Nat) (rest : Script) (hx : x % 2 = 0) :
    sdcard_wait_done_poll reg (x :: rest)
      = match sdcard_wait_done_poll reg rest with
        | none => none
        | some (e, s, t) => some (e, s, Ev.read reg 1 (x % 2 ^ 8) :: Ev.udelay 5 :: t) := by
  have h : ¬ (x % 2 ^ 8 &&& 0x1 ≠ 0) := by
    rw [Nat.and_one_is_mod]; omega
  rw [sdcard_wait_done_poll]
  exact if_neg h

/-- The polling loop skips the values with bit 0 clear and ends at the first
value with bit 0 set. -/
theorem poll_spec (reg : Reg) (idle : List Nat) (v : Nat) (rest : Script)
    (hidle : ∀ x ∈ idle, x % 2 = 0) (hv : v % 2 = 1) :
    sdcard_wait_done_poll reg (idle ++ v :: rest)
      = some (v % 2 ^ 8, rest,
          idle.flatMap (fun x => [Ev.read reg 1 (x % 2 ^ 8), Ev.udelay 5])
            ++ [Ev.read reg 1 (v % 2 ^ 8)]) := by
  induction idle with
  | nil => exact poll_ready reg v rest hv
  | cons x xs ih =>
    rw [List.cons_append, poll_idle reg x _ (hidle x (List.mem_cons_self _ _)),
      ih (fun y hy => hidle y (List.mem_cons_of_mem _ hy))]
    rfl

theorem decode_spec (e : Nat) (he : e < 256) (h0 : e % 2 = 1) :
    (sdcard_wait_done_decode e = SD_OK ↔ e = 0x01) ∧
    (e ≠ 0x01 →
      sdcard_wait_done_decode e =
        if e.testBit 1 then SD_WRITEERROR
        else if e.testBit 2 then SD_TIMEOUT
        else if e.testBit 3 then SD_CRCERROR
        else SD_ERR_OTHER) ∧
    (sdcard_wait_done_decode e = SD_ERR_OTHER → e &&& 0x0E = 0 ∧ e &&& 0xF0 ≠ 0) := by
  interval_cases e <;> first | omega | decide

/-- C10. Event decoding in `sdcard_wait_done`: when the event register reads
values with bit 0 clear (`idle`) and then a byte `e` with bit 0 set, the function
returns having consumed exactly these reads, and its result is `SD_OK` iff
`e = 0x01`; otherwise it is the write error if bit 1 of `e` is set, else the
timeout if bit 2 is set, else the CRC error if bit 3 is set, else the unknown
error, which is returned only when bits 1 to 3 are clear and a bit among 4 to 7
is set. -/
theorem sdcard_wait_done_decodes (reg : Reg) (idle : List Nat) (e : Nat) (rest : Script)
    (hidle : ∀ x ∈ idle, x.testBit 0 = false) (he : e < 256) (h0 : e.testBit 0 = true) :
    ∃ (st : Nat) (t : List Ev),
      sdcard_wait_done reg (idle ++ e :: rest) = some (st, rest, t) ∧
      (st = SD_OK ↔ e = 0x01) ∧
      (e ≠ 0x01 →
        st = if e.testBit 1 then SD_WRITEERROR
          else if e.testBit 2 then SD_TIMEOUT
          else if e.testBit 3 then SD_CRCERROR
          else SD_ERR_OTHER) ∧
      (st = SD_ERR_OTHER → e &&& 0x0E = 0 ∧ e &&& 0xF0 ≠ 0) := by
  have hv : e % 2 = 1 := by
    rw [Nat.testBit_zero] at h0
    exact of_decide_eq_true h0
  have hidle' : ∀ x ∈ idle, x % 2 = 0 := by
    intro x hx
    have := hidle x hx
    rw [Nat.testBit_zero] at this
    have := of_decide_eq_false this
    omega
  have he8 : e % 2 ^ 8 = e := Nat.mod_eq_of_lt he
  refine ⟨sdcard_wait_done_decode e,
    (idle.flatMap (fun x => [Ev.read reg 1 (x % 2 ^ 8), Ev.udelay 5])
      ++ [Ev.read reg 1 e]) ++ [], ?_, decode_spec e he hv⟩
  unfold sdcard_wait_done
  rw [Hw_bind_run, poll_spec reg idle e rest hidle' hv, he8]

/-- Witness for C10: two idle polls, then the event byte `0x05` (bits 0 and 2),
which decodes to the timeout. -/
theorem sdcard_wait_done_decodes_witness :
    (∀ x ∈ [0, 4], x.testBit 0 = false) ∧ 5 < 256 ∧ (5 : Nat).testBit 0 = true ∧
    ∃ (st : Nat) (t : List Ev),
      sdcard_wait_done Reg.SDCORE_CMDEVT ([0, 4] ++ 5 :: [9]) = some (st, [9], t) ∧
      (st = SD_OK ↔ 5 = 0x01) ∧
      (5 ≠ 0x01 →
        st = if (5 : Nat).testBit 1 then SD_WRITEERROR
          else if (5 : Nat).testBit 2 then SD_TIMEOUT
          else if (5 : Nat).testBit 3 then SD_CRCERROR
          else SD_ERR_OTHER) ∧
      (st = SD_ERR_OTHER → 5 &&& 0x0E = 0 ∧ 5 &&& 0xF0 ≠ 0) :=
  ⟨by decide, by decide, by decide,
    sdcard_wait_done_decodes Reg.SDCORE_CMDEVT [0, 4] 5 [9] (by decide) (by decide) (by decide)⟩


/-! ## Theorems: commands, card detection and completion -/

/-- A call of `send_cmd` whose command phase fails returns at once. -/
theorem send_cmd_of_cmd_fail (p : Platform) (host : litex_mmc_host) (cmd arg rl tr : Nat)
    {s s1 : Script} {st : Nat} {t1 : List Ev}
    (hwd : sdcard_wait_done Reg.SDCORE_CMDEVT s = some (st, s1, t1)) (hne : st ≠ SD_OK) :
    send_cmd p host cmd arg rl tr s = some ((st, host), s1, cmd_issue cmd arg rl tr ++ t1) := by
  unfold send_cmd
  simp only [Hw_bind_run, litex_write32, litex_write8, litex_write, hwd, Hw_ite_run, if_pos hne,
    Hw_pure_run, List.append_nil]
  rfl

/-- What a call of `send_cmd` whose command phase succeeds does to the host. -/
theorem send_cmd_of_cmd_ok {p : Platform} {host h2 : litex_mmc_host} {cmd arg rl tr st : Nat}
    {s s1 s2 : Script} {t1 t : List Ev}
    (hwd : sdcard_wait_done Reg.SDCORE_CMDEVT s = some (SD_OK, s1, t1))
    (h : send_cmd p host cmd arg rl tr s = some ((st, h2), s2, t)) :
    h2.app_cmd = (cmd % 2 ^ 8 == MMC_APP_CMD) ∧
      h2.rca = (if (!host.app_cmd && cmd % 2 ^ 8 == SD_SEND_RELATIVE_ADDR) = true
        then (h2.resp 3 >>> 16) &&& 0xffff else host.rca) ∧
      (rl % 2 ^ 8 = SDCARD_CTRL_RESPONSE_NONE → h2.resp = host.resp) ∧
      (rl % 2 ^ 8 ≠ SDCARD_CTRL_RESPONSE_NONE →
        ∃ r0 r1 r2 r3 rest, s1 = r0 :: r1 :: r2 :: r3 :: rest ∧
          h2.resp 0 = r0 % 2 ^ 32 ∧ h2.resp 1 = r1 % 2 ^ 32 ∧
          h2.resp 2 = r2 % 2 ^ 32 ∧ h2.resp 3 = r3 % 2 ^ 32) := by
  unfold send_cmd at h
  obtain ⟨_, sa, ta, ta', hw1, ha, rfl⟩ := Hw_bind_eq_some.mp h
  clear h
  obtain ⟨rfl, rfl⟩ := litex_write_eq_some hw1
  obtain ⟨_, sb, tb, tb', hw2, hb, rfl⟩ := Hw_bind_eq_some.mp ha
  clear ha
  obtain ⟨rfl, rfl⟩ := litex_write_eq_some hw2
  obtain ⟨_, sc, tc, tc', hw3, hc, rfl⟩ := Hw_bind_eq_some.mp hb
  clear hb
  obtain ⟨rfl, rfl⟩ := litex_write_eq_some hw3
  obtain ⟨status, s1', t1', t1b, hwd', hd, rfl⟩ := Hw_bind_eq_some.mp hc
  clear hc hw1 hw2 hw3
  rw [hwd] at hwd'
  simp only [Option.some.injEq, Prod.mk.injEq] at hwd'
  obtain ⟨rfl, rfl, rfl⟩ := hwd'
  rw [Hw_ite_run, if_neg (by simp)] at hd
  obtain ⟨hr, sr, tr1, tr1', hrd, he, rfl⟩ := Hw_bind_eq_some.mp hd
  clear hd
  dsimp only at he
  have hrd' : hr.app_cmd = host.app_cmd ∧ hr.rca = host.rca ∧
      (rl % 2 ^ 8 = SDCARD_CTRL_RESPONSE_NONE → hr.resp = host.resp) ∧
      (rl % 2 ^ 8 ≠ SDCARD_CTRL_RESPONSE_NONE →
        ∃ r0 r1 r2 r3 rest, s1 = r0 :: r1 :: r2 :: r3 :: rest ∧
          hr.resp 0 = r0 % 2 ^ 32 ∧ hr.resp 1 = r1 % 2 ^ 32 ∧
          hr.resp 2 = r2 % 2 ^ 32 ∧ hr.resp 3 = r3 % 2 ^ 32) := by
    rw [Hw_ite_run] at hrd
    split at hrd
    · rename_i hrl
      obtain ⟨r0, r1, r2, r3, rfl, rfl, rfl⟩ := send_cmd_read_resp_eq_some hrd
      exact ⟨rfl, rfl, fun hc => absurd hc hrl, fun _ => ⟨r0, r1, r2, r3, sr, rfl, rfl, rfl, rfl, rfl⟩⟩
    · rename_i hrl
      obtain ⟨rfl, rfl, rfl⟩ := Hw_pure_eq_some.mp hrd
      exact ⟨rfl, rfl, fun _ => rfl, fun hc => absurd hc hrl⟩
  obtain ⟨hra, hrr, hrn, hrs⟩ := hrd'
  have hfin : ∀ hh : litex_mmc_host,
      hh = ({ (if (!hr.app_cmd && cmd % 2 ^ 8 == SD_SEND_RELATIVE_ADDR) = true then
              { hr with rca := (hr.resp 3 >>> 16) &&& 0xffff } else hr) with
            app_cmd := (cmd % 2 ^ 8 == MMC_APP_CMD) } : litex_mmc_host) →
      hh.app_cmd = (cmd % 2 ^ 8 == MMC_APP_CMD) ∧
      hh.rca = (if (!host.app_cmd && cmd % 2 ^ 8 == SD_SEND_RELATIVE_ADDR) = true
        then (hh.resp 3 >>> 16) &&& 0xffff else host.rca) ∧
      (rl % 2 ^ 8 = SDCARD_CTRL_RESPONSE_NONE → hh.resp = host.resp) ∧
      (rl % 2 ^ 8 ≠ SDCARD_CTRL_RESPONSE_NONE →
        ∃ r0 r1 r2 r3 rest, s1 = r0 :: r1 :: r2 :: r3 :: rest ∧
          hh.resp 0 = r0 % 2 ^ 32 ∧ hh.resp 1 = r1 % 2 ^ 32 ∧
          hh.resp 2 = r2 % 2 ^ 32 ∧ hh.resp 3 = r3 % 2 ^ 32) := by
    intro hh hhh
    have hresp : hh.resp = hr.resp := by rw [hhh]; split <;> rfl
    refine ⟨by rw [hhh], ?_, ?_, ?_⟩
    · rw [hresp, hhh, hra]
      split
      · rfl
      · exact hrr
    · intro hc; rw [hresp]; exact hrn hc
    · intro hc; rw [hresp]; exact hrs hc
  rw [Hw_ite_run] at he
  split at he
  · obtain ⟨hx, _, _⟩ := Hw_pure_eq_some.mp he
    simp only [Prod.mk.injEq] at hx
    exact hfin h2 hx.2.symm
  · obtain ⟨st2, sd, td, td', hdd, hf, _⟩ := Hw_bind_eq_some.mp he
    clear he
    rw [Hw_ite_run] at hf
    split at hf
    · obtain ⟨hx, _, _⟩ := Hw_pure_eq_some.mp hf
      simp only [Prod.mk.injEq] at hx
      exact hfin h2 hx.2.symm
    · obtain ⟨j, sj, tj, tj', hj, hg, _⟩ := Hw_bind_eq_some.mp hf
      clear hf
      obtain ⟨dn, sw, tw, tw', hwt, hk, _⟩ := Hw_bind_eq_some.mp hg
      clear hg
      rw [Hw_ite_run] at hk
      split at hk
      · obtain ⟨hx, _, _⟩ := Hw_pure_eq_some.mp hk
        simp only [Prod.mk.injEq] at hx
        exact hfin h2 hx.2.symm
      · obtain ⟨hx, _, _⟩ := Hw_pure_eq_some.mp hk
        simp only [Prod.mk.injEq] at hx
        exact hfin h2 hx.2.symm


/-- A call of `send_cmd` that returns has waited for the command event. -/
theorem send_cmd_wait {p : Platform} {host h2 : litex_mmc_host} {cmd arg rl tr st : Nat}
    {s s2 : Script} {t : List Ev}
    (h : send_cmd p host cmd arg rl tr s = some ((st, h2), s2, t)) :
    ∃ st1 s1 t1, sdcard_wait_done Reg.SDCORE_CMDEVT s = some (st1, s1, t1) := by
  unfold send_cmd at h
  obtain ⟨_, sa, ta, ta', hw1, ha, rfl⟩ := Hw_bind_eq_some.mp h
  clear h
  obtain ⟨rfl, rfl⟩ := litex_write_eq_some hw1
  obtain ⟨_, sb, tb, tb', hw2, hb, rfl⟩ := Hw_bind_eq_some.mp ha
  clear ha
  obtain ⟨rfl, rfl⟩ := litex_write_eq_some hw2
  obtain ⟨_, sc, tc, tc', hw3, hc, rfl⟩ := Hw_bind_eq_some.mp hb
  clear hb
  obtain ⟨rfl, rfl⟩ := litex_write_eq_some hw3
  obtain ⟨status, s1, t1, t1', hwd, _, _⟩ := Hw_bind_eq_some.mp hc
  exact ⟨status, s1, t1, hwd⟩

/-- A trace whose outputs hold no completion holds no completion. -/
theorem not_mem_of_outputs {t : List Ev}
    (h : ∀ e ∈ outputs t, e ≠ Ev.mmc_request_done) : Ev.mmc_request_done ∉ t := by
  intro hm
  exact h _ (List.mem_filter.mpr ⟨hm, rfl⟩) rfl

theorem cmd_issue_ne_done {cmd arg rl tr : Nat} {e : Ev} (he : e ∈ cmd_issue cmd arg rl tr) :
    e ≠ Ev.mmc_request_done := by
  intro hd
  subst hd
  simp [cmd_issue] at he

theorem litex_request_setup_no_done {p : Platform} {host h1 : litex_mmc_host} {d : mmc_data}
    {transfer : Nat} {s s1 : Script} {ts : List Ev}
    (h : litex_request_setup p host d s = some ((h1, transfer), s1, ts)) :
    Ev.mmc_request_done ∉ ts := by
  by_cases hr : d.flags &&& MMC_DATA_READ ≠ 0
  · rw [litex_request_setup_read p host d s hr] at h
    simp only [Option.some.injEq, Prod.mk.injEq] at h
    obtain ⟨_, _, rfl⟩ := h
    simp
  · by_cases hw : d.flags &&& MMC_DATA_WRITE ≠ 0
    · rw [litex_request_setup_write p host d s hr hw] at h
      simp only [Option.some.injEq, Prod.mk.injEq] at h
      obtain ⟨_, _, rfl⟩ := h
      simp
    · rw [litex_request_setup_none p host d s hr hw] at h
      simp only [Option.some.injEq, Prod.mk.injEq] at h
      obtain ⟨_, _, rfl⟩ := h
      simp

theorem litex_request_prepare_no_done {p : Platform} {host h1 : litex_mmc_host}
    {data : Option mmc_data} {ok : Bool} {transfer : Nat} {s s1 : Script} {t1 : List Ev}
    (h : litex_request_prepare p host data s = some ((ok, h1, transfer), s1, t1)) :
    Ev.mmc_request_done ∉ t1 := by
  cases data with
  | none =>
    rw [litex_request_prepare_none] at h
    simp only [Option.some.injEq, Prod.mk.injEq] at h
    obtain ⟨_, _, rfl⟩ := h
    simp
  | some d =>
    obtain ⟨hb, sb, tb, hbw, hno, hyes⟩ := litex_request_prepare_some_eq_some h
    have hbo := (litex_request_bus_width_eq_some hbw).1
    have htb : Ev.mmc_request_done ∉ tb := by
      apply not_mem_of_outputs
      intro e he
      rcases hbo e he with hc | hc
      · exact cmd_issue_ne_done hc
      · exact cmd_issue_ne_done hc
    cases ok with
    | false =>
      obtain ⟨_, _, rfl⟩ := hno rfl
      exact htb
    | true =>
      obtain ⟨ts, hs, rfl⟩ := hyes rfl
      intro hm
      rcases List.mem_append.mp hm with hm | hm
      · exact htb hm
      · exact litex_request_setup_no_done hs hm

theorem litex_request_retry_no_done {p : Platform} {cmd arg rl tr : Nat} {n : Nat}
    {host h2 : litex_mmc_host} {st : Nat} {s s2 : Script} {t : List Ev}
    (h : litex_request_retry p cmd arg rl tr n host s = some ((st, h2), s2, t)) :
    Ev.mmc_request_done ∉ t := by
  obtain ⟨sts, hs, _, _, _, _, _⟩ := litex_request_retry_eq_some n h
  obtain ⟨_, hout, _⟩ := send_cmd_times_eq_some _ hs
  apply not_mem_of_outputs
  intro e he
  rw [hout] at he
  obtain ⟨l, hl, hel⟩ := List.mem_flatten.mp he
  rw [List.eq_of_mem_replicate hl] at hel
  exact cmd_issue_ne_done hel

/-- The statuses of the first `k` of `m` consecutive calls of `send_cmd` are
those of `k` consecutive calls. -/
theorem send_cmd_times_take {p : Platform} {cmd arg rl tr : Nat} :
    ∀ (k m : Nat) {host ha hb : litex_mmc_host} {sa sb : List Nat} {s s2 s3 : Script}
      {ta tb : List Ev}, k ≤ m →
    send_cmd_times p cmd arg rl tr m host s = some ((sa, ha), s2, ta) →
    send_cmd_times p cmd arg rl tr k host s = some ((sb, hb), s3, tb) →
      sb = sa.take k
  | 0, m, host, ha, hb, sa, sb, s, s2, s3, ta, tb, _, _, hk => by
    obtain ⟨he, _, _⟩ := Hw_pure_eq_some.mp hk
    simp only [Prod.mk.injEq] at he
    rw [← he.1, List.take_zero]
  | k + 1, 0, host, ha, hb, sa, sb, s, s2, s3, ta, tb, hle, _, _ => by omega
  | k + 1, m + 1, host, ha, hb, sa, sb, s, s2, s3, ta, tb, hle, hm, hk => by
    rw [send_cmd_times] at hm hk
    obtain ⟨r, s1, t1, t1b, h1, hma, _⟩ := Hw_bind_eq_some.mp hm
    obtain ⟨r2, s1b, t1c, t1d, h1b, hka, _⟩ := Hw_bind_eq_some.mp hk
    rw [h1] at h1b
    simp only [Option.some.injEq, Prod.mk.injEq] at h1b
    obtain ⟨rfl, rfl, rfl⟩ := h1b
    obtain ⟨rs, s4, t4, t4b, h4, hmb, _⟩ := Hw_bind_eq_some.mp hma
    obtain ⟨rs2, s5, t5, t5b, h5, hkb, _⟩ := Hw_bind_eq_some.mp hka
    obtain ⟨he, _, _⟩ := Hw_pure_eq_some.mp hmb
    obtain ⟨he2, _, _⟩ := Hw_pure_eq_some.mp hkb
    simp only [Prod.mk.injEq] at he he2
    have ih := send_cmd_times_take k m (Nat.le_of_succ_le_succ hle) h4 h5
    rw [← he.1, ← he2.1, List.take_succ_cons, ih]

/-- An element of a proper initial part of a list is in the list without its
last element. -/
theorem mem_dropLast_of_take {α : Type} {l : List α} {k : Nat} {x : α} (hk : k < l.length)
    (hx : x ∈ l.take k) : x ∈ l.dropLast := by
  rw [List.dropLast_eq_take]
  have e : l.take k = (l.take (l.length - 1)).take k := by
    rw [List.take_take, Nat.min_eq_left (by omega)]
  rw [e] at hx
  exact List.mem_of_mem_take hx

/-- C11. Error reporting in `litex_request`: for every request that gets to
the command phase and is completed, the retry loop returns a status `st`, having
made `sts.length` calls of `send_cmd` for the request's own command, between 1
and `retries + 1`, with the statuses `sts`: every call but the last failed, the
last returned `st`, and `st` is `SD_OK` or the retries are used up; `sts` is the
only list of statuses of consecutive calls with these properties, so `st` is the
status of the last attempt.  `cmd->error` is 0 for `st = SD_OK`, `-EIO` for the
write error, `-ETIMEDOUT` for the timeout, `-EILSEQ` for the CRC error and
`-EINVAL` for any other status.  For a multi-block opcode the stop command is
then sent and returns some status `st3`, on which `cmd->error` does not depend;
what follows in the trace is only the copy of the data read and
`mmc_request_done`. -/
theorem litex_request_error_code (p : Platform) (mmc : mmc_host)
    (host h1 host' : litex_mmc_host) (mrq mrq' : mmc_request) (transfer : Nat)
    (s s1 s' : Script) (t1 tr : List Ev)
    (hprep : litex_request_prepare p host mrq.data s = some ((true, h1, transfer), s1, t1))
    (h : litex_request p mmc host mrq s = some ((host', mrq'), s', tr)) :
    ∃ (sts : List Nat) (st : Nat) (h2 : litex_mmc_host) (s2 : Script) (t2 t3 tail : List Ev),
      litex_request_retry p mrq.cmd.opcode mrq.cmd.arg
          (litex_request_response_len mrq.cmd.flags) transfer mrq.cmd.retries h1 s1
        = some ((st, h2), s2, t2) ∧
      send_cmd_times p mrq.cmd.opcode mrq.cmd.arg (litex_request_response_len mrq.cmd.flags)
          transfer sts.length h1 s1 = some ((sts, h2), s2, t2) ∧
      1 ≤ sts.length ∧ sts.length ≤ mrq.cmd.retries + 1 ∧
      (∀ x ∈ sts.dropLast, x ≠ SD_OK) ∧
      (st = SD_OK ∨ sts.length = mrq.cmd.retries + 1) ∧
      sts.getLast? = some st ∧
      (∀ (sts2 : List Nat) (hx : litex_mmc_host) (sx : Script) (tx : List Ev),
        send_cmd_times p mrq.cmd.opcode mrq.cmd.arg (litex_request_response_len mrq.cmd.flags)
            transfer sts2.length h1 s1 = some ((sts2, hx), sx, tx) →
        1 ≤ sts2.length → sts2.length ≤ mrq.cmd.retries + 1 →
        (∀ x ∈ sts2.dropLast, x ≠ SD_OK) →
        (sts2.getLast? = some SD_OK ∨ sts2.length = mrq.cmd.retries + 1) →
        sts2 = sts) ∧
      tr = t1 ++ t2 ++ t3 ++ tail ∧
      (∀ e ∈ tail, e = Ev.mmc_request_done ∨ ∃ n, e = Ev.sg_copy_from_buffer n) ∧
      (if mrq.cmd.opcode = MMC_READ_MULTIPLE_BLOCK ∨ mrq.cmd.opcode = MMC_WRITE_MULTIPLE_BLOCK
        then ∃ st3, send_stop_tx_cmd p h2 s2 = some ((st3, host'), s', t3)
        else host' = h2 ∧ s' = s2 ∧ t3 = []) ∧
      mrq'.cmd.error =
        (if st = SD_OK then 0
         else if st = SD_WRITEERROR then - EIO
         else if st = SD_TIMEOUT then - ETIMEDOUT
         else if st = SD_CRCERROR then - EILSEQ
         else - EINVAL) := by
  obtain ⟨t', rfl, hc⟩ := litex_request_of_prepare hprep h
  obtain ⟨st, h2, s2, t2, t3, hretry, hstop, herr, _, _, hdok, hdno⟩ :=
    litex_request_command_eq_some hc
  obtain ⟨sts, hsts, hl1, hl2, hdrop, hlast, hor⟩ := litex_request_retry_eq_some _ hretry
  have htail : ∃ tail, t' = t2 ++ t3 ++ tail ∧
      (∀ e ∈ tail, e = Ev.mmc_request_done ∨ ∃ n, e = Ev.sg_copy_from_buffer n) := by
    by_cases hk : st = SD_OK ∧ transfer ≠ SDCARD_CTRL_DATA_TRANSFER_NONE
    · obtain ⟨d, _, _, ht⟩ := hdok hk
      refine ⟨_, ht, ?_⟩
      intro e he
      rcases List.mem_append.mp he with he | he
      · split at he
        · exact Or.inr ⟨_, List.mem_singleton.mp he⟩
        · cases he
      · exact Or.inl (List.mem_singleton.mp he)
    · refine ⟨_, (hdno hk).2, ?_⟩
      intro e he
      exact Or.inl (List.mem_singleton.mp he)
  obtain ⟨tail, rfl, htl⟩ := htail
  refine ⟨sts, st, h2, s2, t2, t3, tail, hretry, hsts, hl1, hl2, hdrop, hor, hlast, ?_,
    by simp only [List.append_assoc], htl, hstop, herr⟩
  intro sts2 hx sx tx hs2 h21 h22 hdrop2 hor2
  have hstmem : st ∈ sts := List.mem_of_getLast?_eq_some hlast
  rcases Nat.lt_trichotomy sts2.length sts.length with hlt | heq | hgt
  · exfalso
    have htk := send_cmd_times_take sts2.length sts.length (Nat.le_of_lt hlt) hsts hs2
    rcases hor2 with hok | hfull
    · have hm : SD_OK ∈ sts2 := List.mem_of_getLast?_eq_some hok
      rw [htk] at hm
      exact hdrop _ (mem_dropLast_of_take hlt hm) rfl
    · omega
  · have htk := send_cmd_times_take sts2.length sts.length (Nat.le_of_eq heq) hsts hs2
    rw [htk, heq, List.take_length]
  · exfalso
    have htk := send_cmd_times_take sts.length sts2.length (Nat.le_of_lt hgt) hs2 hsts
    rw [htk] at hstmem
    have hne := hdrop2 _ (mem_dropLast_of_take hgt hstmem)
    rcases hor with hok | hfull
    · exact hne hok
    · omega

/-- The bound on the iterations of the bus-width loop is never what ends it:
every iteration consumes script values, so with any two bounds above the length
of the script the loop gives the same result. -/
theorem litex_request_bus_width_loop_fuel (p : Platform) (n : Nat) :
    ∀ (f1 f2 : Nat) (host : litex_mmc_host) (s : Script), s.length < f1 → s.length < f2 →
      litex_request_bus_width_loop p n f1 host s = litex_request_bus_width_loop p n f2 host s
  | 0, _, _, _, h1, _ => absurd h1 (Nat.not_lt_zero _)
  | _ + 1, 0, _, _, _, h2 => absurd h2 (Nat.not_lt_zero _)
  | f1 + 1, f2 + 1, host, s, h1, h2 => by
    rw [litex_request_bus_width_loop, litex_request_bus_width_loop, Hw_bind_run, Hw_bind_run]
    rcases hsb : litex_set_bus_width p host s with _ | ⟨⟨st, hb⟩, s1, t1⟩
    · rfl
    · obtain ⟨_, _, hlt⟩ := litex_set_bus_width_eq_some hsb
      dsimp only
      by_cases hne : st ≠ SD_OK
      · rw [Hw_ite_run, Hw_ite_run, if_pos hne, if_pos hne, Hw_bind_run, Hw_bind_run]
        rcases hj : jiffies p s1 with _ | ⟨now, s2, tj⟩
        · rfl
        · obtain ⟨x, hs1, _, _⟩ := jiffies_eq_some hj
          dsimp only
          by_cases hta : time_after p now n
          · rw [Hw_ite_run, Hw_ite_run, if_pos hta, if_pos hta]
          · rw [Hw_ite_run, Hw_ite_run, if_neg hta, if_neg hta]
            have hl : s2.length < s1.length := by rw [hs1]; simp
            rw [litex_request_bus_width_loop_fuel p n f1 f2 hb s2 (by omega) (by omega)]
      · rw [Hw_ite_run, Hw_ite_run, if_neg hne, if_neg hne]

/-- The command phase of `litex_request` returns whenever its retry loop and,
for a multi-block opcode, its stop command return, and the request has data
when a transfer was set up. -/
theorem litex_request_command_returns (mmc : mmc_host) {p : Platform}
    {host h2 : litex_mmc_host} {mrq : mmc_request} {rl tr st : Nat} {s s2 : Script}
    {t2 : List Ev}
    (hretry : litex_request_retry p mrq.cmd.opcode mrq.cmd.arg rl tr mrq.cmd.retries host s
        = some ((st, h2), s2, t2))
    (hstop : (mrq.cmd.opcode = MMC_READ_MULTIPLE_BLOCK ∨
        mrq.cmd.opcode = MMC_WRITE_MULTIPLE_BLOCK) →
      ∃ r3 s3 t3, send_stop_tx_cmd p h2 s2 = some (r3, s3, t3))
    (hdata : tr ≠ SDCARD_CTRL_DATA_TRANSFER_NONE → ∃ d, mrq.data = some d) :
    ∃ r s3 t, litex_request_command p mmc host mrq rl tr s = some (r, s3, t) := by
  unfold litex_request_command
  rw [Hw_bind_run, hretry]
  dsimp only
  have hstop2 : ∃ h3 s3 t3,
      ((if mrq.cmd.opcode = MMC_READ_MULTIPLE_BLOCK ∨
          mrq.cmd.opcode = MMC_WRITE_MULTIPLE_BLOCK then do
          let r ← send_stop_tx_cmd p h2
          pure r.2
        else pure h2) : Hw litex_mmc_host) s2 = some (h3, s3, t3) := by
    rw [Hw_ite_run]
    by_cases hm : mrq.cmd.opcode = MMC_READ_MULTIPLE_BLOCK ∨
        mrq.cmd.opcode = MMC_WRITE_MULTIPLE_BLOCK
    · rw [if_pos hm]
      obtain ⟨r3, s3, t3, h3⟩ := hstop hm
      rw [Hw_bind_run, h3]
      exact ⟨_, _, _, rfl⟩
    · rw [if_neg hm]
      exact ⟨_, _, _, rfl⟩
  obtain ⟨h3, s3, t3, hs⟩ := hstop2
  rw [Hw_bind_run, hs]
  dsimp only
  rw [Hw_ite_run]
  by_cases hok : st = SD_OK ∧ tr ≠ SDCARD_CTRL_DATA_TRANSFER_NONE
  · rw [if_pos hok]
    obtain ⟨d, hd⟩ := hdata hok.2
    rw [hd]
    dsimp only
    by_cases hrd : tr = SDCARD_CTRL_DATA_TRANSFER_READ
    · simp only [if_pos hrd]
      exact ⟨_, _, _, rfl⟩
    · simp only [if_neg hrd]
      exact ⟨_, _, _, rfl⟩
  · rw [if_neg hok]
    exact ⟨_, _, _, rfl⟩

/-- The transfer setup of `litex_request` returns on every script, with the
value of `transfer` that the direction flags of the data give. -/
theorem litex_request_setup_returns (p : Platform) (host : litex_mmc_host) (d : mmc_data)
    (s : Script) :
    ∃ h1 ts, litex_request_setup p host d s
      = some ((h1, if d.flags &&& MMC_DATA_READ ≠ 0 then SDCARD_CTRL_DATA_TRANSFER_READ
            else if d.flags &&& MMC_DATA_WRITE ≠ 0 then SDCARD_CTRL_DATA_TRANSFER_WRITE
            else SDCARD_CTRL_DATA_TRANSFER_NONE), s, ts) := by
  by_cases hr : d.flags &&& MMC_DATA_READ ≠ 0
  · rw [if_pos hr, litex_request_setup_read p host d s hr]
    exact ⟨_, _, rfl⟩
  · by_cases hw : d.flags &&& MMC_DATA_WRITE ≠ 0
    · rw [if_neg hr, if_pos hw, litex_request_setup_write p host d s hr hw]
      exact ⟨_, _, rfl⟩
    · rw [if_neg hr, if_neg hw, litex_request_setup_none p host d s hr hw]
      exact ⟨_, _, rfl⟩

/-- The preparation of a request with data returns whenever its bus-width block
returns. -/
theorem litex_request_prepare_returns {p : Platform} {host hb : litex_mmc_host} {d : mmc_data}
    {s sb : Script} {tb : List Ev}
    (hbw : litex_request_bus_width p host s = some ((true, hb), sb, tb)) :
    ∃ h1 ts, litex_request_prepare p host (some d) s
      = some ((true, h1, if d.flags &&& MMC_DATA_READ ≠ 0 then SDCARD_CTRL_DATA_TRANSFER_READ
            else if d.flags &&& MMC_DATA_WRITE ≠ 0 then SDCARD_CTRL_DATA_TRANSFER_WRITE
            else SDCARD_CTRL_DATA_TRANSFER_NONE), sb, tb ++ ts) := by
  obtain ⟨h1, ts, hs⟩ := litex_request_setup_returns p hb d sb
  refine ⟨h1, ts, ?_⟩
  unfold litex_request_prepare
  dsimp only
  rw [Hw_bind_run, hbw]
  dsimp only
  rw [Hw_ite_run, if_neg (by simp), Hw_bind_run, hs]
  simp only [Hw_pure_run, List.append_nil]

/-- A request that was prepared with a transfer has data. -/
theorem litex_request_prepare_transfer {p : Platform} {host h1 : litex_mmc_host}
    {data : Option mmc_data} {ok : Bool} {transfer : Nat} {s s1 : Script} {t1 : List Ev}
    (h : litex_request_prepare p host data s = some ((ok, h1, transfer), s1, t1))
    (ht : transfer ≠ SDCARD_CTRL_DATA_TRANSFER_NONE) : ∃ d, data = some d := by
  cases data with
  | some d => exact ⟨d, rfl⟩
  | none =>
    rw [litex_request_prepare_none] at h
    simp only [Option.some.injEq, Prod.mk.injEq] at h
    exact absurd h.1.2.2.symm ht

/-- A request whose preparation succeeds is completed whenever its retry loop
and, for a multi-block opcode, its stop command return: the trace is that of the
preparation, the retry loop and the stop command, then the copy of the data
read, if any, then `mmc_request_done`. -/
theorem litex_request_returns (mmc : mmc_host) {p : Platform} {host h1 h2 : litex_mmc_host}
    {mrq : mmc_request} {transfer st : Nat} {s s1 s2 : Script} {t1 t2 : List Ev}
    (hprep : litex_request_prepare p host mrq.data s = some ((true, h1, transfer), s1, t1))
    (hretry : litex_request_retry p mrq.cmd.opcode mrq.cmd.arg
        (litex_request_response_len mrq.cmd.flags) transfer mrq.cmd.retries h1 s1
      = some ((st, h2), s2, t2))
    (hstop : (mrq.cmd.opcode = MMC_READ_MULTIPLE_BLOCK ∨
        mrq.cmd.opcode = MMC_WRITE_MULTIPLE_BLOCK) →
      ∃ r3 s3 t3, send_stop_tx_cmd p h2 s2 = some (r3, s3, t3)) :
    ∃ h3 mrq' s3 t3 tail,
      litex_request p mmc host mrq s = some ((h3, mrq'), s3, t1 ++ t2 ++ t3 ++ tail ++
        [Ev.mmc_request_done]) ∧
      (if mrq.cmd.opcode = MMC_READ_MULTIPLE_BLOCK ∨ mrq.cmd.opcode = MMC_WRITE_MULTIPLE_BLOCK
        then ∃ st3, send_stop_tx_cmd p h2 s2 = some ((st3, h3), s3, t3)
        else h3 = h2 ∧ s3 = s2 ∧ t3 = []) ∧
      (tail = [] ∨ ∃ n, tail = [Ev.sg_copy_from_buffer n]) := by
  obtain ⟨⟨h3, mrq'⟩, s3, t, hc⟩ := litex_request_command_returns mmc hretry hstop
    (litex_request_prepare_transfer hprep)
  have hreq := litex_request_of_parts p mmc host h1 mrq transfer s s1 s3 t1 t _ hprep hc
  obtain ⟨st', h2', s2', t2', t3, hretry', hstop', _, _, _, hdok, hdno⟩ :=
    litex_request_command_eq_some hc
  rw [hretry] at hretry'
  simp only [Option.some.injEq, Prod.mk.injEq] at hretry'
  obtain ⟨⟨rfl, rfl⟩, rfl, rfl⟩ := hretry'
  by_cases hk : st = SD_OK ∧ transfer ≠ SDCARD_CTRL_DATA_TRANSFER_NONE
  · obtain ⟨d, _, _, rfl⟩ := hdok hk
    refine ⟨h3, mrq', s3, t3,
      (if transfer = SDCARD_CTRL_DATA_TRANSFER_READ then
        [Ev.sg_copy_from_buffer (min ((d.blksz * d.blocks) % 2 ^ 32) mmc.max_req_size)]
      else []), ?_, hstop', ?_⟩
    · rw [hreq]
      simp only [List.append_assoc]
    · split
      · exact Or.inr ⟨_, rfl⟩
      · exact Or.inl rfl
  · obtain ⟨_, rfl⟩ := hdno hk
    refine ⟨h3, mrq', s3, t3, [], ?_, hstop', Or.inl rfl⟩
    rw [hreq]
    simp only [List.append_assoc, List.nil_append]

/-- C12. Completion exactly once.  (1) The trace of every call of
`litex_request` that returns ends with `mmc_request_done` and holds no other
`mmc_request_done`.  The call returns on every path, provided the loops on the
hardware that it runs return: (2) when the bus-width block ends by its timeout
branch, the call returns right after it, with the trace of the block followed by
`mmc_request_done`; (3) a request without data is prepared at once, and (4) a
request with data is prepared, whatever its direction flags (also with
neither), whenever the bus-width block succeeds, which it does on every script
when `is_bus_width_set` is true; (5) a prepared request is completed whenever
the retry loop of its command returns, with success or with failure, and, for a
multi-block opcode, the stop command returns: the trace is that of the
preparation, the retry loop and the stop command, then the copy of the data
read, if any, then `mmc_request_done`, which occurs nowhere before. -/
theorem litex_request_done_once (p : Platform) (mmc : mmc_host) (host : litex_mmc_host)
    (mrq : mmc_request) (s : Script) :
    (∀ (host' : litex_mmc_host) (mrq' : mmc_request) (s' : Script) (tr : List Ev),
      litex_request p mmc host mrq s = some ((host', mrq'), s', tr) →
      ∃ pre : List Ev, tr = pre ++ [Ev.mmc_request_done] ∧ Ev.mmc_request_done ∉ pre ∧
        tr.count Ev.mmc_request_done = 1) ∧
    (∀ (d : mmc_data) (hb : litex_mmc_host) (sb : Script) (tb : List Ev),
      mrq.data = some d →
      litex_request_bus_width p host s = some ((false, hb), sb, tb) →
      litex_request p mmc host mrq s
        = some ((hb, { mrq with cmd := { mrq.cmd with error := - ETIMEDOUT } }), sb,
            tb ++ [Ev.mmc_request_done]) ∧
        Ev.mmc_request_done ∉ tb) ∧
    (mrq.data = none →
      litex_request_prepare p host mrq.data s
        = some ((true, host, SDCARD_CTRL_DATA_TRANSFER_NONE), s, [])) ∧
    (∀ (d : mmc_data) (hb : litex_mmc_host) (sb : Script) (tb : List Ev),
      mrq.data = some d →
      litex_request_bus_width p host s = some ((true, hb), sb, tb) →
      ∃ (h1 : litex_mmc_host) (ts : List Ev),
        litex_request_prepare p host mrq.data s
          = some ((true, h1,
              if d.flags &&& MMC_DATA_READ ≠ 0 then SDCARD_CTRL_DATA_TRANSFER_READ
              else if d.flags &&& MMC_DATA_WRITE ≠ 0 then SDCARD_CTRL_DATA_TRANSFER_WRITE
              else SDCARD_CTRL_DATA_TRANSFER_NONE), sb, tb ++ ts)) ∧
    (∀ (d : mmc_data), mrq.data = some d → host.is_bus_width_set = true →
      ∃ (h1 : litex_mmc_host) (ts : List Ev),
        litex_request_prepare p host mrq.data s
          = some ((true, h1,
              if d.flags &&& MMC_DATA_READ ≠ 0 then SDCARD_CTRL_DATA_TRANSFER_READ
              else if d.flags &&& MMC_DATA_WRITE ≠ 0 then SDCARD_CTRL_DATA_TRANSFER_WRITE
              else SDCARD_CTRL_DATA_TRANSFER_NONE), s, ts)) ∧
    (∀ (h1 h2 : litex_mmc_host) (transfer st : Nat) (s1 s2 : Script) (t1 t2 : List Ev),
      litex_request_prepare p host mrq.data s = some ((true, h1, transfer), s1, t1) →
      litex_request_retry p mrq.cmd.opcode mrq.cmd.arg
          (litex_request_response_len mrq.cmd.flags) transfer mrq.cmd.retries h1 s1
        = some ((st, h2), s2, t2) →
      ((mrq.cmd.opcode = MMC_READ_MULTIPLE_BLOCK ∨ mrq.cmd.opcode = MMC_WRITE_MULTIPLE_BLOCK) →
        ∃ r3 s3 t3, send_stop_tx_cmd p h2 s2 = some (r3, s3, t3)) →
      ∃ (h3 : litex_mmc_host) (mrq' : mmc_request) (s3 : Script) (t3 tail : List Ev),
        litex_request p mmc host mrq s
          = some ((h3, mrq'), s3, t1 ++ t2 ++ t3 ++ tail ++ [Ev.mmc_request_done]) ∧
        (if mrq.cmd.opcode = MMC_READ_MULTIPLE_BLOCK ∨
            mrq.cmd.opcode = MMC_WRITE_MULTIPLE_BLOCK
          then ∃ st3, send_stop_tx_cmd p h2 s2 = some ((st3, h3), s3, t3)
          else h3 = h2 ∧ s3 = s2 ∧ t3 = []) ∧
        (tail = [] ∨ ∃ n, tail = [Ev.sg_copy_from_buffer n]) ∧
        Ev.mmc_request_done ∉ t1 ++ t2 ++ t3 ++ tail) := by
  have key : ∀ (host' : litex_mmc_host) (mrq' : mmc_request) (s' : Script) (tr : List Ev),
      litex_request p mmc host mrq s = some ((host', mrq'), s', tr) →
      ∃ pre : List Ev, tr = pre ++ [Ev.mmc_request_done] ∧ Ev.mmc_request_done ∉ pre := by
    intro host' mrq' s' tr h
    rcases hp : litex_request_prepare p host mrq.data s with _ | ⟨⟨ok, h1, transfer⟩, s1, t1⟩
    · unfold litex_request at h
      rw [Hw_bind_run, hp] at h
      cases h
    · have ht1 := litex_request_prepare_no_done hp
      cases ok with
      | false =>
        rw [litex_request_of_prepare_fail hp] at h
        simp only [Option.some.injEq, Prod.mk.injEq] at h
        obtain ⟨_, _, rfl⟩ := h
        exact ⟨t1, rfl, ht1⟩
      | true =>
        obtain ⟨t', rfl, hc⟩ := litex_request_of_prepare hp h
        obtain ⟨st, h2, s2, t2, t3, hretry, hstop, _, _, _, hdok, hdno⟩ :=
          litex_request_command_eq_some hc
        have ht2 := litex_request_retry_no_done hretry
        have ht3 : Ev.mmc_request_done ∉ t3 := by
          split at hstop
          · obtain ⟨st3, hs3⟩ := hstop
            apply not_mem_of_outputs
            intro e he
            rw [send_stop_tx_cmd_eq_some hs3] at he
            exact cmd_issue_ne_done he
          · rw [hstop.2.2]; simp
        by_cases hk : st = SD_OK ∧ transfer ≠ SDCARD_CTRL_DATA_TRANSFER_NONE
        · obtain ⟨d, _, _, rfl⟩ := hdok hk
          refine ⟨t1 ++ (t2 ++ t3 ++ (if transfer = SDCARD_CTRL_DATA_TRANSFER_READ then
              [Ev.sg_copy_from_buffer (min ((d.blksz * d.blocks) % 2 ^ 32) mmc.max_req_size)]
            else [])), by simp only [List.append_assoc], ?_⟩
          intro hm
          simp only [List.mem_append] at hm
          rcases hm with hm | (hm | hm) | hm
          · exact ht1 hm
          · exact ht2 hm
          · exact ht3 hm
          · split at hm
            · simp at hm
            · simp at hm
        · obtain ⟨_, rfl⟩ := hdno hk
          refine ⟨t1 ++ (t2 ++ t3), by simp only [List.append_assoc], ?_⟩
          intro hm
          simp only [List.mem_append] at hm
          rcases hm with hm | hm | hm
          · exact ht1 hm
          · exact ht2 hm
          · exact ht3 hm
  have pre_of : ∀ {a b : List Ev}, a ++ [Ev.mmc_request_done] = b ++ [Ev.mmc_request_done] →
      a = b := fun hab => List.append_cancel_right hab
  refine ⟨?_, ?_, ?_, ?_, ?_, ?_⟩
  · intro host' mrq' s' tr h
    obtain ⟨pre, rfl, hpre⟩ := key host' mrq' s' tr h
    refine ⟨pre, rfl, hpre, ?_⟩
    rw [List.count_append, List.count_eq_zero_of_not_mem hpre]
    rfl
  · intro d hb sb tb hd hbw
    have hprep : litex_request_prepare p host mrq.data s
        = some ((false, hb, SDCARD_CTRL_DATA_TRANSFER_NONE), sb, tb) := by
      rw [hd]
      unfold litex_request_prepare
      dsimp only
      rw [Hw_bind_run, hbw]
      dsimp only
      rw [Hw_ite_run, if_pos (by simp)]
      simp only [Hw_pure_run, List.append_nil]
    exact ⟨litex_request_of_prepare_fail hprep, litex_request_prepare_no_done hprep⟩
  · intro hd
    rw [hd, litex_request_prepare_none]
  · intro d hb sb tb hd hbw
    rw [hd]
    exact litex_request_prepare_returns hbw
  · intro d hd hset
    have hbw : litex_request_bus_width p host s = some ((true, host), s, []) := by
      unfold litex_request_bus_width
      rw [Hw_ite_run, if_neg (by simp [hset])]
      rfl
    obtain ⟨h1, ts, hp⟩ := @litex_request_prepare_returns p host host d s s [] hbw
    rw [hd]
    exact ⟨h1, ts, hp⟩
  · intro h1 h2 transfer st s1 s2 t1 t2 hprep hretry hstop
    obtain ⟨h3, mrq', s3, t3, tail, hreq, hst, htail⟩ :=
      litex_request_returns mmc hprep hretry hstop
    obtain ⟨pre, hpre, hno⟩ := key _ _ _ _ hreq
    rw [← pre_of hpre] at hno
    exact ⟨h3, mrq', s3, t3, tail, hreq, hst, htail, hno⟩

/-- C15. Card-presence query `litex_get_cd`: for a removable card without a
card-detect GPIO the function reads the PHY card-detect register once and
returns 1 iff the byte read is 0, and 0 otherwise, clearing
`host->is_bus_width_set` in the second case only; for a non-removable card it
returns 1 without any access; and in every case the result is 0 or 1, the flag
is false after a result 0, and the host is unchanged after a result 1. -/
theorem litex_get_cd_presence (mmc : mmc_host) (host : litex_mmc_host) :
    (mmc.removable = true → mmc.gpio_cd < 0 → ∀ (v : Nat) (rest : Script),
      litex_get_cd mmc host (v :: rest)
        = some ((if v % 2 ^ 8 = 0 then 1 else 0,
            if v % 2 ^ 8 = 0 then host else { host with is_bus_width_set := false }), rest,
          [Ev.read Reg.SDPHY_CARDDETECT 1 (v % 2 ^ 8)])) ∧
    (mmc.removable = false → ∀ s : Script, litex_get_cd mmc host s = some ((1, host), s, [])) ∧
    (∀ (s s2 : Script) (ret : Nat) (h2 : litex_mmc_host) (t : List Ev),
      litex_get_cd mmc host s = some ((ret, h2), s2, t) →
        (ret = 0 ∨ ret = 1) ∧
        (ret = 0 → h2.is_bus_width_set = false) ∧
        (ret = 1 → h2 = host)) := by
  refine ⟨?_, ?_, ?_⟩
  · intro hrem hgpio v rest
    have hg : ¬ (mmc.gpio_cd ≥ 0) := by omega
    unfold litex_get_cd
    simp only [hrem, Bool.not_true, Bool.false_eq_true, if_false, hg, Hw_bind_run, litex_read8,
      litex_read, Hw_pure_run]
    by_cases hv : v % 2 ^ 8 = 0
    · simp [hv]
    · simp [hv]
  · intro hrem s
    unfold litex_get_cd
    simp only [hrem, Bool.not_false, if_true, Hw_pure_run]
  · intro s s2 ret h2 t h
    unfold litex_get_cd at h
    dsimp only at h
    rw [Hw_ite_run] at h
    split at h
    · obtain ⟨hx, _, _⟩ := Hw_pure_eq_some.mp h
      simp only [Prod.mk.injEq] at hx
      obtain ⟨rfl, rfl⟩ := hx
      exact ⟨Or.inr rfl, fun hc => absurd hc (by decide), fun _ => rfl⟩
    · obtain ⟨r, s1, t1, t1', hr, hp, _⟩ := Hw_bind_eq_some.mp h
      obtain ⟨hx, _, _⟩ := Hw_pure_eq_some.mp hp
      simp only [Prod.mk.injEq] at hx
      obtain ⟨rfl, rfl⟩ := hx
      have hr01 : r = 0 ∨ r = 1 := by
        rw [Hw_ite_run] at hr
        split at hr
        · obtain ⟨hy, _, _⟩ := Hw_pure_eq_some.mp hr
          rw [← hy]
          split
          · exact Or.inr rfl
          · exact Or.inl rfl
        · obtain ⟨v, sv, tv, tv', _, hq, _⟩ := Hw_bind_eq_some.mp hr
          obtain ⟨hy, _, _⟩ := Hw_pure_eq_some.mp hq
          rw [← hy]
          split
          · exact Or.inr rfl
          · exact Or.inl rfl
      refine ⟨hr01, ?_, ?_⟩
      · intro h0; rw [if_pos h0]
      · intro h1; rw [if_neg (by omega)]

/-- C17, as stated, fails: CMD55 sent on the example host, whose `app_cmd` is
false, with the command-event byte `0x05` (timeout) returns `SD_TIMEOUT` and
leaves the host as it was, so `host->app_cmd` is still false although the
opcode issued is `MMC_APP_CMD`. -/
theorem send_cmd_app_cmd_stale :
    send_cmd ex_platform ex_host MMC_APP_CMD 0 SDCARD_CTRL_RESPONSE_SHORT
        SDCARD_CTRL_DATA_TRANSFER_NONE [5]
      = some ((SD_TIMEOUT, ex_host), [], ex_cmd_fail_trace 55 0 1 0 5)
    ∧ ex_host.app_cmd = false ∧ (MMC_APP_CMD % 2 ^ 8 == MMC_APP_CMD) = true :=
  ⟨rfl, rfl, rfl⟩

/-- C17, amended. App-command tracking in `send_cmd`: every call that returns
has waited for the command event; if that wait gave `SD_OK` then afterwards
`host->app_cmd` equals `(cmd == MMC_APP_CMD)` (with `cmd` the `u8` opcode),
whatever the outcome of the data phase; if it gave another status, the call
returns that status and `host->app_cmd` is unchanged. -/
theorem send_cmd_app_cmd_tracking (p : Platform) (host h2 : litex_mmc_host)
    (cmd arg rl tr st : Nat) (s s2 : Script) (t : List Ev)
    (h : send_cmd p host cmd arg rl tr s = some ((st, h2), s2, t)) :
    ∃ (st1 : Nat) (s1 : Script) (t1 : List Ev),
      sdcard_wait_done Reg.SDCORE_CMDEVT s = some (st1, s1, t1) ∧
      (st1 = SD_OK → h2.app_cmd = (cmd % 2 ^ 8 == MMC_APP_CMD)) ∧
      (st1 ≠ SD_OK → st = st1 ∧ h2.app_cmd = host.app_cmd) := by
  obtain ⟨st1, s1, t1, hwd⟩ := send_cmd_wait h
  refine ⟨st1, s1, t1, hwd, ?_, ?_⟩
  · intro hok
    subst hok
    exact (send_cmd_of_cmd_ok hwd h).1
  · intro hne
    rw [send_cmd_of_cmd_fail p host cmd arg rl tr hwd hne] at h
    simp only [Option.some.injEq, Prod.mk.injEq] at h
    obtain ⟨⟨rfl, rfl⟩, _, _⟩ := h
    exact ⟨rfl, rfl⟩

/-- C18, as stated, fails: on a host whose previous command was not CMD55, the
call that succeeds issues CMD55 and ACMD6 and nothing else, so the bridging
CMD55 at the start is not followed by a trailing one. -/
theorem litex_set_bus_width_trailing_differs :
    litex_set_bus_width ex_platform ex_host_absent [1, 1, 2, 3, 0x120, 1, 5, 6, 7, 0x920]
      = some ((SD_OK, ex_with_resp (ex_with_resp ex_host_absent 1 2 3 0x120) 5 6 7 0x920), [],
          ex_reinsert_width_trace)
    ∧ ex_host_absent.app_cmd = false
    ∧ outputs ex_reinsert_width_trace
        = cmd_issue MMC_APP_CMD 0 SDCARD_CTRL_RESPONSE_SHORT SDCARD_CTRL_DATA_TRANSFER_NONE
          ++ cmd_issue SD_APP_SET_BUS_WIDTH MMC_BUS_WIDTH_4 SDCARD_CTRL_RESPONSE_SHORT
            SDCARD_CTRL_DATA_TRANSFER_NONE
    ∧ outputs ex_reinsert_width_trace
        ≠ bus_width_issue_stated ex_host_absent.app_cmd ex_host_absent.rca := by
  refine ⟨rfl, rfl, rfl, ?_⟩
  decide

/-- C18, amended. Bus-width sequence in `litex_set_bus_width`: the commands
issued are, in order, CMD55 iff `host->app_cmd` was false on entry, then ACMD6
with the argument `MMC_BUS_WIDTH_4`, then a trailing CMD55 iff `host->app_cmd`
was true on entry, that is, exactly when no bridging CMD55 was issued at the
start. -/
theorem litex_set_bus_width_sequence (p : Platform) (host h2 : litex_mmc_host) (st : Nat)
    (s s2 : Script) (t : List Ev)
    (h : litex_set_bus_width p host s = some ((st, h2), s2, t)) :
    outputs t =
      (if host.app_cmd = false then
          cmd_issue MMC_APP_CMD ((host.rca % 2 ^ 16) <<< 16) SDCARD_CTRL_RESPONSE_SHORT
            SDCARD_CTRL_DATA_TRANSFER_NONE
        else [])
      ++ cmd_issue SD_APP_SET_BUS_WIDTH MMC_BUS_WIDTH_4 SDCARD_CTRL_RESPONSE_SHORT
          SDCARD_CTRL_DATA_TRANSFER_NONE
      ++ (if host.app_cmd = true then
          cmd_issue MMC_APP_CMD ((host.rca % 2 ^ 16) <<< 16) SDCARD_CTRL_RESPONSE_SHORT
            SDCARD_CTRL_DATA_TRANSFER_NONE
        else []) := by
  rw [(litex_set_bus_width_eq_some h).1]
  unfold bus_width_issue
  cases host.app_cmd <;> simp

/-- C19. Card-address capture in `send_cmd`: every call that returns has waited
for the command event.  If that wait gave `SD_OK` (the command phase
succeeded), `host->rca` afterwards is `(host->resp[3] >> 16) & 0xffff`, bits
16..31 of response word 3, when `host->app_cmd` was false on entry and the
opcode is `SD_SEND_RELATIVE_ADDR`, and is unchanged otherwise; the response
word 3 is the fourth word read from the response registers when a response is
expected, and the word the host already had when none is.  If the wait gave
another status, `host->rca` is unchanged. -/
theorem send_cmd_rca_capture (p : Platform) (host h2 : litex_mmc_host)
    (cmd arg rl tr st : Nat) (s s2 : Script) (t : List Ev)
    (h : send_cmd p host cmd arg rl tr s = some ((st, h2), s2, t)) :
    ∃ (st1 : Nat) (s1 : Script) (t1 : List Ev),
      sdcard_wait_done Reg.SDCORE_CMDEVT s = some (st1, s1, t1) ∧
      (st1 = SD_OK →
        h2.rca = (if host.app_cmd = false ∧ cmd % 2 ^ 8 = SD_SEND_RELATIVE_ADDR
          then (h2.resp 3 >>> 16) &&& 0xffff else host.rca) ∧
        (h2.resp 3 >>> 16) &&& 0xffff = h2.resp 3 / 2 ^ 16 % 2 ^ 16 ∧
        (rl % 2 ^ 8 = SDCARD_CTRL_RESPONSE_NONE → h2.resp = host.resp) ∧
        (rl % 2 ^ 8 ≠ SDCARD_CTRL_RESPONSE_NONE →
          ∃ r0 r1 r2 r3 rest, s1 = r0 :: r1 :: r2 :: r3 :: rest ∧ h2.resp 3 = r3 % 2 ^ 32)) ∧
      (st1 ≠ SD_OK → h2.rca = host.rca) := by
  obtain ⟨st1, s1, t1, hwd⟩ := send_cmd_wait h
  refine ⟨st1, s1, t1, hwd, ?_, ?_⟩
  · intro hok
    subst hok
    obtain ⟨_, hrca, hnone, hsome⟩ := send_cmd_of_cmd_ok hwd h
    refine ⟨?_, ?_, hnone, ?_⟩
    · rw [hrca]
      by_cases hc : host.app_cmd = false ∧ cmd % 2 ^ 8 = SD_SEND_RELATIVE_ADDR
      · rw [if_pos hc, if_pos]
        rw [Bool.and_eq_true, beq_iff_eq]
        exact ⟨by rw [hc.1]; rfl, hc.2⟩
      · rw [if_neg hc, if_neg]
        intro hb
        apply hc
        rw [Bool.and_eq_true, beq_iff_eq] at hb
        exact ⟨by simpa using hb.1, hb.2⟩
    · rw [Nat.shiftRight_eq_div_pow]
      exact Nat.and_pow_two_sub_one_eq_mod _ 16
    · intro hc
      obtain ⟨r0, r1, r2, r3, rest, hs, _, _, _, h3⟩ := hsome hc
      exact ⟨r0, r1, r2, r3, rest, hs, h3⟩
  · intro hne
    rw [send_cmd_of_cmd_fail p host cmd arg rl tr hwd hne] at h
    simp only [Option.some.injEq, Prod.mk.injEq] at h
    obtain ⟨⟨_, rfl⟩, _, _⟩ := h
    rfl

/-- C20. Command-phase failure in `send_cmd`: when the command-event register
reads values with bit 0 clear (`idle`) and then a byte `e` that decodes to a
status other than `SD_OK`, `send_cmd` returns that status with the host as it
was (so `host->resp`, `host->rca` and `host->app_cmd` are unchanged); its trace
is the three writes that issue the command followed by the polls of the
command-event register only, and the rest of the script is not consumed: no
response register, data-event register or DMA done flag is read. -/
theorem send_cmd_command_phase_failure (p : Platform) (host : litex_mmc_host)
    (cmd arg rl tr : Nat) (idle : List Nat) (e : Nat) (rest : Script)
    (hidle : ∀ x ∈ idle, x.testBit 0 = false) (h0 : e.testBit 0 = true)
    (hfail : sdcard_wait_done_decode (e % 2 ^ 8) ≠ SD_OK) :
    send_cmd p host cmd arg rl tr (idle ++ e :: rest)
      = some ((sdcard_wait_done_decode (e % 2 ^ 8), host), rest,
          cmd_issue cmd arg rl tr ++
            (idle.flatMap (fun x => [Ev.read Reg.SDCORE_CMDEVT 1 (x % 2 ^ 8), Ev.udelay 5])
              ++ [Ev.read Reg.SDCORE_CMDEVT 1 (e % 2 ^ 8)])) := by
  have hv : e % 2 = 1 := by
    rw [Nat.testBit_zero] at h0
    exact of_decide_eq_true h0
  have hidle' : ∀ x ∈ idle, x % 2 = 0 := by
    intro x hx
    have := hidle x hx
    rw [Nat.testBit_zero] at this
    have := of_decide_eq_false this
    omega
  have hwd : sdcard_wait_done Reg.SDCORE_CMDEVT (idle ++ e :: rest)
      = some (sdcard_wait_done_decode (e % 2 ^ 8), rest,
          idle.flatMap (fun x => [Ev.read Reg.SDCORE_CMDEVT 1 (x % 2 ^ 8), Ev.udelay 5])
            ++ [Ev.read Reg.SDCORE_CMDEVT 1 (e % 2 ^ 8)]) := by
    unfold sdcard_wait_done
    rw [Hw_bind_run, poll_spec Reg.SDCORE_CMDEVT idle e rest hidle' hv]
    simp only [Hw_pure_run, List.append_nil]
  exact send_cmd_of_cmd_fail p host cmd arg rl tr hwd hfail

/-! ## Theorems: clock, transfer setup, DMA wait and bus width -/

theorem fls_long_loop_zero (fuel : Nat) : fls_long_loop fuel 0 = 0 := by
  cases fuel <;> simp [fls_long_loop]

/-- The loop counts the bits of `x`: `2 ^ (k - 1) ≤ x < 2 ^ k` for the result
`k`, when `fuel` bits suffice for `x`. -/
theorem fls_long_loop_spec : ∀ (fuel x : Nat), x < 2 ^ fuel →
    x < 2 ^ fls_long_loop fuel x ∧ (x ≠ 0 → 2 ^ (fls_long_loop fuel x - 1) ≤ x)
  | 0, x, h => by
    have : x = 0 := by simpa using h
    subst this
    simp [fls_long_loop]
  | fuel + 1, x, h => by
    rw [fls_long_loop]
    by_cases hx : x = 0
    · subst hx; simp
    · rw [if_neg hx]
      have hlt : x / 2 < 2 ^ fuel := by
        rw [Nat.div_lt_iff_lt_mul (by norm_num)]
        rw [pow_succ] at h
        exact h
      obtain ⟨ih1, ih2⟩ := fls_long_loop_spec fuel (x / 2) hlt
      refine ⟨?_, fun _ => ?_⟩
      · rw [pow_succ]; omega
      · simp only [Nat.add_sub_cancel]
        by_cases h2 : x / 2 = 0
        · rw [h2, fls_long_loop_zero]
          simp; omega
        · have := ih2 h2
          have hpos : 0 < fls_long_loop fuel (x / 2) := by
            by_contra hc
            have h0 : fls_long_loop fuel (x / 2) = 0 := by omega
            rw [h0] at ih1
            simp at ih1
            exact h2 ih1
          have e : fls_long_loop fuel (x / 2) = (fls_long_loop fuel (x / 2) - 1) + 1 := by omega
          rw [e, pow_succ]
          omega

/-- For `1 ≤ n ≤ 2 ^ 64`, `roundup_pow_of_two n` is the smallest power of two
that is not below `n`. -/
theorem roundup_pow_of_two_spec (n : Nat) (hn : 1 ≤ n) (hn64 : n ≤ 2 ^ 64) :
    ∃ m, roundup_pow_of_two n = 2 ^ m ∧ n ≤ 2 ^ m ∧ ∀ k, n ≤ 2 ^ k → m ≤ k := by
  unfold roundup_pow_of_two fls_long
  obtain ⟨h1, h2⟩ := fls_long_loop_spec 64 (n - 1) (by omega)
  refine ⟨fls_long_loop 64 (n - 1), by rw [Nat.shiftLeft_eq, Nat.one_mul], by omega, ?_⟩
  intro k hk
  by_cases h0 : n - 1 = 0
  · rw [h0, fls_long_loop_zero]; exact Nat.zero_le k
  · have h3 := h2 h0
    by_contra hlt
    have hle : k ≤ fls_long_loop 64 (n - 1) - 1 := by omega
    have : 2 ^ k ≤ 2 ^ (fls_long_loop 64 (n - 1) - 1) := Nat.pow_le_pow_right (by norm_num) hle
    omega

theorem sdclk_set_clk_run (host : litex_mmc_host) (clk_freq : Nat) (s : Script) :
    sdclk_set_clk host clk_freq s
      = some ((), s, [Ev.write Reg.SDPHY_CLOCKERDIV 2
          (min (max (roundup_pow_of_two
            (if clk_freq % 2 ^ 32 ≠ 0 then (host.freq % 2 ^ 32) / (clk_freq % 2 ^ 32) else 256)
              % 2 ^ 32) 2) 256 % 2 ^ (8 * 2))]) := rfl

/-- C29, amended. Clock divider range: for every host frequency `f < 2^32` and
requested clock `c < 2^32` with `c = 0` or `f ≥ c > 0`, and `f / c ≤ 2^31`,
`sdclk_set_clk` writes to the clock-divider register a power of two `d` with
`2 ≤ d ≤ 256`; `d = 256` when `c = 0`, and otherwise `d` is the smallest power
of two not below `f / c`, `2 ^ m`, clamped into `[2, 256]`. -/
theorem sdclk_set_clk_divider (host : litex_mmc_host) (clk_freq : Nat) (s : Script)
    (hf : host.freq < 2 ^ 32) (hc : clk_freq < 2 ^ 32)
    (hdom : clk_freq = 0 ∨ (0 < clk_freq ∧ clk_freq ≤ host.freq))
    (hq : host.freq / clk_freq ≤ 2 ^ 31) :
    ∃ (d m : Nat),
      sdclk_set_clk host clk_freq s = some ((), s, [Ev.write Reg.SDPHY_CLOCKERDIV 2 d]) ∧
      (∃ k, d = 2 ^ k) ∧ 2 ≤ d ∧ d ≤ 256 ∧
      (clk_freq = 0 → d = 256) ∧
      (0 < clk_freq →
        host.freq / clk_freq ≤ 2 ^ m ∧ (∀ k, host.freq / clk_freq ≤ 2 ^ k → m ≤ k) ∧
        d = min (max (2 ^ m) 2) 256) := by
  rw [sdclk_set_clk_run, Nat.mod_eq_of_lt hf, Nat.mod_eq_of_lt hc]
  have hpow : ∀ m : Nat, m ≤ 31 →
      (∃ k, min (max (2 ^ m) 2) 256 = 2 ^ k) ∧ 2 ≤ min (max (2 ^ m) 2) 256 ∧
        min (max (2 ^ m) 2) 256 ≤ 256 := by
    intro m hm
    refine ⟨?_, by omega, by omega⟩
    by_cases h0 : m = 0
    · subst h0; exact ⟨1, by norm_num⟩
    · by_cases h8 : m ≤ 8
      · refine ⟨m, ?_⟩
        have h1 : 2 ^ 1 ≤ 2 ^ m := Nat.pow_le_pow_right (by norm_num) (by omega)
        have h2 : 2 ^ m ≤ 2 ^ 8 := Nat.pow_le_pow_right (by norm_num) h8
        norm_num at h1 h2
        omega
      · refine ⟨8, ?_⟩
        have h2 : 2 ^ 9 ≤ 2 ^ m := Nat.pow_le_pow_right (by norm_num) (by omega)
        norm_num at h2 ⊢
        omega
  have hfin : ∀ d : Nat, d ≤ 256 → d % 2 ^ (8 * 2) = d := fun d hd =>
    Nat.mod_eq_of_lt (lt_of_le_of_lt hd (by norm_num))
  rcases hdom with h0 | ⟨hpos, hle⟩
  · subst h0
    refine ⟨256, 0, ?_, ⟨8, by norm_num⟩, by norm_num, le_rfl, fun _ => rfl, fun h => absurd h (by decide)⟩
    rw [if_neg (by decide)]
    have e : min (max (roundup_pow_of_two 256 % 2 ^ 32) 2) 256 % 2 ^ (8 * 2) = 256 := by decide
    rw [e]
  · have hq1 : 1 ≤ host.freq / clk_freq := (Nat.one_le_div_iff hpos).mpr hle
    obtain ⟨m, hm, hm1, hm2⟩ := roundup_pow_of_two_spec (host.freq / clk_freq) hq1
      (le_trans hq (by norm_num))
    have hm31 : m ≤ 31 := hm2 31 hq
    have hlt : 2 ^ m < 2 ^ 32 :=
      Nat.pow_lt_pow_right (by norm_num) (by omega)
    obtain ⟨hk, hge, hle256⟩ := hpow m hm31
    refine ⟨min (max (2 ^ m) 2) 256, m, ?_, hk, hge, hle256, fun h => absurd h (by omega),
      fun _ => ⟨hm1, hm2, rfl⟩⟩
    rw [if_pos (by omega), hm, Nat.mod_eq_of_lt hlt, hfin _ hle256]

/-- C29, as stated, fails: for `f = 4294967295` and `c = 1` (so `f ≥ c > 0`) the
smallest power of two not below `f / c` is `2 ^ 32`, which clamped into
`[2, 256]` is 256; on a 64-bit machine `roundup_pow_of_two` returns `2 ^ 32`,
the `u32 div` takes the value 0, and the divider written is 2. -/
theorem sdclk_set_clk_divider_overflow :
    (1 : Nat) ≤ 4294967295 ∧ 4294967295 < 2 ^ 32 ∧
    sdclk_set_clk { ex_host with freq := 4294967295 } 1 []
      = some ((), [], [Ev.write Reg.SDPHY_CLOCKERDIV 2 2]) ∧
    (4294967295 / 1 ≤ 2 ^ 32 ∧ ∀ k, 4294967295 / 1 ≤ 2 ^ k → 32 ≤ k) ∧
    min (max (2 ^ 32) 2) 256 = 256 := by
  refine ⟨by decide, by decide, ?_, ⟨by decide, ?_⟩, by decide⟩
  · rw [sdclk_set_clk_run]
    decide
  · intro k hk
    by_contra hlt
    have : 2 ^ k ≤ 2 ^ 31 := Nat.pow_le_pow_right (by norm_num) (by omega)
    norm_num at hk this
    omega

/-- C28, evaluated at a failing input: for `f = 60000000` and `c = 25000000`
(so `0 < c` and `f / c = 2`), `sdclk_set_clk`, also when called from
`litex_set_ios`, writes the divider 2, and the resulting clock `f / 2 =
30000000` is above the requested 25000000. -/
theorem sdclk_set_clk_exceeds_request :
    (0 : Nat) < 25000000 ∧ 2 ≤ 60000000 / 25000000 ∧ 60000000 / 25000000 ≤ 256 ∧
    sdclk_set_clk { ex_host with freq := 60000000 } 25000000 []
      = some ((), [], [Ev.write Reg.SDPHY_CLOCKERDIV 2 2]) ∧
    litex_set_ios { ex_host with freq := 60000000 } { clock := 25000000 } []
      = some ({ ex_host with freq := 60000000, clock := 25000000 }, [],
          [Ev.write Reg.SDPHY_CLOCKERDIV 2 2]) ∧
    25000000 < 60000000 / 2 := by
  refine ⟨by decide, by decide, by decide, ?_, ?_, by decide⟩
  · rw [sdclk_set_clk_run]
    decide
  · rfl

theorem dma_wait_step (p : Platform) (reg : Reg) (n : Nat) (v j : Nat) (rest : Script)
    (hv : (v % 2 ^ 8) &&& 0x01 = 0)
    (hj : time_after p (j % 2 ^ p.BITS_PER_LONG) n = false) :
    send_cmd_dma_wait p reg n (v :: j :: rest)
      = match send_cmd_dma_wait p reg n rest with
        | none => none
        | some (r, s, t) =>
          some (r, s, Ev.read reg 1 (v % 2 ^ 8) :: Ev.jiffies (j % 2 ^ p.BITS_PER_LONG) :: t) := by
  rw [send_cmd_dma_wait]
  simp only [hv, hj, if_true, Bool.false_eq_true, if_false]

theorem dma_wait_done (p : Platform) (reg : Reg) (n : Nat) (v : Nat) (rest : Script)
    (hv : (v % 2 ^ 8) &&& 0x01 ≠ 0) :
    send_cmd_dma_wait p reg n (v :: rest) = some (true, rest, [Ev.read reg 1 (v % 2 ^ 8)]) := by
  cases rest with
  | nil => rw [send_cmd_dma_wait]; simp only [hv, if_false]
  | cons j rest2 => rw [send_cmd_dma_wait]; simp only [hv, if_false]

theorem dma_wait_timeout (p : Platform) (reg : Reg) (n : Nat) (v j : Nat) (rest : Script)
    (hv : (v % 2 ^ 8) &&& 0x01 = 0)
    (hj : time_after p (j % 2 ^ p.BITS_PER_LONG) n = true) :
    send_cmd_dma_wait p reg n (v :: j :: rest)
      = some (false, rest, [Ev.read reg 1 (v % 2 ^ 8), Ev.jiffies (j % 2 ^ p.BITS_PER_LONG)]) := by
  rw [send_cmd_dma_wait]
  simp only [hv, hj, if_true]

/-- The DMA wait goes through the polls that see neither the flag nor the
deadline. -/
theorem dma_wait_polls (p : Platform) (reg : Reg) (n : Nat) (polls : List (Nat × Nat))
    (rest : Script)
    (hpolls : ∀ q ∈ polls, (q.1 % 2 ^ 8) &&& 0x01 = 0 ∧
      time_after p (q.2 % 2 ^ p.BITS_PER_LONG) n = false) :
    send_cmd_dma_wait p reg n (dma_polls_script polls ++ rest)
      = match send_cmd_dma_wait p reg n rest with
        | none => none
        | some (r, s, t) => some (r, s, dma_polls_trace p reg polls ++ t) := by
  induction polls with
  | nil =>
    show send_cmd_dma_wait p reg n rest = _
    rcases send_cmd_dma_wait p reg n rest with _ | ⟨r, s, t⟩ <;> rfl
  | cons q qs ih =>
    have hq := hpolls q (List.mem_cons_self _ _)
    show send_cmd_dma_wait p reg n (q.1 :: q.2 :: (dma_polls_script qs ++ rest)) = _
    rw [dma_wait_step p reg n q.1 q.2 _ hq.1 hq.2,
      ih (fun y hy => hpolls y (List.mem_cons_of_mem _ hy))]
    rcases send_cmd_dma_wait p reg n rest with _ | ⟨r, s, t⟩ <;> rfl

/-- Every DMA wait that ends has gone through polls that saw neither the flag
nor the deadline, and then either saw the flag set, or saw it clear at a time
after the deadline. -/
theorem dma_wait_spec (p : Platform) (reg : Reg) (n : Nat) :
    ∀ (k : Nat) (s : Script), s.length ≤ k → ∀ (r : Bool) (s2 : Script) (t : List Ev),
    send_cmd_dma_wait p reg n s = some (r, s2, t) →
      ∃ polls : List (Nat × Nat),
        (∀ q ∈ polls, (q.1 % 2 ^ 8) &&& 0x01 = 0 ∧
          time_after p (q.2 % 2 ^ p.BITS_PER_LONG) n = false) ∧
        ((r = true ∧ ∃ v, (v % 2 ^ 8) &&& 0x01 ≠ 0 ∧
            s = dma_polls_script polls ++ v :: s2 ∧
            t = dma_polls_trace p reg polls ++ [Ev.read reg 1 (v % 2 ^ 8)]) ∨
         (r = false ∧ ∃ v now, (v % 2 ^ 8) &&& 0x01 = 0 ∧
            time_after p (now % 2 ^ p.BITS_PER_LONG) n = true ∧
            s = dma_polls_script polls ++ v :: now :: s2 ∧
            t = dma_polls_trace p reg polls ++
              [Ev.read reg 1 (v % 2 ^ 8), Ev.jiffies (now % 2 ^ p.BITS_PER_LONG)])) := by
  intro k
  induction k with
  | zero =>
    intro s hs r s2 t h
    have : s = [] := List.length_eq_zero.mp (by omega)
    subst this
    simp [send_cmd_dma_wait] at h
  | succ k ih =>
    intro s hs r s2 t h
    cases s with
    | nil => simp [send_cmd_dma_wait] at h
    | cons v rest =>
      by_cases hv : (v % 2 ^ 8) &&& 0x01 = 0
      · cases rest with
        | nil =>
          rw [send_cmd_dma_wait] at h
          simp only [hv, if_true] at h
          cases h
        | cons j rest2 =>
          cases hj : time_after p (j % 2 ^ p.BITS_PER_LONG) n with
          | true =>
            rw [dma_wait_timeout p reg n v j rest2 hv hj] at h
            simp only [Option.some.injEq, Prod.mk.injEq] at h
            obtain ⟨rfl, rfl, rfl⟩ := h
            exact ⟨[], by simp, Or.inr ⟨rfl, v, j, hv, hj, rfl, rfl⟩⟩
          | false =>
            rw [dma_wait_step p reg n v j rest2 hv hj] at h
            rcases hr : send_cmd_dma_wait p reg n rest2 with _ | ⟨r1, s3, t3⟩
            · rw [hr] at h; cases h
            · rw [hr] at h
              simp only [Option.some.injEq, Prod.mk.injEq] at h
              obtain ⟨rfl, rfl, rfl⟩ := h
              obtain ⟨polls, hpolls, hcase⟩ :=
                ih rest2 (by simp only [List.length_cons] at hs; omega) r1 s3 t3 hr
              refine ⟨(v, j) :: polls, ?_, ?_⟩
              · intro q hq
                rcases List.mem_cons.mp hq with rfl | hq
                · exact ⟨hv, hj⟩
                · exact hpolls q hq
              · rcases hcase with ⟨rfl, w, hw, rfl, rfl⟩ | ⟨rfl, w, now, hw, hnow, rfl, rfl⟩
                · exact Or.inl ⟨rfl, w, hw, rfl, rfl⟩
                · exact Or.inr ⟨rfl, w, now, hw, hnow, rfl, rfl⟩
      · rw [dma_wait_done p reg n v rest hv] at h
        simp only [Option.some.injEq, Prod.mk.injEq] at h
        obtain ⟨rfl, rfl, rfl⟩ := h
        exact ⟨[], by simp, Or.inl ⟨rfl, v, hv, rfl, rfl⟩⟩

/-- Without a wrap of the counter between `b` and `a`, `time_after (a, b)` means
that `a` is greater than `b`. -/
theorem time_after_lt (p : Platform) (a b : Nat) (ha : a < 2 ^ p.BITS_PER_LONG)
    (hclose : b < a + 2 ^ (p.BITS_PER_LONG - 1))
    (h : time_after p a b = true) : b < a := by
  unfold time_after at h
  have h' := of_decide_eq_true h
  rw [Nat.mod_eq_of_lt ha] at h'
  by_contra hle
  have hab : a ≤ b := Nat.le_of_not_lt hle
  have e : b + 2 ^ p.BITS_PER_LONG - a = (b - a) + 2 ^ p.BITS_PER_LONG := by omega
  rw [e, Nat.add_mod_right, Nat.mod_eq_of_lt (by omega)] at h'
  omega

/-- A call of `send_cmd` with a data transfer whose command and data phases
succeed ends as its DMA wait ends. -/
theorem send_cmd_of_data_ok (p : Platform) (host hr : litex_mmc_host) (cmd arg rl tr : Nat)
    {s s1 sr sj s2 : Script} {t1 tr1 td tw : List Ev} {j : Nat} {done : Bool}
    (htr : tr % 2 ^ 8 ≠ SDCARD_CTRL_DATA_TRANSFER_NONE)
    (hcmd : sdcard_wait_done Reg.SDCORE_CMDEVT s = some (SD_OK, s1, t1))
    (hresp : (if rl % 2 ^ 8 ≠ SDCARD_CTRL_RESPONSE_NONE then send_cmd_read_resp host
      else pure host) s1 = some (hr, sr, tr1))
    (hdata : sdcard_wait_done Reg.SDCORE_DATAEVT sr = some (SD_OK, j :: sj, td))
    (hwait : send_cmd_dma_wait p
        (if tr % 2 ^ 8 = SDCARD_CTRL_DATA_TRANSFER_READ then Reg.SDBLK2MEM_DONE
          else Reg.SDMEM2BLK_DONE)
        ((j % 2 ^ p.BITS_PER_LONG + (p.HZ <<< 1)) % 2 ^ p.BITS_PER_LONG) sj
      = some (done, s2, tw)) :
    send_cmd p host cmd arg rl tr s
      = some ((if done then SD_OK else SD_TIMEOUT,
          { (if (!hr.app_cmd && cmd % 2 ^ 8 == SD_SEND_RELATIVE_ADDR) = true then
              { hr with rca := (hr.resp 3 >>> 16) &&& 0xffff } else hr) with
            app_cmd := (cmd % 2 ^ 8 == MMC_APP_CMD) }), s2,
          cmd_issue cmd arg rl tr ++ (t1 ++ (tr1 ++ (td ++
            (Ev.jiffies (j % 2 ^ p.BITS_PER_LONG) :: tw))))) := by
  unfold send_cmd
  rw [Hw_bind_eq_some]
  refine ⟨(), s, _, _, rfl, ?_, rfl⟩
  rw [Hw_bind_eq_some]
  refine ⟨(), s, _, _, rfl, ?_, rfl⟩
  rw [Hw_bind_eq_some]
  refine ⟨(), s, _, _, rfl, ?_, rfl⟩
  rw [Hw_bind_eq_some]
  refine ⟨SD_OK, s1, t1, _, hcmd, ?_, rfl⟩
  rw [Hw_ite_run, if_neg (by simp)]
  rw [Hw_bind_eq_some]
  refine ⟨hr, sr, tr1, _, hresp, ?_, rfl⟩
  dsimp only
  rw [Hw_ite_run, if_neg htr]
  rw [Hw_bind_eq_some]
  refine ⟨SD_OK, j :: sj, td, _, hdata, ?_, rfl⟩
  rw [Hw_ite_run, if_neg (by simp)]
  rw [Hw_bind_eq_some]
  refine ⟨j % 2 ^ p.BITS_PER_LONG, sj, [Ev.jiffies (j % 2 ^ p.BITS_PER_LONG)], _, rfl, ?_, rfl⟩
  rw [Hw_bind_eq_some]
  refine ⟨done, s2, tw, [], hwait, ?_, by simp⟩
  cases done <;> rfl

/-- A call of `send_cmd` with a data transfer whose command and data phases
succeed and which returns has ended its DMA wait. -/
theorem send_cmd_data_ok_inv {p : Platform} {host hr h2 : litex_mmc_host}
    {cmd arg rl tr st : Nat} {s s1 sr sj s2 : Script} {t1 tr1 td t : List Ev} {j : Nat}
    (htr : tr % 2 ^ 8 ≠ SDCARD_CTRL_DATA_TRANSFER_NONE)
    (hcmd : sdcard_wait_done Reg.SDCORE_CMDEVT s = some (SD_OK, s1, t1))
    (hresp : (if rl % 2 ^ 8 ≠ SDCARD_CTRL_RESPONSE_NONE then send_cmd_read_resp host
      else pure host) s1 = some (hr, sr, tr1))
    (hdata : sdcard_wait_done Reg.SDCORE_DATAEVT sr = some (SD_OK, j :: sj, td))
    (h : send_cmd p host cmd arg rl tr s = some ((st, h2), s2, t)) :
    ∃ (done : Bool) (tw : List Ev),
      send_cmd_dma_wait p
          (if tr % 2 ^ 8 = SDCARD_CTRL_DATA_TRANSFER_READ then Reg.SDBLK2MEM_DONE
            else Reg.SDMEM2BLK_DONE)
          ((j % 2 ^ p.BITS_PER_LONG + (p.HZ <<< 1)) % 2 ^ p.BITS_PER_LONG) sj
        = some (done, s2, tw) ∧
      st = (if done then SD_OK else SD_TIMEOUT) := by
  unfold send_cmd at h
  obtain ⟨_, sa, ta, ta2, hw1, ha, rfl⟩ := Hw_bind_eq_some.mp h
  clear h
  obtain ⟨rfl, rfl⟩ := litex_write_eq_some hw1
  obtain ⟨_, sb, tb, tb2, hw2, hb, rfl⟩ := Hw_bind_eq_some.mp ha
  clear ha
  obtain ⟨rfl, rfl⟩ := litex_write_eq_some hw2
  obtain ⟨_, sc, tc, tc2, hw3, hc, rfl⟩ := Hw_bind_eq_some.mp hb
  clear hb
  obtain ⟨rfl, rfl⟩ := litex_write_eq_some hw3
  obtain ⟨status, sx, tx, tx2, hwd, hd, rfl⟩ := Hw_bind_eq_some.mp hc
  clear hc hw1 hw2 hw3
  rw [hcmd] at hwd
  simp only [Option.some.injEq, Prod.mk.injEq] at hwd
  obtain ⟨rfl, rfl, rfl⟩ := hwd
  rw [Hw_ite_run, if_neg (by simp)] at hd
  obtain ⟨hr2, sr2, ty, ty2, hrd, he, rfl⟩ := Hw_bind_eq_some.mp hd
  clear hd
  rw [hresp] at hrd
  simp only [Option.some.injEq, Prod.mk.injEq] at hrd
  obtain ⟨rfl, rfl, rfl⟩ := hrd
  dsimp only at he
  rw [Hw_ite_run, if_neg htr] at he
  obtain ⟨st2, sd, tz, tz2, hdd, hf, rfl⟩ := Hw_bind_eq_some.mp he
  clear he
  rw [hdata] at hdd
  simp only [Option.some.injEq, Prod.mk.injEq] at hdd
  obtain ⟨rfl, rfl, rfl⟩ := hdd
  rw [Hw_ite_run, if_neg (by simp)] at hf
  obtain ⟨jv, sj2, tj, tj2, hj, hg, rfl⟩ := Hw_bind_eq_some.mp hf
  clear hf
  obtain ⟨x, hx, rfl, rfl⟩ := jiffies_eq_some hj
  simp only [List.cons.injEq] at hx
  obtain ⟨rfl, rfl⟩ := hx
  obtain ⟨dn, sw, tw, tw2, hwt, hk, rfl⟩ := Hw_bind_eq_some.mp hg
  clear hg
  refine ⟨dn, tw, ?_, ?_⟩
  · rw [Hw_ite_run] at hk
    split at hk
    · obtain ⟨_, rfl, _⟩ := Hw_pure_eq_some.mp hk
      exact hwt
    · obtain ⟨_, rfl, _⟩ := Hw_pure_eq_some.mp hk
      exact hwt
  · rw [Hw_ite_run] at hk
    split at hk
    · rename_i hdn
      obtain ⟨hy, _, _⟩ := Hw_pure_eq_some.mp hk
      simp only [Prod.mk.injEq] at hy
      rw [← hy.1, if_pos hdn]
    · rename_i hdn
      obtain ⟨hy, _, _⟩ := Hw_pure_eq_some.mp hk
      simp only [Prod.mk.injEq] at hy
      rw [← hy.1, if_neg hdn]

/-- A call of `send_cmd` that returns `SD_OK` has updated `app_cmd`. -/
theorem send_cmd_ok_app_cmd {p : Platform} {host h2 : litex_mmc_host} {cmd arg rl tr : Nat}
    {s s2 : Script} {t : List Ev}
    (h : send_cmd p host cmd arg rl tr s = some ((SD_OK, h2), s2, t)) :
    h2.app_cmd = (cmd % 2 ^ 8 == MMC_APP_CMD) := by
  obtain ⟨st1, s1, t1, hwd⟩ := send_cmd_wait h
  by_cases hok : st1 = SD_OK
  · subst hok
    exact (send_cmd_of_cmd_ok hwd h).1
  · rw [send_cmd_of_cmd_fail p host cmd arg rl tr hwd hok] at h
    simp only [Option.some.injEq, Prod.mk.injEq] at h
    exact absurd h.1.1 hok

/-- The calls of `send_cmd` that a call of `litex_set_bus_width` is made of. -/
theorem litex_set_bus_width_parts {p : Platform} {host h2 : litex_mmc_host} {st : Nat}
    {s s2 : Script} {t : List Ev}
    (h : litex_set_bus_width p host s = some ((st, h2), s2, t)) :
    (host.app_cmd = false →
      ∃ (st1 : Nat) (h1 : litex_mmc_host) (s1 : Script) (t1 t2 : List Ev),
        send_app_cmd p host s = some ((st1, h1), s1, t1) ∧
        send_app_set_bus_width_cmd p h1 MMC_BUS_WIDTH_4 s1 = some ((st, h2), s2, t2) ∧
        t = t1 ++ t2) ∧
    (host.app_cmd = true →
      ∃ (h1 : litex_mmc_host) (s1 : Script) (t1 : List Ev) (st3 : Nat) (t3 : List Ev),
        send_app_set_bus_width_cmd p host MMC_BUS_WIDTH_4 s = some ((st, h1), s1, t1) ∧
        send_app_cmd p h1 s1 = some ((st3, h2), s2, t3) ∧
        t = t1 ++ t3) := by
  unfold litex_set_bus_width at h
  obtain ⟨ha, sa, ta, ta2, h1, hb, rfl⟩ := Hw_bind_eq_some.mp h
  clear h
  obtain ⟨r, sb, tb, tb2, h2', hc, rfl⟩ := Hw_bind_eq_some.mp hb
  clear hb
  obtain ⟨hd, sd, td, td2, h3, he, rfl⟩ := Hw_bind_eq_some.mp hc
  clear hc
  obtain ⟨hx, rfl, rfl⟩ := Hw_pure_eq_some.mp he
  simp only [Prod.mk.injEq] at hx
  obtain ⟨rfl, rfl⟩ := hx
  constructor
  · intro hac
    rw [hac] at h1 h3
    simp only [Bool.not_false, if_true, Bool.false_eq_true, if_false] at h1 h3
    obtain ⟨rfl, rfl, rfl⟩ := Hw_pure_eq_some.mp h3
    obtain ⟨r1, s1, t1, t1b, hs1, hp1, rfl⟩ := Hw_bind_eq_some.mp h1
    obtain ⟨rfl, rfl, rfl⟩ := Hw_pure_eq_some.mp hp1
    exact ⟨r1.1, r1.2, s1, t1, tb, hs1, h2', by simp only [List.append_nil]⟩
  · intro hac
    rw [hac] at h1 h3
    simp only [Bool.not_true, Bool.false_eq_true, if_false, if_true] at h1 h3
    obtain ⟨rfl, rfl, rfl⟩ := Hw_pure_eq_some.mp h1
    obtain ⟨r1, s1, t1, t1b, hs1, hp1, rfl⟩ := Hw_bind_eq_some.mp h3
    obtain ⟨rfl, rfl, rfl⟩ := Hw_pure_eq_some.mp hp1
    exact ⟨r.2, sb, tb, r1.1, t1, h2', hs1, by simp only [List.append_nil, List.nil_append]⟩

/-- C24. App-command framing is preserved by `litex_set_bus_width`: every call
that returns is made of CMD55 then ACMD6 when `host->app_cmd` was false, and of
ACMD6 then CMD55 when it was true; when both commands return `SD_OK` (they have
no data phase, so this is the success of their command phase), `host->app_cmd`
after the call equals `host->app_cmd` before it: CMD55 sets the flag and ACMD6
clears it. -/
theorem litex_set_bus_width_keeps_app_cmd (p : Platform) (host h2 : litex_mmc_host) (st : Nat)
    (s s2 : Script) (t : List Ev)
    (h : litex_set_bus_width p host s = some ((st, h2), s2, t)) :
    (host.app_cmd = false →
      ∃ (st1 : Nat) (h1 : litex_mmc_host) (s1 : Script) (t1 t2 : List Ev),
        send_app_cmd p host s = some ((st1, h1), s1, t1) ∧
        send_app_set_bus_width_cmd p h1 MMC_BUS_WIDTH_4 s1 = some ((st, h2), s2, t2) ∧
        (st1 = SD_OK → st = SD_OK → h1.app_cmd = true ∧ h2.app_cmd = host.app_cmd)) ∧
    (host.app_cmd = true →
      ∃ (h1 : litex_mmc_host) (s1 : Script) (t1 : List Ev) (st3 : Nat) (t3 : List Ev),
        send_app_set_bus_width_cmd p host MMC_BUS_WIDTH_4 s = some ((st, h1), s1, t1) ∧
        send_app_cmd p h1 s1 = some ((st3, h2), s2, t3) ∧
        (st = SD_OK → st3 = SD_OK → h1.app_cmd = false ∧ h2.app_cmd = host.app_cmd)) := by
  obtain ⟨hf, ht⟩ := litex_set_bus_width_parts h
  constructor
  · intro hac
    obtain ⟨st1, h1, s1, t1, t2, hs1, hs2, _⟩ := hf hac
    refine ⟨st1, h1, s1, t1, t2, hs1, hs2, ?_⟩
    intro h1ok h2ok
    subst h1ok
    subst h2ok
    refine ⟨?_, ?_⟩
    · rw [send_cmd_ok_app_cmd hs1]; rfl
    · rw [send_cmd_ok_app_cmd hs2, hac]; rfl
  · intro hac
    obtain ⟨h1, s1, t1, st3, t3, hs1, hs2, _⟩ := ht hac
    refine ⟨h1, s1, t1, st3, t3, hs1, hs2, ?_⟩
    intro h1ok h2ok
    subst h1ok
    subst h2ok
    refine ⟨?_, ?_⟩
    · rw [send_cmd_ok_app_cmd hs1]; rfl
    · rw [send_cmd_ok_app_cmd hs2, hac]; rfl

/-- C30. Result of `litex_set_bus_width`: when `host->app_cmd` is false, for
every status `st1` of the bridging CMD55, ACMD6 is sent next and its status
`stw` is the status returned; when `host->app_cmd` is true, ACMD6 is sent
first, and for every status `st3` of the CMD55 sent after it the status
returned is the status `stw` of ACMD6; and every call that returns is one of
these two. -/
theorem litex_set_bus_width_status (p : Platform) (host : litex_mmc_host) (s : Script) :
    (host.app_cmd = false →
      ∀ (st1 : Nat) (h1 : litex_mmc_host) (s1 : Script) (t1 : List Ev)
        (stw : Nat) (h2 : litex_mmc_host) (s2 : Script) (t2 : List Ev),
        send_app_cmd p host s = some ((st1, h1), s1, t1) →
        send_app_set_bus_width_cmd p h1 MMC_BUS_WIDTH_4 s1 = some ((stw, h2), s2, t2) →
        litex_set_bus_width p host s = some ((stw, h2), s2, t1 ++ t2)) ∧
    (host.app_cmd = true →
      ∀ (stw : Nat) (h1 : litex_mmc_host) (s1 : Script) (t1 : List Ev)
        (st3 : Nat) (h2 : litex_mmc_host) (s2 : Script) (t3 : List Ev),
        send_app_set_bus_width_cmd p host MMC_BUS_WIDTH_4 s = some ((stw, h1), s1, t1) →
        send_app_cmd p h1 s1 = some ((st3, h2), s2, t3) →
        litex_set_bus_width p host s = some ((stw, h2), s2, t1 ++ t3)) ∧
    (∀ (st : Nat) (h2 : litex_mmc_host) (s2 : Script) (t : List Ev),
      litex_set_bus_width p host s = some ((st, h2), s2, t) →
      (host.app_cmd = false →
        ∃ (st1 : Nat) (h1 : litex_mmc_host) (s1 : Script) (t1 t2 : List Ev),
          send_app_cmd p host s = some ((st1, h1), s1, t1) ∧
          send_app_set_bus_width_cmd p h1 MMC_BUS_WIDTH_4 s1 = some ((st, h2), s2, t2) ∧
          t = t1 ++ t2) ∧
      (host.app_cmd = true →
        ∃ (h1 : litex_mmc_host) (s1 : Script) (t1 : List Ev) (st3 : Nat) (t3 : List Ev),
          send_app_set_bus_width_cmd p host MMC_BUS_WIDTH_4 s = some ((st, h1), s1, t1) ∧
          send_app_cmd p h1 s1 = some ((st3, h2), s2, t3) ∧
          t = t1 ++ t3)) := by
  refine ⟨?_, ?_, fun st h2 s2 t h => litex_set_bus_width_parts h⟩
  · intro hac st1 h1 s1 t1 stw h2 s2 t2 hs1 hs2
    unfold litex_set_bus_width
    rw [Hw_bind_eq_some]
    refine ⟨h1, s1, t1, t2, ?_, ?_, rfl⟩
    · rw [hac]
      simp only [Bool.not_false, if_true]
      rw [Hw_bind_eq_some]
      exact ⟨(st1, h1), s1, t1, [], hs1, rfl, by simp⟩
    · rw [Hw_bind_eq_some]
      refine ⟨(stw, h2), s2, t2, [], hs2, ?_, by simp⟩
      rw [Hw_bind_eq_some]
      refine ⟨h2, s2, [], [], ?_, rfl, rfl⟩
      rw [hac]
      rfl
  · intro hac stw h1 s1 t1 st3 h2 s2 t3 hs1 hs2
    unfold litex_set_bus_width
    rw [Hw_bind_eq_some]
    refine ⟨host, s, [], t1 ++ t3, ?_, ?_, rfl⟩
    · rw [hac]
      rfl
    · rw [Hw_bind_eq_some]
      refine ⟨(stw, h1), s1, t1, t3, hs1, ?_, rfl⟩
      rw [Hw_bind_eq_some]
      refine ⟨h2, s2, t3, [], ?_, rfl, by simp⟩
      rw [hac]
      simp only [if_true]
      rw [Hw_bind_eq_some]
      exact ⟨(st3, h2), s2, t3, [], hs2, rfl, by simp⟩

/-- C21. Read transfer setup in `litex_request`: for every completed request
with data on a host whose bus width is set, the trace begins, for a read, with
the writes reader enable = 0, reader base = `dma_handle`, reader length =
`blksz * blocks` (mod 2^32), reader enable = 1, core block length = `blksz`,
core block count = `blocks`, followed at once by the issue of the command with
the read transfer; with neither direction flag it begins with the block length
and block count writes followed by the issue of the command without transfer;
and in every case the block length and block count writes are the last ones
before the first issue of the command.  The values are truncated to the width of
their registers (64, 16 and 32 bits), which changes nothing for a `dma_handle`
below 2^64, a `blksz` below 2^16 and a `blocks` below 2^32. -/
theorem litex_request_read_setup (p : Platform) (mmc : mmc_host)
    (host host' : litex_mmc_host) (mrq mrq' : mmc_request) (d : mmc_data)
    (s s' : Script) (tr : List Ev)
    (hd : mrq.data = some d) (hbw : host.is_bus_width_set = true)
    (h : litex_request p mmc host mrq s = some ((host', mrq'), s', tr)) :
    (d.flags &&& MMC_DATA_READ ≠ 0 →
      ∃ t', tr =
        [Ev.write Reg.SDBLK2MEM_ENA 1 0,
         Ev.write Reg.SDBLK2MEM_BASE 8 (host.dma_handle % 2 ^ 64),
         Ev.write Reg.SDBLK2MEM_LEN 4 ((d.blksz * d.blocks) % 2 ^ 32),
         Ev.write Reg.SDBLK2MEM_ENA 1 1,
         Ev.write Reg.SDCORE_BLKLEN 2 (d.blksz % 2 ^ 16),
         Ev.write Reg.SDCORE_BLKCNT 4 (d.blocks % 2 ^ 32)]
        ++ cmd_issue mrq.cmd.opcode mrq.cmd.arg (litex_request_response_len mrq.cmd.flags)
            SDCARD_CTRL_DATA_TRANSFER_READ ++ t') ∧
    (d.flags &&& MMC_DATA_READ = 0 → d.flags &&& MMC_DATA_WRITE = 0 →
      ∃ t', tr =
        [Ev.write Reg.SDCORE_BLKLEN 2 (d.blksz % 2 ^ 16),
         Ev.write Reg.SDCORE_BLKCNT 4 (d.blocks % 2 ^ 32)]
        ++ cmd_issue mrq.cmd.opcode mrq.cmd.arg (litex_request_response_len mrq.cmd.flags)
            SDCARD_CTRL_DATA_TRANSFER_NONE ++ t') ∧
    (∃ (pre t' : List Ev) (transfer : Nat), tr =
        pre ++ [Ev.write Reg.SDCORE_BLKLEN 2 (d.blksz % 2 ^ 16),
                Ev.write Reg.SDCORE_BLKCNT 4 (d.blocks % 2 ^ 32)]
        ++ cmd_issue mrq.cmd.opcode mrq.cmd.arg (litex_request_response_len mrq.cmd.flags)
            transfer ++ t' ∧
        ∀ e ∈ pre, ∀ v, e ≠ Ev.write Reg.SDCORE_CMDCMD 4 v) ∧
    (host.dma_handle < 2 ^ 64 → host.dma_handle % 2 ^ 64 = host.dma_handle) ∧
    (d.blksz < 2 ^ 16 → d.blksz % 2 ^ 16 = d.blksz) ∧
    (d.blocks < 2 ^ 32 → d.blocks % 2 ^ 32 = d.blocks) := by
  have key : ∀ (h1 : litex_mmc_host) (transfer : Nat) (ts : List Ev),
      litex_request_setup p host d s = some ((h1, transfer), s, ts) →
      ∃ t', tr = ts ++ cmd_issue mrq.cmd.opcode mrq.cmd.arg
        (litex_request_response_len mrq.cmd.flags) transfer ++ t' := by
    intro h1 transfer ts hsetup
    have hbwr : litex_request_bus_width p host s = some ((true, host), s, []) := by
      unfold litex_request_bus_width
      rw [Hw_ite_run, if_neg (by simp [hbw])]
      rfl
    have hprep : litex_request_prepare p host mrq.data s
        = some ((true, h1, transfer), s, ts) := by
      rw [hd]
      unfold litex_request_prepare
      dsimp only
      rw [Hw_bind_run, hbwr]
      dsimp only
      rw [Hw_ite_run, if_neg (by simp), Hw_bind_run, hsetup]
      simp only [Hw_pure_run, List.append_nil, List.nil_append]
    obtain ⟨t', rfl, hc⟩ := litex_request_of_prepare hprep h
    obtain ⟨⟨t2, rfl⟩, _⟩ := litex_request_command_frame hc
    exact ⟨t2, by simp only [List.append_assoc]⟩
  refine ⟨?_, ?_, ?_, Nat.mod_eq_of_lt, Nat.mod_eq_of_lt, Nat.mod_eq_of_lt⟩
  · intro hr
    exact key _ _ _ (litex_request_setup_read p host d s hr)
  · intro hr hw
    exact key _ _ _ (litex_request_setup_none p host d s (by simp [hr]) (by simp [hw]))
  · by_cases hr : d.flags &&& MMC_DATA_READ ≠ 0
    · obtain ⟨t', ht⟩ := key _ _ _ (litex_request_setup_read p host d s hr)
      refine ⟨[Ev.write Reg.SDBLK2MEM_ENA 1 0,
         Ev.write Reg.SDBLK2MEM_BASE 8 (host.dma_handle % 2 ^ 64),
         Ev.write Reg.SDBLK2MEM_LEN 4 ((d.blksz * d.blocks) % 2 ^ 32),
         Ev.write Reg.SDBLK2MEM_ENA 1 1], t', _, ht, ?_⟩
      intro e he v hv
      subst hv
      simp at he
    · by_cases hw : d.flags &&& MMC_DATA_WRITE ≠ 0
      · obtain ⟨t', ht⟩ := key _ _ _ (litex_request_setup_write p host d s hr hw)
        refine ⟨[Ev.sg_copy_to_buffer
             (int_to_unsigned p.BITS_PER_LONG (litex_request_write_length host d)),
           Ev.write Reg.SDMEM2BLK_ENA 1 0,
           Ev.write Reg.SDMEM2BLK_BASE 8 (host.dma_handle % 2 ^ 64),
           Ev.write Reg.SDMEM2BLK_LEN 4
             (int_to_unsigned 32 (litex_request_write_length host d) % 2 ^ 32),
           Ev.write Reg.SDMEM2BLK_ENA 1 1], t', _, ht, ?_⟩
        intro e he v hv
        subst hv
        simp at he
      · obtain ⟨t', ht⟩ := key _ _ _ (litex_request_setup_none p host d s hr hw)
        exact ⟨[], t', _, ht, by simp⟩

/-- C22. Bounded DMA wait in `send_cmd`: for a call with a data transfer whose
command and data phases succeed, with `j` the value of `jiffies` read after the
data phase, the flag polled is `reg`, the reader's done flag when the transfer
is a read and the writer's otherwise, and the deadline is `n = j + 2 * HZ`.
(1) If, after polls that see the flag clear before the deadline, a poll sees the
flag set, `send_cmd` returns `SD_OK`.  (2) If instead a poll sees the flag clear
and `jiffies` then reads a time after the deadline, `send_cmd` returns
`SD_TIMEOUT`.  (3) Every call that returns is one of these two: it returns
`SD_TIMEOUT` only having seen the flag clear and then a time `now` with
`time_after (now, n)`, which, when the counter does not wrap, means
`j + 2 * HZ < now`. -/
theorem send_cmd_dma_wait_bounded (p : Platform) (host hr : litex_mmc_host)
    (cmd arg rl tr : Nat) (s s1 sr sj : Script) (t1 tr1 td : List Ev) (j n : Nat) (reg : Reg)
    (htr : tr % 2 ^ 8 ≠ SDCARD_CTRL_DATA_TRANSFER_NONE)
    (hcmd : sdcard_wait_done Reg.SDCORE_CMDEVT s = some (SD_OK, s1, t1))
    (hresp : (if rl % 2 ^ 8 ≠ SDCARD_CTRL_RESPONSE_NONE then send_cmd_read_resp host
      else pure host) s1 = some (hr, sr, tr1))
    (hdata : sdcard_wait_done Reg.SDCORE_DATAEVT sr = some (SD_OK, j :: sj, td))
    (hreg : reg = if tr % 2 ^ 8 = SDCARD_CTRL_DATA_TRANSFER_READ then Reg.SDBLK2MEM_DONE
      else Reg.SDMEM2BLK_DONE)
    (hn : n = (j % 2 ^ p.BITS_PER_LONG + (p.HZ <<< 1)) % 2 ^ p.BITS_PER_LONG) :
    (∀ (polls : List (Nat × Nat)) (v : Nat) (rest : Script),
      (∀ q ∈ polls, (q.1 % 2 ^ 8) &&& 0x01 = 0 ∧
        time_after p (q.2 % 2 ^ p.BITS_PER_LONG) n = false) →
      (v % 2 ^ 8) &&& 0x01 ≠ 0 →
      sj = dma_polls_script polls ++ v :: rest →
      ∃ h2, send_cmd p host cmd arg rl tr s
        = some ((SD_OK, h2), rest,
            cmd_issue cmd arg rl tr ++ (t1 ++ (tr1 ++ (td ++
              (Ev.jiffies (j % 2 ^ p.BITS_PER_LONG) ::
                (dma_polls_trace p reg polls ++ [Ev.read reg 1 (v % 2 ^ 8)]))))))) ∧
    (∀ (polls : List (Nat × Nat)) (v now : Nat) (rest : Script),
      (∀ q ∈ polls, (q.1 % 2 ^ 8) &&& 0x01 = 0 ∧
        time_after p (q.2 % 2 ^ p.BITS_PER_LONG) n = false) →
      (v % 2 ^ 8) &&& 0x01 = 0 →
      time_after p (now % 2 ^ p.BITS_PER_LONG) n = true →
      sj = dma_polls_script polls ++ v :: now :: rest →
      ∃ h2, send_cmd p host cmd arg rl tr s
        = some ((SD_TIMEOUT, h2), rest,
            cmd_issue cmd arg rl tr ++ (t1 ++ (tr1 ++ (td ++
              (Ev.jiffies (j % 2 ^ p.BITS_PER_LONG) ::
                (dma_polls_trace p reg polls ++
                  [Ev.read reg 1 (v % 2 ^ 8),
                   Ev.jiffies (now % 2 ^ p.BITS_PER_LONG)]))))))) ∧
    (∀ (st : Nat) (h2 : litex_mmc_host) (s2 : Script) (t : List Ev),
      send_cmd p host cmd arg rl tr s = some ((st, h2), s2, t) →
      ∃ polls : List (Nat × Nat),
        (∀ q ∈ polls, (q.1 % 2 ^ 8) &&& 0x01 = 0 ∧
          time_after p (q.2 % 2 ^ p.BITS_PER_LONG) n = false) ∧
        ((st = SD_OK ∧ ∃ v, (v % 2 ^ 8) &&& 0x01 ≠ 0 ∧
            sj = dma_polls_script polls ++ v :: s2) ∨
         (st = SD_TIMEOUT ∧ ∃ v now, (v % 2 ^ 8) &&& 0x01 = 0 ∧
            time_after p (now % 2 ^ p.BITS_PER_LONG) n = true ∧
            sj = dma_polls_script polls ++ v :: now :: s2 ∧
            (j % 2 ^ p.BITS_PER_LONG + 2 * p.HZ < 2 ^ p.BITS_PER_LONG →
              j % 2 ^ p.BITS_PER_LONG + 2 * p.HZ
                < now % 2 ^ p.BITS_PER_LONG + 2 ^ (p.BITS_PER_LONG - 1) →
              j % 2 ^ p.BITS_PER_LONG + 2 * p.HZ < now % 2 ^ p.BITS_PER_LONG)))) := by
  subst hreg
  refine ⟨?_, ?_, ?_⟩
  · intro polls v rest hpolls hv hsj
    have hw : send_cmd_dma_wait p
        (if tr % 2 ^ 8 = SDCARD_CTRL_DATA_TRANSFER_READ then Reg.SDBLK2MEM_DONE
          else Reg.SDMEM2BLK_DONE) n sj
        = some (true, rest,
            dma_polls_trace p (if tr % 2 ^ 8 = SDCARD_CTRL_DATA_TRANSFER_READ
                then Reg.SDBLK2MEM_DONE else Reg.SDMEM2BLK_DONE) polls ++
              [Ev.read (if tr % 2 ^ 8 = SDCARD_CTRL_DATA_TRANSFER_READ
                then Reg.SDBLK2MEM_DONE else Reg.SDMEM2BLK_DONE) 1 (v % 2 ^ 8)]) := by
      rw [hsj, dma_wait_polls p _ n polls _ hpolls, dma_wait_done p _ n v rest hv]
    rw [hn] at hw
    exact ⟨_, send_cmd_of_data_ok p host hr cmd arg rl tr htr hcmd hresp hdata hw⟩
  · intro polls v now rest hpolls hv hnow hsj
    have hw : send_cmd_dma_wait p
        (if tr % 2 ^ 8 = SDCARD_CTRL_DATA_TRANSFER_READ then Reg.SDBLK2MEM_DONE
          else Reg.SDMEM2BLK_DONE) n sj
        = some (false, rest,
            dma_polls_trace p (if tr % 2 ^ 8 = SDCARD_CTRL_DATA_TRANSFER_READ
                then Reg.SDBLK2MEM_DONE else Reg.SDMEM2BLK_DONE) polls ++
              [Ev.read (if tr % 2 ^ 8 = SDCARD_CTRL_DATA_TRANSFER_READ
                then Reg.SDBLK2MEM_DONE else Reg.SDMEM2BLK_DONE) 1 (v % 2 ^ 8),
               Ev.jiffies (now % 2 ^ p.BITS_PER_LONG)]) := by
      rw [hsj, dma_wait_polls p _ n polls _ hpolls, dma_wait_timeout p _ n v now rest hv hnow]
    rw [hn] at hw
    exact ⟨_, send_cmd_of_data_ok p host hr cmd arg rl tr htr hcmd hresp hdata hw⟩
  · intro st h2 s2 t h
    obtain ⟨done, tw, hw, hst⟩ := send_cmd_data_ok_inv htr hcmd hresp hdata h
    rw [← hn] at hw
    obtain ⟨polls, hpolls, hcase⟩ := dma_wait_spec p _ n _ sj le_rfl done s2 tw hw
    refine ⟨polls, hpolls, ?_⟩
    rcases hcase with ⟨rfl, v, hv, hsj, _⟩ | ⟨rfl, v, now, hv, hnow, hsj, _⟩
    · exact Or.inl ⟨hst, v, hv, hsj⟩
    · refine Or.inr ⟨hst, v, now, hv, hnow, hsj, ?_⟩
      intro hnowrap hclose
      have hpos : 0 < 2 ^ p.BITS_PER_LONG := by positivity
      have e : n = j % 2 ^ p.BITS_PER_LONG + 2 * p.HZ := by
        rw [hn, Nat.shiftLeft_eq, pow_one, Nat.mul_comm p.HZ 2, Nat.mod_eq_of_lt hnowrap]
      rw [← e] at hclose ⊢
      exact time_after_lt p _ n (Nat.mod_lt _ hpos) hclose hnow

/-- C23, evaluated at a failing input: with `HZ = 100` the bus-width block
starts at `jiffies = 1000`; the first call of `litex_set_bus_width` fails and
`jiffies` then reads 1100, one second after the start, more than the 500 ms
(`HZ / 2 = 50` jiffies) of the comment in the code; the block does not fail
there but runs the sequence again, and fails only when `jiffies` reads 1201,
after `1000 + 2 * HZ`. -/
theorem litex_request_bus_width_deadline_two_seconds :
    litex_request_bus_width ex_platform ex_host_absent ex_timeout_script
      = some ((false, ex_host_absent), [], ex_timeout_trace) ∧
    ex_timeout_trace =
      [Ev.jiffies 1000] ++ ex_cmd_fail_trace 55 0 1 0 3 ++ ex_cmd_fail_trace 6 2 1 0 3 ++
      [Ev.jiffies 1100] ++ ex_cmd_fail_trace 55 0 1 0 3 ++ ex_cmd_fail_trace 6 2 1 0 3 ++
      [Ev.jiffies 1201] ∧
    1000 + ex_platform.HZ / 2 < 1100 ∧
    time_after ex_platform 1100 (1000 + ex_platform.HZ / 2) = true ∧
    time_after ex_platform 1100 (1000 + 2 * ex_platform.HZ) = false ∧
    time_after ex_platform 1201 (1000 + 2 * ex_platform.HZ) = true :=
  ⟨rfl, rfl, by decide, by decide, by decide, by decide⟩

/-- C25, evaluated at a failing input: the multi-block write whose command CMD25
succeeds with the response words `0x11, 0x22, 0x33, 0x900` and whose stop
command succeeds with the response words `0x55, 0x66, 0x77, 0xb00` is completed
with `cmd->resp[0] = 0xb00` and `cmd->resp[1] = 0x77`, the response of the stop
command, not `0x900` and `0x33`. -/
theorem litex_request_resp_of_stop_command :
    litex_request ex_platform ex_mmc ex_host ex_write_mrq ex_write_script
      = some ((ex_with_resp (ex_with_resp ex_write_host 0x11 0x22 0x33 0x900)
            0x55 0x66 0x77 0xb00, ex_write_mrq_done), [],
          ex_write_setup_trace ++ ex_write_cmd_trace ++
            ex_cmd_trace 12 0 1 0 1 0x55 0x66 0x77 0xb00 ++ [Ev.mmc_request_done]) ∧
    litex_request_retry ex_platform ex_write_mrq.cmd.opcode ex_write_mrq.cmd.arg
        (litex_request_response_len ex_write_mrq.cmd.flags) SDCARD_CTRL_DATA_TRANSFER_WRITE
        ex_write_mrq.cmd.retries ex_write_host ex_write_script
      = some ((SD_OK, ex_with_resp ex_write_host 0x11 0x22 0x33 0x900),
          [1, 0x55, 0x66, 0x77, 0xb00], ex_write_cmd_trace) ∧
    (ex_with_resp ex_write_host 0x11 0x22 0x33 0x900).resp 3 = 0x900 ∧
    (ex_with_resp ex_write_host 0x11 0x22 0x33 0x900).resp 2 &&& 0xFF = 0x33 ∧
    ex_write_mrq_done.cmd.resp 0 = 0xb00 ∧
    ex_write_mrq_done.cmd.resp 1 = 0x77 :=
  ⟨rfl, rfl, rfl, rfl, rfl, rfl⟩

/-- C26, as stated, fails: for a read of 32 blocks of 512 bytes on the example
host, whose DMA buffer has 8192 bytes, `litex_request` programs the reader
length 16384. -/
theorem litex_request_read_length_exceeds_buffer :
    litex_request_prepare ex_platform ex_host (some ex_big_read_data) []
      = some ((true, ex_host, SDCARD_CTRL_DATA_TRANSFER_READ), [],
          [Ev.write Reg.SDBLK2MEM_ENA 1 0, Ev.write Reg.SDBLK2MEM_BASE 8 0x40000000,
           Ev.write Reg.SDBLK2MEM_LEN 4 16384, Ev.write Reg.SDBLK2MEM_ENA 1 1,
           Ev.write Reg.SDCORE_BLKLEN 2 512, Ev.write Reg.SDCORE_BLKCNT 4 32]) ∧
    ex_host.buffer_size = 8192 ∧ ex_host.buffer.length = 8192 ∧
    ex_host.buffer_size < 16384 := by
  refine ⟨rfl, rfl, ?_, by decide⟩
  exact List.length_replicate _ _

/-- C27, as stated, fails: on the example host, set up as by probe
(`buffer_size = 2 * max_req_size = 8192`), the successful write of 12 blocks of
512 bytes copies 6144 bytes to the DMA buffer and programs the writer length
6144, and reports `bytes_xfered = 4096`. -/
theorem litex_request_write_lengths_differ :
    ex_host.buffer_size = 2 * ex_mmc.max_req_size ∧
    litex_request ex_platform ex_mmc ex_host ex_big_write_mrq ex_write_script
      = some ((ex_with_resp (ex_with_resp ex_big_write_host 0x11 0x22 0x33 0x900)
            0x55 0x66 0x77 0xb00, ex_big_write_mrq_done), [],
          ex_big_write_setup_trace ++ (ex_write_cmd_trace ++
            ex_cmd_trace 12 0 1 0 1 0x55 0x66 0x77 0xb00 ++ [Ev.mmc_request_done])) ∧
    Ev.sg_copy_to_buffer 6144 ∈ ex_big_write_setup_trace ∧
    Ev.write Reg.SDMEM2BLK_LEN 4 6144 ∈ ex_big_write_setup_trace ∧
    ex_big_write_mrq_done.data = some { ex_big_write_data with bytes_xfered := 4096 } ∧
    (4096 : Nat) ≠ 6144 :=
  ⟨rfl,
    litex_request_of_parts ex_platform ex_mmc ex_host ex_big_write_host ex_big_write_mrq 2
      ex_write_script ex_write_script [] _ _ _ rfl rfl,
    by simp [ex_big_write_setup_trace], by simp [ex_big_write_setup_trace], rfl, by decide⟩

/-- An output that is in a trace is in its outputs. -/
theorem mem_outputs {t : List Ev} {e : Ev} (he : e ∈ t) (ho : e.is_output = true) :
    e ∈ outputs t := List.mem_filter.mpr ⟨he, ho⟩

/-- An `int` made from a `u32` and written to a 32-bit register is the `u32`. -/
theorem int_to_unsigned_u32_to_int (x : Nat) : int_to_unsigned 32 (u32_to_int x) = x % 2 ^ 32 := by
  unfold int_to_unsigned u32_to_int
  have hx : x % 2 ^ 32 < 2 ^ 32 := Nat.mod_lt _ (by norm_num)
  split
  · norm_num
    omega
  · norm_num
    omega

/-- Every output of a completed request with data is a register write of a
command issue, a write or a copy of the transfer setup, the copy of the data
read, or the completion. -/
theorem litex_request_output_mem {p : Platform} {mmc : mmc_host}
    {host host' : litex_mmc_host} {mrq mrq' : mmc_request} {d : mmc_data} {s s' : Script}
    {tr : List Ev} {e : Ev}
    (hd : mrq.data = some d)
    (h : litex_request p mmc host mrq s = some ((host', mrq'), s', tr))
    (he : e ∈ tr) (ho : e.is_output = true) :
    (∃ c a r t, e ∈ cmd_issue c a r t) ∨ e = Ev.mmc_request_done ∨
      (∃ n, e = Ev.sg_copy_from_buffer n) ∨
      (∃ hb sb tb h1 transfer ts,
        litex_request_bus_width p host s = some ((true, hb), sb, tb) ∧
        litex_request_setup p hb d sb = some ((h1, transfer), sb, ts) ∧ e ∈ ts) := by
  rcases hp : litex_request_prepare p host mrq.data s with _ | ⟨⟨ok, h1, transfer⟩, s1, t1⟩
  · unfold litex_request at h
    rw [Hw_bind_run, hp] at h
    cases h
  · have hp2 := hp
    rw [hd] at hp2
    obtain ⟨hb, sb, tb, hbw, hno, hyes⟩ := litex_request_prepare_some_eq_some hp2
    obtain ⟨hbout, _, _, _, _⟩ := litex_request_bus_width_eq_some hbw
    have hin_tb : e ∈ tb → ∃ c a r t, e ∈ cmd_issue c a r t := by
      intro hm
      rcases hbout e (mem_outputs hm ho) with hx | hx
      · exact ⟨_, _, _, _, hx⟩
      · exact ⟨_, _, _, _, hx⟩
    cases ok with
    | false =>
      obtain ⟨_, _, rfl⟩ := hno rfl
      rw [litex_request_of_prepare_fail hp] at h
      simp only [Option.some.injEq, Prod.mk.injEq] at h
      obtain ⟨_, _, rfl⟩ := h
      rcases List.mem_append.mp he with hm | hm
      · exact Or.inl (hin_tb hm)
      · exact Or.inr (Or.inl (List.mem_singleton.mp hm))
    | true =>
      obtain ⟨ts, hs, rfl⟩ := hyes rfl
      have hs1 : s1 = sb := (litex_request_setup_eq_some hs).1
      subst hs1
      obtain ⟨t', rfl, hc⟩ := litex_request_of_prepare hp h
      obtain ⟨st, h2, s2, t2, t3, hretry, hstop, _, _, _, hdok, hdno⟩ :=
        litex_request_command_eq_some hc
      have hin_t2 : e ∈ t2 → ∃ c a r t, e ∈ cmd_issue c a r t := by
        intro hm
        obtain ⟨sts, hsts, _, _, _, _, _⟩ := litex_request_retry_eq_some _ hretry
        obtain ⟨_, hout, _⟩ := send_cmd_times_eq_some _ hsts
        have hm2 := mem_outputs hm ho
        rw [hout] at hm2
        obtain ⟨l, hl, hel⟩ := List.mem_flatten.mp hm2
        rw [List.eq_of_mem_replicate hl] at hel
        exact ⟨_, _, _, _, hel⟩
      have hin_t3 : e ∈ t3 → ∃ c a r t, e ∈ cmd_issue c a r t := by
        intro hm
        split at hstop
        · obtain ⟨st3, hs3⟩ := hstop
          have hm2 := mem_outputs hm ho
          rw [send_stop_tx_cmd_eq_some hs3] at hm2
          exact ⟨_, _, _, _, hm2⟩
        · rw [hstop.2.2] at hm
          cases hm
      have hin_pre : ((e ∈ tb ∨ e ∈ ts) ∨ e ∈ t2 ∨ e ∈ t3) →
          ((∃ c a r t, e ∈ cmd_issue c a r t) ∨ e = Ev.mmc_request_done ∨
            (∃ n, e = Ev.sg_copy_from_buffer n) ∨
            (∃ hb sb tb h1 transfer ts,
              litex_request_bus_width p host s = some ((true, hb), sb, tb) ∧
              litex_request_setup p hb d sb = some ((h1, transfer), sb, ts) ∧ e ∈ ts)) := by
        intro hm
        rcases hm with (hm | hm) | hm | hm
        · exact Or.inl (hin_tb hm)
        · exact Or.inr (Or.inr (Or.inr ⟨hb, s1, tb, h1, transfer, ts, hbw, hs, hm⟩))
        · exact Or.inl (hin_t2 hm)
        · exact Or.inl (hin_t3 hm)
      by_cases hk : st = SD_OK ∧ transfer ≠ SDCARD_CTRL_DATA_TRANSFER_NONE
      · obtain ⟨d2, _, _, rfl⟩ := hdok hk
        simp only [List.mem_append, List.mem_singleton] at he
        rcases he with hm | (hm | hm) | hm | hm
        · exact hin_pre (Or.inl hm)
        · exact hin_pre (Or.inr (Or.inl hm))
        · exact hin_pre (Or.inr (Or.inr hm))
        · split at hm
          · exact Or.inr (Or.inr (Or.inl ⟨_, List.mem_singleton.mp hm⟩))
          · cases hm
        · exact Or.inr (Or.inl hm)
      · obtain ⟨_, rfl⟩ := hdno hk
        simp only [List.mem_append, List.mem_singleton] at he
        rcases he with hm | (hm | hm) | hm
        · exact hin_pre (Or.inl hm)
        · exact hin_pre (Or.inr (Or.inl hm))
        · exact hin_pre (Or.inr (Or.inr hm))
        · exact Or.inr (Or.inl hm)

/-- A command issue only writes the argument, command and send registers. -/
theorem cmd_issue_reg {c a r t : Nat} {e : Ev} (he : e ∈ cmd_issue c a r t) :
    ∃ w v, e = Ev.write Reg.SDCORE_CMDARG w v ∨ e = Ev.write Reg.SDCORE_CMDCMD w v ∨
      e = Ev.write Reg.SDCORE_CMDSND w v := by
  unfold cmd_issue at he
  simp only [List.mem_cons, List.mem_singleton, List.not_mem_nil, or_false] at he
  rcases he with rfl | rfl | rfl
  · exact ⟨_, _, Or.inl rfl⟩
  · exact ⟨_, _, Or.inr (Or.inl rfl)⟩
  · exact ⟨_, _, Or.inr (Or.inr rfl)⟩

/-- C26, amended. DMA length within the buffer: for every request with data
that is a write (any `blksz` and `blocks`) or a read with
`blksz * blocks ≤ host->buffer_size`, as is every read within the limit
`max_req_size = buffer_size / 2` that the driver gives the mmc core: whenever
the bus-width block succeeds, the transfer setup programs the length of the
active DMA unit, the reader length `blksz * blocks` for a read and the writer
length `min (blksz * blocks, (u32) buffer_size)` for a write, and writes no
value above `host->buffer_size` to the length register of a DMA unit; and every
value written to such a register during a completed request is that length, and
is at most `host->buffer_size`. -/
theorem litex_request_dma_length_bounded (p : Platform) (mmc : mmc_host)
    (host : litex_mmc_host) (mrq : mmc_request) (d : mmc_data) (s : Script)
    (hd : mrq.data = some d)
    (hlen : d.flags &&& MMC_DATA_READ ≠ 0 → d.blksz * d.blocks ≤ host.buffer_size) :
    (∀ (hb : litex_mmc_host) (sb : Script) (tb : List Ev),
      litex_request_bus_width p host s = some ((true, hb), sb, tb) →
      ∃ (h1 : litex_mmc_host) (ts : List Ev),
        litex_request_prepare p host mrq.data s
          = some ((true, h1,
              if d.flags &&& MMC_DATA_READ ≠ 0 then SDCARD_CTRL_DATA_TRANSFER_READ
              else if d.flags &&& MMC_DATA_WRITE ≠ 0 then SDCARD_CTRL_DATA_TRANSFER_WRITE
              else SDCARD_CTRL_DATA_TRANSFER_NONE), sb, tb ++ ts) ∧
        (d.flags &&& MMC_DATA_READ ≠ 0 →
          Ev.write Reg.SDBLK2MEM_LEN 4 ((d.blksz * d.blocks) % 2 ^ 32) ∈ ts) ∧
        (d.flags &&& MMC_DATA_READ = 0 → d.flags &&& MMC_DATA_WRITE ≠ 0 →
          Ev.write Reg.SDMEM2BLK_LEN 4
            (min ((d.blksz * d.blocks) % 2 ^ 32) (host.buffer_size % 2 ^ 32)) ∈ ts) ∧
        (∀ w v, Ev.write Reg.SDBLK2MEM_LEN w v ∈ tb ++ ts ∨
            Ev.write Reg.SDMEM2BLK_LEN w v ∈ tb ++ ts → v ≤ host.buffer_size)) ∧
    (∀ (host' : litex_mmc_host) (mrq' : mmc_request) (s' : Script) (tr : List Ev),
      litex_request p mmc host mrq s = some ((host', mrq'), s', tr) →
      (∀ w v, Ev.write Reg.SDBLK2MEM_LEN w v ∈ tr →
        d.flags &&& MMC_DATA_READ ≠ 0 ∧ v = (d.blksz * d.blocks) % 2 ^ 32 ∧
          v ≤ host.buffer_size) ∧
      (∀ w v, Ev.write Reg.SDMEM2BLK_LEN w v ∈ tr →
        d.flags &&& MMC_DATA_READ = 0 ∧ d.flags &&& MMC_DATA_WRITE ≠ 0 ∧
          v = min ((d.blksz * d.blocks) % 2 ^ 32) (host.buffer_size % 2 ^ 32) ∧
          v ≤ host.buffer_size)) := by
  have hwl : ∀ hb : litex_mmc_host, hb.buffer_size = host.buffer_size →
      int_to_unsigned 32 (litex_request_write_length hb d) % 2 ^ 32
        = min ((d.blksz * d.blocks) % 2 ^ 32) (host.buffer_size % 2 ^ 32) := by
    intro hb hbs
    unfold litex_request_write_length
    rw [int_to_unsigned_u32_to_int, hbs, Nat.mod_mod]
    exact Nat.mod_eq_of_lt (lt_of_le_of_lt (Nat.min_le_left _ _) (Nat.mod_lt _ (by norm_num)))
  have hsetup : ∀ {hb h1 : litex_mmc_host} {sb s1 : Script} {transfer : Nat} {ts : List Ev},
      hb.buffer_size = host.buffer_size →
      litex_request_setup p hb d sb = some ((h1, transfer), s1, ts) →
      (∀ w v, Ev.write Reg.SDBLK2MEM_LEN w v ∈ ts →
        d.flags &&& MMC_DATA_READ ≠ 0 ∧ v = (d.blksz * d.blocks) % 2 ^ 32) ∧
      (∀ w v, Ev.write Reg.SDMEM2BLK_LEN w v ∈ ts →
        d.flags &&& MMC_DATA_READ = 0 ∧ d.flags &&& MMC_DATA_WRITE ≠ 0 ∧
          v = min ((d.blksz * d.blocks) % 2 ^ 32) (host.buffer_size % 2 ^ 32)) ∧
      (d.flags &&& MMC_DATA_READ ≠ 0 →
        Ev.write Reg.SDBLK2MEM_LEN 4 ((d.blksz * d.blocks) % 2 ^ 32) ∈ ts) ∧
      (d.flags &&& MMC_DATA_READ = 0 → d.flags &&& MMC_DATA_WRITE ≠ 0 →
        Ev.write Reg.SDMEM2BLK_LEN 4
          (min ((d.blksz * d.blocks) % 2 ^ 32) (host.buffer_size % 2 ^ 32)) ∈ ts) := by
    intro hb h1 sb s1 transfer ts hbs hs
    by_cases hr : d.flags &&& MMC_DATA_READ ≠ 0
    · rw [litex_request_setup_read p hb d sb hr] at hs
      simp only [Option.some.injEq, Prod.mk.injEq] at hs
      obtain ⟨_, _, rfl⟩ := hs
      refine ⟨?_, ?_, ?_, ?_⟩
      · intro w v hm
        simp at hm
        exact ⟨hr, hm.2⟩
      · intro w v hm
        simp at hm
      · intro _
        simp
      · intro hnr
        exact absurd hnr hr
    · by_cases hw : d.flags &&& MMC_DATA_WRITE ≠ 0
      · rw [litex_request_setup_write p hb d sb hr hw, hwl hb hbs] at hs
        simp only [Option.some.injEq, Prod.mk.injEq] at hs
        obtain ⟨_, _, rfl⟩ := hs
        refine ⟨?_, ?_, ?_, ?_⟩
        · intro w v hm
          simp at hm
        · intro w v hm
          simp at hm
          exact ⟨not_not.mp hr, hw, hm.2⟩
        · intro hr2
          exact absurd hr2 hr
        · intro _ _
          simp
      · rw [litex_request_setup_none p hb d sb hr hw] at hs
        simp only [Option.some.injEq, Prod.mk.injEq] at hs
        obtain ⟨_, _, rfl⟩ := hs
        refine ⟨?_, ?_, ?_, ?_⟩
        · intro w v hm
          simp at hm
        · intro w v hm
          simp at hm
        · intro hr2
          exact absurd hr2 hr
        · intro _ hw2
          exact absurd hw2 hw
  have hframe : ∀ {hb : litex_mmc_host} {ok : Bool} {sb : Script} {tb : List Ev},
      litex_request_bus_width p host s = some ((ok, hb), sb, tb) →
      hb.buffer_size = host.buffer_size := by
    intro hb ok sb tb hbw
    obtain ⟨_, hfb, _, _, _⟩ := litex_request_bus_width_eq_some hbw
    rw [hfb]
  refine ⟨?_, ?_⟩
  · intro hb sb tb hbw
    obtain ⟨h1, ts, hs⟩ := litex_request_setup_returns p hb d sb
    obtain ⟨h1', h2', h3, h4⟩ := hsetup (hframe hbw) hs
    obtain ⟨hbout, _, _, _, _⟩ := litex_request_bus_width_eq_some hbw
    have hntb : ∀ reg w v, Ev.write reg w v ∈ tb →
        reg = Reg.SDBLK2MEM_LEN ∨ reg = Reg.SDMEM2BLK_LEN → False := by
      intro reg w v hm hreg
      have hx : ∃ c a r t, Ev.write reg w v ∈ cmd_issue c a r t := by
        rcases hbout _ (mem_outputs hm rfl) with hx | hx
        · exact ⟨_, _, _, _, hx⟩
        · exact ⟨_, _, _, _, hx⟩
      obtain ⟨c, a, r, t, hx⟩ := hx
      obtain ⟨w2, v2, hy⟩ := cmd_issue_reg hx
      simp only [Ev.write.injEq] at hy
      rcases hreg with rfl | rfl
      · rcases hy with hy | hy | hy <;> exact absurd hy.1 (by decide)
      · rcases hy with hy | hy | hy <;> exact absurd hy.1 (by decide)
    refine ⟨h1, ts, ?_, h3, h4, ?_⟩
    · rw [hd]
      unfold litex_request_prepare
      dsimp only
      rw [Hw_bind_run, hbw]
      dsimp only
      rw [Hw_ite_run, if_neg (by simp), Hw_bind_run, hs]
      simp only [Hw_pure_run, List.append_nil]
    · intro w v hm
      rcases hm with hm | hm
      · rcases List.mem_append.mp hm with hm | hm
        · exact absurd (hntb _ w v hm (Or.inl rfl)) id
        · obtain ⟨hr, hv⟩ := h1' w v hm
          rw [hv]
          exact le_trans (Nat.mod_le _ _) (hlen hr)
      · rcases List.mem_append.mp hm with hm | hm
        · exact absurd (hntb _ w v hm (Or.inr rfl)) id
        · obtain ⟨_, _, hv⟩ := h2' w v hm
          rw [hv]
          exact le_trans (Nat.min_le_right _ _) (Nat.mod_le _ _)
  · intro host' mrq' s' tr h
    have hcases : ∀ reg w v, Ev.write reg w v ∈ tr →
        reg = Reg.SDBLK2MEM_LEN ∨ reg = Reg.SDMEM2BLK_LEN →
        ∃ hb sb tb h1 transfer ts,
          litex_request_bus_width p host s = some ((true, hb), sb, tb) ∧
          litex_request_setup p hb d sb = some ((h1, transfer), sb, ts) ∧
          Ev.write reg w v ∈ ts := by
      intro reg w v hm hreg
      rcases litex_request_output_mem hd h hm rfl with ⟨c, a, r, t, hx⟩ | hx | ⟨n, hx⟩ | hx
      · obtain ⟨w2, v2, hy⟩ := cmd_issue_reg hx
        simp only [Ev.write.injEq] at hy
        rcases hreg with rfl | rfl
        · rcases hy with hy | hy | hy <;> exact absurd hy.1 (by decide)
        · rcases hy with hy | hy | hy <;> exact absurd hy.1 (by decide)
      · cases hx
      · cases hx
      · exact hx
    refine ⟨?_, ?_⟩
    · intro w v hm
      obtain ⟨hb, sb, tb, h1, transfer, ts, hbw, hs, hin⟩ := hcases _ w v hm (Or.inl rfl)
      obtain ⟨h1', _, _, _⟩ := hsetup (hframe hbw) hs
      obtain ⟨hr, hv⟩ := h1' w v hin
      refine ⟨hr, hv, ?_⟩
      rw [hv]
      exact le_trans (Nat.mod_le _ _) (hlen hr)
    · intro w v hm
      obtain ⟨hb, sb, tb, h1, transfer, ts, hbw, hs, hin⟩ := hcases _ w v hm (Or.inr rfl)
      obtain ⟨_, h2', _, _⟩ := hsetup (hframe hbw) hs
      obtain ⟨hr, hw, hv⟩ := h2' w v hin
      refine ⟨hr, hw, hv, ?_⟩
      rw [hv]
      exact le_trans (Nat.min_le_right _ _) (Nat.mod_le _ _)

/-- C27, amended. Reported and programmed write length agree: for every
successful write request of at most `max_req_size` bytes
(`blksz * blocks ≤ max_req_size`, the limit the driver gives the mmc core) on a
host set up by probe (`buffer_size = 2 * max_req_size`, below 2^31, on a machine
of at least 32 bits), `data->bytes_xfered` at completion is `blksz * blocks`;
this is the one value written to the writer length register and the one number
of bytes copied to the DMA buffer during the request, and the buffer of the host
at completion is the result of that copy. -/
theorem litex_request_write_lengths_agree (p : Platform) (mmc : mmc_host)
    (host host' : litex_mmc_host) (mrq mrq' : mmc_request) (d : mmc_data)
    (s s' : Script) (tr : List Ev)
    (hd : mrq.data = some d) (hnr : d.flags &&& MMC_DATA_READ = 0)
    (hw : d.flags &&& MMC_DATA_WRITE ≠ 0)
    (hL : 32 ≤ p.BITS_PER_LONG)
    (hprobe : host.buffer_size = 2 * mmc.max_req_size) (hbuf : host.buffer_size < 2 ^ 31)
    (hlim : d.blksz * d.blocks ≤ mmc.max_req_size)
    (h : litex_request p mmc host mrq s = some ((host', mrq'), s', tr))
    (hok : mrq'.cmd.error = 0) :
    ∃ d' : mmc_data, mrq'.data = some d' ∧
      d'.bytes_xfered = d.blksz * d.blocks ∧
      Ev.write Reg.SDMEM2BLK_LEN 4 d'.bytes_xfered ∈ tr ∧
      (∀ w v, Ev.write Reg.SDMEM2BLK_LEN w v ∈ tr → v = d'.bytes_xfered) ∧
      Ev.sg_copy_to_buffer d'.bytes_xfered ∈ tr ∧
      (∀ n, Ev.sg_copy_to_buffer n ∈ tr → n = d'.bytes_xfered) ∧
      host'.buffer = sg_copy_to_buffer d.sg host.buffer d'.bytes_xfered := by
  have hnr' : ¬ d.flags &&& MMC_DATA_READ ≠ 0 := not_not.mpr hnr
  have hple : d.blksz * d.blocks ≤ host.buffer_size := by omega
  have hplt : d.blksz * d.blocks < 2 ^ 31 := lt_of_le_of_lt hple hbuf
  have hpmod : (d.blksz * d.blocks) % 2 ^ 32 = d.blksz * d.blocks :=
    Nat.mod_eq_of_lt (lt_trans hplt (by norm_num))
  have hpow : (2 : Nat) ^ 31 ≤ 2 ^ p.BITS_PER_LONG :=
    Nat.pow_le_pow_right (by norm_num) (by omega)
  -- the transfer setup of a host with the buffer size of `host`
  have hsetup : ∀ (hb : litex_mmc_host) (sb : Script), hb.buffer_size = host.buffer_size →
      litex_request_setup p hb d sb
        = some (({ hb with buffer := sg_copy_to_buffer d.sg hb.buffer (d.blksz * d.blocks) },
            SDCARD_CTRL_DATA_TRANSFER_WRITE), sb,
          [Ev.sg_copy_to_buffer (d.blksz * d.blocks),
           Ev.write Reg.SDMEM2BLK_ENA 1 0,
           Ev.write Reg.SDMEM2BLK_BASE 8 (hb.dma_handle % 2 ^ 64),
           Ev.write Reg.SDMEM2BLK_LEN 4 (d.blksz * d.blocks),
           Ev.write Reg.SDMEM2BLK_ENA 1 1,
           Ev.write Reg.SDCORE_BLKLEN 2 (d.blksz % 2 ^ 16),
           Ev.write Reg.SDCORE_BLKCNT 4 (d.blocks % 2 ^ 32)]) := by
    intro hb sb hbs
    have hwl : litex_request_write_length hb d = ((d.blksz * d.blocks : Nat) : Int) := by
      unfold litex_request_write_length
      rw [hbs, Nat.mod_eq_of_lt (lt_trans hbuf (by norm_num)), hpmod, Nat.min_eq_left hple,
        u32_to_int_of_lt _ hplt]
    have hlen1 : int_to_unsigned p.BITS_PER_LONG (litex_request_write_length hb d)
        = d.blksz * d.blocks := by
      rw [hwl, int_to_unsigned_natCast _ _ (lt_of_lt_of_le hplt hpow)]
    have hlen2 : int_to_unsigned 32 (litex_request_write_length hb d) % 2 ^ 32
        = d.blksz * d.blocks := by
      rw [hwl, int_to_unsigned_natCast _ _ (lt_trans hplt (by norm_num)), hpmod]
    rw [litex_request_setup_write p hb d sb hnr' hw, hlen1, hlen2]
  have hframe : ∀ {hb : litex_mmc_host} {ok : Bool} {sb : Script} {tb : List Ev},
      litex_request_bus_width p host s = some ((ok, hb), sb, tb) →
      hb.buffer_size = host.buffer_size ∧ hb.buffer = host.buffer := by
    intro hb ok sb tb hbw
    obtain ⟨_, hfb, _, _, _⟩ := litex_request_bus_width_eq_some hbw
    constructor <;> rw [hfb]
  -- the events of the writer length and of the copy are those of the setup
  have hin : ∀ e : Ev, e ∈ tr → e.is_output = true →
      (∀ w v, e ≠ Ev.write Reg.SDCORE_CMDARG w v ∧ e ≠ Ev.write Reg.SDCORE_CMDCMD w v ∧
        e ≠ Ev.write Reg.SDCORE_CMDSND w v) →
      e ≠ Ev.mmc_request_done → (∀ n, e ≠ Ev.sg_copy_from_buffer n) →
      ∃ hb : litex_mmc_host,
        e ∈ [Ev.sg_copy_to_buffer (d.blksz * d.blocks),
           Ev.write Reg.SDMEM2BLK_ENA 1 0,
           Ev.write Reg.SDMEM2BLK_BASE 8 (hb.dma_handle % 2 ^ 64),
           Ev.write Reg.SDMEM2BLK_LEN 4 (d.blksz * d.blocks),
           Ev.write Reg.SDMEM2BLK_ENA 1 1,
           Ev.write Reg.SDCORE_BLKLEN 2 (d.blksz % 2 ^ 16),
           Ev.write Reg.SDCORE_BLKCNT 4 (d.blocks % 2 ^ 32)] := by
    intro e he ho hcmd hdone hcopy
    rcases litex_request_output_mem hd h he ho with ⟨c, a, r, t, hx⟩ | hx | ⟨n, hx⟩ | hx
    · obtain ⟨w, v, hy⟩ := cmd_issue_reg hx
      rcases hy with hy | hy | hy
      · exact absurd hy (hcmd w v).1
      · exact absurd hy (hcmd w v).2.1
      · exact absurd hy (hcmd w v).2.2
    · exact absurd hx hdone
    · exact absurd hx (hcopy n)
    · obtain ⟨hb, sb, tb, h1, transfer, ts, hbw, hs, hm⟩ := hx
      rw [hsetup hb sb (hframe hbw).1] at hs
      simp only [Option.some.injEq, Prod.mk.injEq] at hs
      obtain ⟨_, _, rfl⟩ := hs
      exact ⟨hb, hm⟩
  -- the run
  rcases hp : litex_request_prepare p host mrq.data s with _ | ⟨⟨ok, h1, transfer⟩, s1, t1⟩
  · unfold litex_request at h
    rw [Hw_bind_run, hp] at h
    cases h
  · cases ok with
    | false =>
      rw [litex_request_of_prepare_fail hp] at h
      simp only [Option.some.injEq, Prod.mk.injEq] at h
      obtain ⟨⟨_, rfl⟩, _, _⟩ := h
      have hne : (- ETIMEDOUT : Int) ≠ 0 := by decide
      exact absurd hok hne
    | true =>
      have hp2 := hp
      rw [hd] at hp2
      obtain ⟨hb, sb, tb, hbw, _, hyes⟩ := litex_request_prepare_some_eq_some hp2
      obtain ⟨ts, hs, rfl⟩ := hyes rfl
      rw [hsetup hb sb (hframe hbw).1] at hs
      simp only [Option.some.injEq, Prod.mk.injEq] at hs
      obtain ⟨⟨rfl, rfl⟩, rfl, rfl⟩ := hs
      obtain ⟨t', rfl, hc⟩ := litex_request_of_prepare hp h
      obtain ⟨_, hf⟩ := litex_request_command_frame hc
      obtain ⟨st, h2, s2, t2, t3, _, _, herr, _, _, hdok, _⟩ :=
        litex_request_command_eq_some hc
      have hst : st = SD_OK := by
        by_contra hne
        rw [hok, if_neg hne] at herr
        split at herr
        · exact absurd herr (by decide)
        · split at herr
          · exact absurd herr (by decide)
          · split at herr
            · exact absurd herr (by decide)
            · exact absurd herr (by decide)
      obtain ⟨d2, hd2, hdata, _⟩ := hdok ⟨hst, by decide⟩
      rw [hd] at hd2
      cases hd2
      have hbx : min ((d.blksz * d.blocks) % 2 ^ 32) mmc.max_req_size = d.blksz * d.blocks := by
        rw [hpmod, Nat.min_eq_left hlim]
      rw [hbx] at hdata
      refine ⟨_, hdata, rfl, ?_, ?_, ?_, ?_, ?_⟩
      · simp
      · intro w v hm
        obtain ⟨hb2, hx⟩ := hin _ hm rfl (by simp) (by simp) (by simp)
        simp at hx
        exact hx.2
      · simp
      · intro n hm
        obtain ⟨hb2, hx⟩ := hin _ hm rfl (by simp) (by simp) (by simp)
        simp at hx
        exact hx
      · show host'.buffer = sg_copy_to_buffer d.sg host.buffer (d.blksz * d.blocks)
        rw [hf, ← (hframe hbw).2]

/-! ## The theorems of the driver at example runs -/

/-- Witness for C3: a short-response command without data; the card answers at
the first poll and the response registers read `0x11, 0x22, 0x1233, 0x44`. -/
theorem litex_request_response_reordering_witness :
    (litex_request_prepare ex_platform ex_host (ex_status_mrq 0).data [1, 0x11, 0x22, 0x1233, 0x44] = some ((true, ex_host, 0), [1, 0x11, 0x22, 0x1233, 0x44], [])) ∧
    (litex_request ex_platform ex_mmc ex_host (ex_status_mrq 0) [1, 0x11, 0x22, 0x1233, 0x44] = some (((ex_with_resp ex_host 0x11 0x22 0x1233 0x44), (mmc_request.mk (ex_cmd_done 13 1 0 0 0x44 0x33) none)), [], (ex_cmd_trace 13 0x200 1 0 1 0x11 0x22 0x1233 0x44 ++ [Ev.mmc_request_done]))) ∧
    (((ex_status_mrq 0).cmd.flags &&& MMC_RSP_136 = 0 → (ex_status_mrq 0).cmd.flags &&& MMC_RSP_PRESENT ≠ 0 →
        (mmc_request.mk (ex_cmd_done 13 1 0 0 0x44 0x33) none).cmd.resp 0 = (ex_with_resp ex_host 0x11 0x22 0x1233 0x44).resp 3 ∧ (mmc_request.mk (ex_cmd_done 13 1 0 0 0x44 0x33) none).cmd.resp 1 = (ex_with_resp ex_host 0x11 0x22 0x1233 0x44).resp 2 &&& 0xFF) ∧
    ((ex_status_mrq 0).cmd.flags &&& MMC_RSP_136 ≠ 0 →
        (mmc_request.mk (ex_cmd_done 13 1 0 0 0x44 0x33) none).cmd.resp 0 = (ex_with_resp ex_host 0x11 0x22 0x1233 0x44).resp 0 ∧ (mmc_request.mk (ex_cmd_done 13 1 0 0 0x44 0x33) none).cmd.resp 1 = (ex_with_resp ex_host 0x11 0x22 0x1233 0x44).resp 1 ∧
        (mmc_request.mk (ex_cmd_done 13 1 0 0 0x44 0x33) none).cmd.resp 2 = (ex_with_resp ex_host 0x11 0x22 0x1233 0x44).resp 2 ∧ (mmc_request.mk (ex_cmd_done 13 1 0 0 0x44 0x33) none).cmd.resp 3 = (ex_with_resp ex_host 0x11 0x22 0x1233 0x44).resp 3)) :=
  ⟨rfl, rfl,
    litex_request_response_reordering ex_platform ex_mmc ex_host ex_host (ex_with_resp ex_host 0x11 0x22 0x1233 0x44) (ex_status_mrq 0) (mmc_request.mk (ex_cmd_done 13 1 0 0 0x44 0x33) none) 0 [1, 0x11, 0x22, 0x1233, 0x44] [1, 0x11, 0x22, 0x1233, 0x44] [] [] (ex_cmd_trace 13 0x200 1 0 1 0x11 0x22 0x1233 0x44 ++ [Ev.mmc_request_done]) (rfl) (rfl)⟩

/-- Witness for C4: a command with 2 retries whose 3 attempts all see the event
byte `0x03` (write error). -/
theorem litex_request_retry_bound_witness :
    (litex_request_prepare ex_platform ex_host (ex_status_mrq 2).data [3, 3, 3] = some ((true, ex_host, 0), [3, 3, 3], [])) ∧
    (litex_request ex_platform ex_mmc ex_host (ex_status_mrq 2) [3, 3, 3] = some ((ex_host, (mmc_request.mk (ex_cmd_done 13 1 2 (-5) 0 0) none)), [], (ex_cmd_fail_trace 13 0x200 1 0 3 ++ ex_cmd_fail_trace 13 0x200 1 0 3 ++ ex_cmd_fail_trace 13 0x200 1 0 3 ++ [Ev.mmc_request_done]))) ∧
    (∃ (sts : List Nat) (h2 : litex_mmc_host) (s2 : Script) (t2 rest tail : List Ev),
      send_cmd_times ex_platform (ex_status_mrq 2).cmd.opcode (ex_status_mrq 2).cmd.arg (litex_request_response_len (ex_status_mrq 2).cmd.flags)
          0 sts.length ex_host [3, 3, 3] = some ((sts, h2), s2, t2) ∧
      (ex_cmd_fail_trace 13 0x200 1 0 3 ++ ex_cmd_fail_trace 13 0x200 1 0 3 ++ ex_cmd_fail_trace 13 0x200 1 0 3 ++ [Ev.mmc_request_done]) = [] ++ t2 ++ rest ∧
      1 ≤ sts.length ∧ sts.length ≤ (ex_status_mrq 2).cmd.retries + 1 ∧
      (∀ x ∈ sts.dropLast, x ≠ SD_OK) ∧
      (sts.getLast? = some SD_OK ∨ sts.length = (ex_status_mrq 2).cmd.retries + 1) ∧
      outputs t2 = (List.replicate sts.length
        (cmd_issue (ex_status_mrq 2).cmd.opcode (ex_status_mrq 2).cmd.arg (litex_request_response_len (ex_status_mrq 2).cmd.flags)
          0)).flatten ∧
      outputs rest =
        (if (ex_status_mrq 2).cmd.opcode = MMC_READ_MULTIPLE_BLOCK ∨ (ex_status_mrq 2).cmd.opcode = MMC_WRITE_MULTIPLE_BLOCK
          then cmd_issue MMC_STOP_TRANSMISSION 0 SDCARD_CTRL_RESPONSE_SHORT
            SDCARD_CTRL_DATA_TRANSFER_NONE
          else []) ++ tail ∧
      (∀ e ∈ tail, e = Ev.mmc_request_done ∨ ∃ n, e = Ev.sg_copy_from_buffer n) ∧
      ((∀ x ∈ sts, x = SD_WRITEERROR) →
        sts.length = (ex_status_mrq 2).cmd.retries + 1 ∧ (mmc_request.mk (ex_cmd_done 13 1 2 (-5) 0 0) none).cmd.error = - EIO)) :=
  ⟨rfl, rfl,
    litex_request_retry_bound ex_platform ex_mmc ex_host ex_host ex_host (ex_status_mrq 2) (mmc_request.mk (ex_cmd_done 13 1 2 (-5) 0 0) none) 0 [3, 3, 3] [3, 3, 3] [] [] (ex_cmd_fail_trace 13 0x200 1 0 3 ++ ex_cmd_fail_trace 13 0x200 1 0 3 ++ ex_cmd_fail_trace 13 0x200 1 0 3 ++ [Ev.mmc_request_done]) (rfl) (rfl)⟩

/-- Witness for C5: a multi-block write of 8 blocks of 512 bytes that succeeds at
the first attempt and is followed by the stop command. -/
theorem litex_request_stop_command_witness :
    (litex_request_prepare ex_platform ex_host ex_write_mrq.data ex_write_script = some ((true, ex_write_host, 2), ex_write_script, ex_write_setup_trace)) ∧
    (litex_request ex_platform ex_mmc ex_host ex_write_mrq ex_write_script = some (((ex_with_resp (ex_with_resp ex_write_host 0x11 0x22 0x33 0x900) 0x55 0x66 0x77 0xb00), ex_write_mrq_done), [], (ex_write_setup_trace ++ ex_write_cmd_trace ++ ex_cmd_trace 12 0 1 0 1 0x55 0x66 0x77 0xb00 ++ [Ev.mmc_request_done]))) ∧
    (∃ (st : Nat) (h2 : litex_mmc_host) (s2 : Script) (t2 t3 t4 : List Ev),
      litex_request_retry ex_platform ex_write_mrq.cmd.opcode ex_write_mrq.cmd.arg
          (litex_request_response_len ex_write_mrq.cmd.flags) 2 ex_write_mrq.cmd.retries ex_write_host ex_write_script
        = some ((st, h2), s2, t2) ∧
      (ex_write_setup_trace ++ ex_write_cmd_trace ++ ex_cmd_trace 12 0 1 0 1 0x55 0x66 0x77 0xb00 ++ [Ev.mmc_request_done]) = ex_write_setup_trace ++ t2 ++ t3 ++ t4 ∧
      (∀ e ∈ t4, e = Ev.mmc_request_done ∨ ∃ n, e = Ev.sg_copy_from_buffer n) ∧
      ((ex_write_mrq.cmd.opcode = MMC_READ_MULTIPLE_BLOCK ∨ ex_write_mrq.cmd.opcode = MMC_WRITE_MULTIPLE_BLOCK) →
        (∃ st3, send_cmd ex_platform h2 MMC_STOP_TRANSMISSION 0 SDCARD_CTRL_RESPONSE_SHORT
            SDCARD_CTRL_DATA_TRANSFER_NONE s2 = some ((st3, (ex_with_resp (ex_with_resp ex_write_host 0x11 0x22 0x33 0x900) 0x55 0x66 0x77 0xb00)), [], t3)) ∧
        outputs t3 = [Ev.write Reg.SDCORE_CMDARG 4 0,
                      Ev.write Reg.SDCORE_CMDCMD 4 (12 <<< 8 ||| 0 <<< 5 ||| 1),
                      Ev.write Reg.SDCORE_CMDSND 1 1]) ∧
      (¬ (ex_write_mrq.cmd.opcode = MMC_READ_MULTIPLE_BLOCK ∨
          ex_write_mrq.cmd.opcode = MMC_WRITE_MULTIPLE_BLOCK) → t3 = [])) :=
  ⟨rfl, rfl,
    litex_request_stop_command ex_platform ex_mmc ex_host ex_write_host (ex_with_resp (ex_with_resp ex_write_host 0x11 0x22 0x33 0x900) 0x55 0x66 0x77 0xb00) ex_write_mrq ex_write_mrq_done 2 ex_write_script ex_write_script [] ex_write_setup_trace (ex_write_setup_trace ++ ex_write_cmd_trace ++ ex_cmd_trace 12 0 1 0 1 0x55 0x66 0x77 0xb00 ++ [Ev.mmc_request_done]) (rfl) (rfl)⟩

/-- Witness for C6: the single-block read issued after the card was reported
absent; the width-set sequence succeeds at the first try. -/
theorem litex_request_bus_width_once_witness :
    (ex_read_mrq.data = some ex_read_data) ∧
    (litex_request ex_platform ex_mmc ex_host_absent ex_read_mrq ex_reinsert_script = some (((ex_with_resp ex_reinsert_host 0x11 0x22 0x33 0x900), ex_read_mrq_done), [], (([Ev.jiffies 4000] ++ ex_reinsert_width_trace ++ ex_read_setup_trace) ++ (ex_read_cmd_trace ++ [Ev.sg_copy_from_buffer 512, Ev.mmc_request_done])))) ∧
    ((ex_host_absent.is_bus_width_set = true →
      ∃ (h1 : litex_mmc_host) (transfer : Nat) (ts t' : List Ev),
        litex_request_setup ex_platform ex_host_absent ex_read_data ex_reinsert_script = some ((h1, transfer), ex_reinsert_script, ts) ∧
        (∀ e ∈ ts, ∀ v, e ≠ Ev.write Reg.SDCORE_CMDCMD 4 v) ∧
        (([Ev.jiffies 4000] ++ ex_reinsert_width_trace ++ ex_read_setup_trace) ++ (ex_read_cmd_trace ++ [Ev.sg_copy_from_buffer 512, Ev.mmc_request_done])) = ts ++ cmd_issue ex_read_mrq.cmd.opcode ex_read_mrq.cmd.arg
          (litex_request_response_len ex_read_mrq.cmd.flags) transfer ++ t' ∧
        (ex_with_resp ex_reinsert_host 0x11 0x22 0x33 0x900).is_bus_width_set = true) ∧
    (∀ (hprev : litex_mmc_host) (sprev s0 : Script) (t0 : List Ev),
      litex_get_cd ex_mmc hprev sprev = some ((0, ex_host_absent), s0, t0) →
      ex_host_absent.is_bus_width_set = false ∧
      ∀ (j : Nat) (sj : Script) (hb : litex_mmc_host) (sb : Script) (tb : List Ev),
        ex_reinsert_script = j :: sj → litex_set_bus_width ex_platform ex_host_absent sj = some ((SD_OK, hb), sb, tb) →
        outputs tb = bus_width_issue ex_host_absent.app_cmd ex_host_absent.rca ∧
        ∃ (h1 : litex_mmc_host) (transfer : Nat) (ts t' : List Ev),
          litex_request_setup ex_platform { hb with is_bus_width_set := true } ex_read_data sb
            = some ((h1, transfer), sb, ts) ∧
          (∀ e ∈ ts, ∀ v, e ≠ Ev.write Reg.SDCORE_CMDCMD 4 v) ∧
          (([Ev.jiffies 4000] ++ ex_reinsert_width_trace ++ ex_read_setup_trace) ++ (ex_read_cmd_trace ++ [Ev.sg_copy_from_buffer 512, Ev.mmc_request_done])) = [Ev.jiffies (j % 2 ^ ex_platform.BITS_PER_LONG)] ++ tb ++ ts ++
            cmd_issue ex_read_mrq.cmd.opcode ex_read_mrq.cmd.arg
              (litex_request_response_len ex_read_mrq.cmd.flags) transfer ++ t' ∧
          (ex_with_resp ex_reinsert_host 0x11 0x22 0x33 0x900).is_bus_width_set = true)) :=
  ⟨rfl, litex_request_of_parts ex_platform ex_mmc ex_host_absent ex_reinsert_host ex_read_mrq 1 ex_reinsert_script ex_read_script [] _ _ _ rfl rfl,
    litex_request_bus_width_once ex_platform ex_mmc ex_host_absent (ex_with_resp ex_reinsert_host 0x11 0x22 0x33 0x900) ex_read_mrq ex_read_mrq_done ex_read_data ex_reinsert_script [] (([Ev.jiffies 4000] ++ ex_reinsert_width_trace ++ ex_read_setup_trace) ++ (ex_read_cmd_trace ++ [Ev.sg_copy_from_buffer 512, Ev.mmc_request_done])) (rfl) (litex_request_of_parts ex_platform ex_mmc ex_host_absent ex_reinsert_host ex_read_mrq 1 ex_reinsert_script ex_read_script [] _ _ _ rfl rfl)⟩

/-- Witness for C7: the width-set sequence fails twice and the second failure is
seen after the deadline. -/
theorem litex_request_bus_width_timeout_witness :
    (ex_read_mrq.data = some ex_read_data) ∧
    (litex_request_bus_width ex_platform ex_host_absent ex_timeout_script = some ((false, ex_host_absent), [], ex_timeout_trace)) ∧
    (litex_request ex_platform ex_mmc ex_host_absent ex_read_mrq ex_timeout_script
        = some ((ex_host_absent, { ex_read_mrq with cmd := { ex_read_mrq.cmd with error := - ETIMEDOUT } }), [],
            ex_timeout_trace ++ [Ev.mmc_request_done]) ∧
      ex_host_absent.is_bus_width_set = false ∧ ex_host_absent.is_bus_width_set = false ∧
      (∀ e ∈ outputs ex_timeout_trace,
        e ∈ cmd_issue MMC_APP_CMD ((ex_host_absent.rca % 2 ^ 16) <<< 16) SDCARD_CTRL_RESPONSE_SHORT
            SDCARD_CTRL_DATA_TRANSFER_NONE
        ∨ e ∈ cmd_issue SD_APP_SET_BUS_WIDTH MMC_BUS_WIDTH_4 SDCARD_CTRL_RESPONSE_SHORT
            SDCARD_CTRL_DATA_TRANSFER_NONE)) :=
  ⟨rfl, rfl,
    litex_request_bus_width_timeout ex_platform ex_mmc ex_host_absent ex_host_absent ex_read_mrq ex_read_data ex_timeout_script [] ex_timeout_trace (rfl) (rfl)⟩

/-- Witness for C8: the single-block read of 512 bytes on a host with the bus
width set; command and data succeed at the first poll. -/
theorem litex_request_read_success_witness :
    (ex_read_mrq.data = some ex_read_data) ∧
    (ex_read_data.flags &&& MMC_DATA_READ ≠ 0) ∧
    (litex_request_prepare ex_platform ex_host ex_read_mrq.data ex_read_script = some ((true, ex_host, 1), ex_read_script, ex_read_setup_trace)) ∧
    (litex_request_retry ex_platform ex_read_mrq.cmd.opcode ex_read_mrq.cmd.arg
        (litex_request_response_len ex_read_mrq.cmd.flags) 1 ex_read_mrq.cmd.retries ex_host ex_read_script
      = some ((SD_OK, (ex_with_resp ex_host 0x11 0x22 0x33 0x900)), [], ex_read_cmd_trace)) ∧
    (litex_request ex_platform ex_mmc ex_host ex_read_mrq ex_read_script = some (((ex_with_resp ex_host 0x11 0x22 0x33 0x900), ex_read_mrq_done), [], (ex_read_setup_trace ++ ex_read_cmd_trace ++ [Ev.sg_copy_from_buffer 512, Ev.mmc_request_done]))) ∧
    (ex_read_mrq_done.cmd.error = 0 ∧
    ∃ d' : mmc_data, ex_read_mrq_done.data = some d' ∧
      d'.bytes_xfered = min ((ex_read_data.blksz * ex_read_data.blocks) % 2 ^ 32) ex_mmc.max_req_size ∧
      (ex_read_data.blksz * ex_read_data.blocks < 2 ^ 32 →
        d'.bytes_xfered = min (ex_read_data.blksz * ex_read_data.blocks) ex_mmc.max_req_size) ∧
      Ev.sg_copy_from_buffer d'.bytes_xfered ∈ (ex_read_setup_trace ++ ex_read_cmd_trace ++ [Ev.sg_copy_from_buffer 512, Ev.mmc_request_done]) ∧
      d'.sg = sg_copy_from_buffer ex_read_data.sg (ex_with_resp ex_host 0x11 0x22 0x33 0x900).buffer d'.bytes_xfered ∧
      (d'.bytes_xfered ≤ ex_read_data.sg.length → d'.bytes_xfered ≤ (ex_with_resp ex_host 0x11 0x22 0x33 0x900).buffer.length →
        d'.sg = (ex_with_resp ex_host 0x11 0x22 0x33 0x900).buffer.take d'.bytes_xfered ++ ex_read_data.sg.drop d'.bytes_xfered) ∧
      (ex_read_data.blksz = 512 → ex_read_data.blocks = 1 → ex_read_mrq.cmd.opcode ≠ MMC_READ_MULTIPLE_BLOCK →
        ex_read_mrq.cmd.opcode ≠ MMC_WRITE_MULTIPLE_BLOCK → 512 ≤ ex_mmc.max_req_size →
        ex_read_data.sg.length = 512 → 512 ≤ (ex_with_resp ex_host 0x11 0x22 0x33 0x900).buffer.length →
        d'.bytes_xfered = 512 ∧ d'.sg = (ex_with_resp ex_host 0x11 0x22 0x33 0x900).buffer.take 512 ∧
        (ex_read_setup_trace ++ ex_read_cmd_trace ++ [Ev.sg_copy_from_buffer 512, Ev.mmc_request_done]) = ex_read_setup_trace ++ ex_read_cmd_trace ++ [Ev.sg_copy_from_buffer 512, Ev.mmc_request_done])) :=
  ⟨rfl, by decide, rfl, rfl, rfl,
    litex_request_read_success ex_platform ex_mmc ex_host ex_host (ex_with_resp ex_host 0x11 0x22 0x33 0x900) (ex_with_resp ex_host 0x11 0x22 0x33 0x900) ex_read_mrq ex_read_mrq_done ex_read_data 1 ex_read_script ex_read_script [] [] ex_read_setup_trace ex_read_cmd_trace (ex_read_setup_trace ++ ex_read_cmd_trace ++ [Ev.sg_copy_from_buffer 512, Ev.mmc_request_done]) (rfl) (by decide) (rfl) (rfl) (rfl)⟩

/-- Witness for C9: the multi-block write of 8 blocks of 512 bytes into the
8192-byte buffer. -/
theorem litex_request_write_staging_witness :
    (ex_write_mrq.data = some ex_write_data) ∧
    (ex_write_data.flags &&& MMC_DATA_READ = 0) ∧
    (ex_write_data.flags &&& MMC_DATA_WRITE ≠ 0) ∧
    (32 ≤ ex_platform.BITS_PER_LONG) ∧
    (ex_host.buffer_size < 2 ^ 31) ∧
    (litex_request_bus_width ex_platform ex_host ex_write_script = some ((true, ex_host), ex_write_script, [])) ∧
    (litex_request ex_platform ex_mmc ex_host ex_write_mrq ex_write_script = some (((ex_with_resp (ex_with_resp ex_write_host 0x11 0x22 0x33 0x900) 0x55 0x66 0x77 0xb00), ex_write_mrq_done), [], (ex_write_setup_trace ++ ex_write_cmd_trace ++ ex_cmd_trace 12 0 1 0 1 0x55 0x66 0x77 0xb00 ++ [Ev.mmc_request_done]))) ∧
    (∃ (n : Nat) (rest : List Ev),
      n = min ((ex_write_data.blksz * ex_write_data.blocks) % 2 ^ 32) ex_host.buffer_size ∧
      n ≤ ex_host.buffer_size ∧
      (ex_write_data.blksz * ex_write_data.blocks < 2 ^ 32 → n = min (ex_write_data.blksz * ex_write_data.blocks) ex_host.buffer_size) ∧
      (ex_write_data.blksz = 512 → ex_write_data.blocks = 8 → n = min 4096 ex_host.buffer_size) ∧
      (ex_write_setup_trace ++ ex_write_cmd_trace ++ ex_cmd_trace 12 0 1 0 1 0x55 0x66 0x77 0xb00 ++ [Ev.mmc_request_done]) = [] ++ [Ev.sg_copy_to_buffer n,
                  Ev.write Reg.SDMEM2BLK_ENA 1 0,
                  Ev.write Reg.SDMEM2BLK_BASE 8 (ex_host.dma_handle % 2 ^ 64),
                  Ev.write Reg.SDMEM2BLK_LEN 4 n,
                  Ev.write Reg.SDMEM2BLK_ENA 1 1] ++ rest ∧
      (ex_with_resp (ex_with_resp ex_write_host 0x11 0x22 0x33 0x900) 0x55 0x66 0x77 0xb00).buffer = sg_copy_to_buffer ex_write_data.sg ex_host.buffer n ∧
      (n ≤ ex_write_data.sg.length → (ex_with_resp (ex_with_resp ex_write_host 0x11 0x22 0x33 0x900) 0x55 0x66 0x77 0xb00).buffer = ex_write_data.sg.take n ++ ex_host.buffer.drop n)) :=
  ⟨rfl, by decide, by decide, by decide, by decide, rfl, rfl,
    litex_request_write_staging ex_platform ex_mmc ex_host ex_host (ex_with_resp (ex_with_resp ex_write_host 0x11 0x22 0x33 0x900) 0x55 0x66 0x77 0xb00) ex_write_mrq ex_write_mrq_done ex_write_data ex_write_script ex_write_script [] [] (ex_write_setup_trace ++ ex_write_cmd_trace ++ ex_cmd_trace 12 0 1 0 1 0x55 0x66 0x77 0xb00 ++ [Ev.mmc_request_done]) (rfl) (by decide) (by decide) (by decide) (by decide) (rfl) (rfl)⟩

/-- Witness for C11: the multi-block write with one retry whose first attempt
fails with a CRC error and whose second attempt succeeds; the stop command then
times out; the error code is 0, that of the second attempt. -/
theorem litex_request_error_code_witness :
    (litex_request_prepare ex_platform ex_host ex_retry_mrq.data ex_retry_script = some ((true, ex_write_host, 2), ex_retry_script, ex_write_setup_trace)) ∧
    (litex_request ex_platform ex_mmc ex_host ex_retry_mrq ex_retry_script = some (((ex_with_resp ex_write_host 0x11 0x22 0x33 0x900), ex_retry_mrq_done), [], ex_retry_trace)) ∧
    (∃ (sts : List Nat) (st : Nat) (h2 : litex_mmc_host) (s2 : Script) (t2 t3 tail : List Ev),
      litex_request_retry ex_platform ex_retry_mrq.cmd.opcode ex_retry_mrq.cmd.arg
          (litex_request_response_len ex_retry_mrq.cmd.flags) 2 ex_retry_mrq.cmd.retries ex_write_host ex_retry_script
        = some ((st, h2), s2, t2) ∧
      send_cmd_times ex_platform ex_retry_mrq.cmd.opcode ex_retry_mrq.cmd.arg (litex_request_response_len ex_retry_mrq.cmd.flags)
          2 sts.length ex_write_host ex_retry_script = some ((sts, h2), s2, t2) ∧
      1 ≤ sts.length ∧ sts.length ≤ ex_retry_mrq.cmd.retries + 1 ∧
      (∀ x ∈ sts.dropLast, x ≠ SD_OK) ∧
      (st = SD_OK ∨ sts.length = ex_retry_mrq.cmd.retries + 1) ∧
      sts.getLast? = some st ∧
      (∀ (sts2 : List Nat) (hx : litex_mmc_host) (sx : Script) (tx : List Ev),
        send_cmd_times ex_platform ex_retry_mrq.cmd.opcode ex_retry_mrq.cmd.arg (litex_request_response_len ex_retry_mrq.cmd.flags)
            2 sts2.length ex_write_host ex_retry_script = some ((sts2, hx), sx, tx) →
        1 ≤ sts2.length → sts2.length ≤ ex_retry_mrq.cmd.retries + 1 →
        (∀ x ∈ sts2.dropLast, x ≠ SD_OK) →
        (sts2.getLast? = some SD_OK ∨ sts2.length = ex_retry_mrq.cmd.retries + 1) →
        sts2 = sts) ∧
      ex_retry_trace = ex_write_setup_trace ++ t2 ++ t3 ++ tail ∧
      (∀ e ∈ tail, e = Ev.mmc_request_done ∨ ∃ n, e = Ev.sg_copy_from_buffer n) ∧
      (if ex_retry_mrq.cmd.opcode = MMC_READ_MULTIPLE_BLOCK ∨ ex_retry_mrq.cmd.opcode = MMC_WRITE_MULTIPLE_BLOCK
        then ∃ st3, send_stop_tx_cmd ex_platform h2 s2 = some ((st3, (ex_with_resp ex_write_host 0x11 0x22 0x33 0x900)), [], t3)
        else (ex_with_resp ex_write_host 0x11 0x22 0x33 0x900) = h2 ∧ [] = s2 ∧ t3 = []) ∧
      ex_retry_mrq_done.cmd.error =
        (if st = SD_OK then 0
         else if st = SD_WRITEERROR then - EIO
         else if st = SD_TIMEOUT then - ETIMEDOUT
         else if st = SD_CRCERROR then - EILSEQ
         else - EINVAL)) :=
  ⟨rfl, rfl,
    litex_request_error_code ex_platform ex_mmc ex_host ex_write_host (ex_with_resp ex_write_host 0x11 0x22 0x33 0x900) ex_retry_mrq ex_retry_mrq_done 2 ex_retry_script ex_retry_script [] ex_write_setup_trace ex_retry_trace (rfl) (rfl)⟩

/-- Witness for C12, one run for each path.  The bus-width block times out: the
request is completed right after it.  The single-block read succeeds:
`mmc_request_done` follows the copy of the data.  The data has no direction
flag: the command is sent without transfer and the request is completed.  The
status command (no data) times out: the request is completed after the one
attempt.  The multi-block write succeeds: the request is completed after the
stop command. -/
theorem litex_request_done_once_witness :
    (litex_request ex_platform ex_mmc ex_host_absent ex_read_mrq ex_timeout_script
        = some ((ex_host_absent,
            { ex_read_mrq with cmd := { ex_read_mrq.cmd with error := - ETIMEDOUT } }), [],
            ex_timeout_trace ++ [Ev.mmc_request_done]) ∧
      Ev.mmc_request_done ∉ ex_timeout_trace) ∧
    (∃ pre : List Ev,
      ex_read_setup_trace ++ ex_read_cmd_trace ++ [Ev.sg_copy_from_buffer 512, Ev.mmc_request_done]
        = pre ++ [Ev.mmc_request_done] ∧ Ev.mmc_request_done ∉ pre ∧
      (ex_read_setup_trace ++ ex_read_cmd_trace ++
        [Ev.sg_copy_from_buffer 512, Ev.mmc_request_done]).count Ev.mmc_request_done = 1) ∧
    (∃ (h3 : litex_mmc_host) (mrq' : mmc_request) (s3 : Script) (t3 tail : List Ev),
      litex_request ex_platform ex_mmc ex_host ex_noflag_mrq ex_noflag_script
        = some ((h3, mrq'), s3, ex_noflag_setup_trace ++
            ex_cmd_trace 17 0x200 1 0 1 0x11 0x22 0x33 0x900 ++ t3 ++ tail ++
            [Ev.mmc_request_done]) ∧
      (if ex_noflag_mrq.cmd.opcode = MMC_READ_MULTIPLE_BLOCK ∨
          ex_noflag_mrq.cmd.opcode = MMC_WRITE_MULTIPLE_BLOCK
        then ∃ st3, send_stop_tx_cmd ex_platform (ex_with_resp ex_host 0x11 0x22 0x33 0x900) []
          = some ((st3, h3), s3, t3)
        else h3 = ex_with_resp ex_host 0x11 0x22 0x33 0x900 ∧ s3 = [] ∧ t3 = []) ∧
      (tail = [] ∨ ∃ n, tail = [Ev.sg_copy_from_buffer n]) ∧
      Ev.mmc_request_done ∉ ex_noflag_setup_trace ++
        ex_cmd_trace 17 0x200 1 0 1 0x11 0x22 0x33 0x900 ++ t3 ++ tail) ∧
    (∃ (h3 : litex_mmc_host) (mrq' : mmc_request) (s3 : Script) (t3 tail : List Ev),
      litex_request ex_platform ex_mmc ex_host (ex_status_mrq 0) [5]
        = some ((h3, mrq'), s3, [] ++ ex_cmd_fail_trace 13 0x200 1 0 5 ++ t3 ++ tail ++
            [Ev.mmc_request_done]) ∧
      (if (ex_status_mrq 0).cmd.opcode = MMC_READ_MULTIPLE_BLOCK ∨
          (ex_status_mrq 0).cmd.opcode = MMC_WRITE_MULTIPLE_BLOCK
        then ∃ st3, send_stop_tx_cmd ex_platform ex_host [] = some ((st3, h3), s3, t3)
        else h3 = ex_host ∧ s3 = [] ∧ t3 = []) ∧
      (tail = [] ∨ ∃ n, tail = [Ev.sg_copy_from_buffer n]) ∧
      Ev.mmc_request_done ∉ [] ++ ex_cmd_fail_trace 13 0x200 1 0 5 ++ t3 ++ tail) ∧
    (∃ (h3 : litex_mmc_host) (mrq' : mmc_request) (s3 : Script) (t3 tail : List Ev),
      litex_request ex_platform ex_mmc ex_host ex_write_mrq ex_write_script
        = some ((h3, mrq'), s3, ex_write_setup_trace ++ ex_write_cmd_trace ++ t3 ++ tail ++
            [Ev.mmc_request_done]) ∧
      (if ex_write_mrq.cmd.opcode = MMC_READ_MULTIPLE_BLOCK ∨
          ex_write_mrq.cmd.opcode = MMC_WRITE_MULTIPLE_BLOCK
        then ∃ st3, send_stop_tx_cmd ex_platform (ex_with_resp ex_write_host 0x11 0x22 0x33 0x900)
            [1, 0x55, 0x66, 0x77, 0xb00] = some ((st3, h3), s3, t3)
        else h3 = ex_with_resp ex_write_host 0x11 0x22 0x33 0x900 ∧
          s3 = [1, 0x55, 0x66, 0x77, 0xb00] ∧ t3 = []) ∧
      (tail = [] ∨ ∃ n, tail = [Ev.sg_copy_from_buffer n]) ∧
      Ev.mmc_request_done ∉ ex_write_setup_trace ++ ex_write_cmd_trace ++ t3 ++ tail) :=
  ⟨(litex_request_done_once ex_platform ex_mmc ex_host_absent ex_read_mrq ex_timeout_script).2.1
      ex_read_data ex_host_absent [] ex_timeout_trace rfl rfl,
    (litex_request_done_once ex_platform ex_mmc ex_host ex_read_mrq ex_read_script).1
      (ex_with_resp ex_host 0x11 0x22 0x33 0x900) ex_read_mrq_done []
      (ex_read_setup_trace ++ ex_read_cmd_trace ++
        [Ev.sg_copy_from_buffer 512, Ev.mmc_request_done]) rfl,
    (litex_request_done_once ex_platform ex_mmc ex_host ex_noflag_mrq ex_noflag_script).2.2.2.2.2
      ex_host (ex_with_resp ex_host 0x11 0x22 0x33 0x900) 0 SD_OK ex_noflag_script []
      ex_noflag_setup_trace (ex_cmd_trace 17 0x200 1 0 1 0x11 0x22 0x33 0x900) rfl rfl
      (fun hm => absurd hm (by decide)),
    (litex_request_done_once ex_platform ex_mmc ex_host (ex_status_mrq 0) [5]).2.2.2.2.2
      ex_host ex_host 0 SD_TIMEOUT [5] [] [] (ex_cmd_fail_trace 13 0x200 1 0 5) rfl rfl
      (fun hm => absurd hm (by decide)),
    (litex_request_done_once ex_platform ex_mmc ex_host ex_write_mrq ex_write_script).2.2.2.2.2
      ex_write_host (ex_with_resp ex_write_host 0x11 0x22 0x33 0x900) 2 SD_OK ex_write_script
      [1, 0x55, 0x66, 0x77, 0xb00] ex_write_setup_trace ex_write_cmd_trace rfl rfl
      (fun _ => ⟨_, _, _, rfl⟩)⟩

/-- Witness for C15: the example slot (removable, no GPIO) reads the
card-detect byte 1 and reports the card absent. -/
theorem litex_get_cd_presence_witness :
    ex_mmc.removable = true ∧ ex_mmc.gpio_cd < 0 ∧
    litex_get_cd ex_mmc ex_host [1, 7]
      = some ((if 1 % 2 ^ 8 = 0 then 1 else 0,
          if 1 % 2 ^ 8 = 0 then ex_host else { ex_host with is_bus_width_set := false }), [7],
        [Ev.read Reg.SDPHY_CARDDETECT 1 (1 % 2 ^ 8)]) :=
  ⟨rfl, by decide, (litex_get_cd_presence ex_mmc ex_host).1 rfl (by decide) 1 [7]⟩

/-- Witness for C17 (amended): CMD55 on the example host succeeds and sets
`app_cmd`. -/
theorem send_cmd_app_cmd_tracking_witness :
    (send_cmd ex_platform ex_host MMC_APP_CMD 0 SDCARD_CTRL_RESPONSE_SHORT SDCARD_CTRL_DATA_TRANSFER_NONE [1, 1, 2, 3, 0x120] = some ((SD_OK, ex_app_host), [], (ex_cmd_trace 55 0 1 0 1 1 2 3 0x120))) ∧
    (∃ (st1 : Nat) (s1 : Script) (t1 : List Ev),
      sdcard_wait_done Reg.SDCORE_CMDEVT [1, 1, 2, 3, 0x120] = some (st1, s1, t1) ∧
      (st1 = SD_OK → ex_app_host.app_cmd = (MMC_APP_CMD % 2 ^ 8 == MMC_APP_CMD)) ∧
      (st1 ≠ SD_OK → SD_OK = st1 ∧ ex_app_host.app_cmd = ex_host.app_cmd)) :=
  ⟨rfl,
    send_cmd_app_cmd_tracking ex_platform ex_host ex_app_host MMC_APP_CMD 0 SDCARD_CTRL_RESPONSE_SHORT SDCARD_CTRL_DATA_TRANSFER_NONE SD_OK [1, 1, 2, 3, 0x120] [] (ex_cmd_trace 55 0 1 0 1 1 2 3 0x120) (rfl)⟩

/-- Witness for C18 (amended): on a host whose previous command was CMD55 the
call issues ACMD6 and then the trailing CMD55. -/
theorem litex_set_bus_width_sequence_witness :
    (litex_set_bus_width ex_platform ex_app_host [1, 5, 6, 7, 0x920, 1, 1, 2, 3, 0x120] = some ((SD_OK, (ex_with_resp (ex_with_resp ex_app_host 5 6 7 0x920) 1 2 3 0x120)), [], (ex_cmd_trace 6 2 1 0 1 5 6 7 0x920 ++ ex_cmd_trace 55 0 1 0 1 1 2 3 0x120))) ∧
    (outputs (ex_cmd_trace 6 2 1 0 1 5 6 7 0x920 ++ ex_cmd_trace 55 0 1 0 1 1 2 3 0x120) =
      (if ex_app_host.app_cmd = false then
          cmd_issue MMC_APP_CMD ((ex_app_host.rca % 2 ^ 16) <<< 16) SDCARD_CTRL_RESPONSE_SHORT
            SDCARD_CTRL_DATA_TRANSFER_NONE
        else [])
      ++ cmd_issue SD_APP_SET_BUS_WIDTH MMC_BUS_WIDTH_4 SDCARD_CTRL_RESPONSE_SHORT
          SDCARD_CTRL_DATA_TRANSFER_NONE
      ++ (if ex_app_host.app_cmd = true then
          cmd_issue MMC_APP_CMD ((ex_app_host.rca % 2 ^ 16) <<< 16) SDCARD_CTRL_RESPONSE_SHORT
            SDCARD_CTRL_DATA_TRANSFER_NONE
        else [])) :=
  ⟨rfl,
    litex_set_bus_width_sequence ex_platform ex_app_host (ex_with_resp (ex_with_resp ex_app_host 5 6 7 0x920) 1 2 3 0x120) SD_OK [1, 5, 6, 7, 0x920, 1, 1, 2, 3, 0x120] [] (ex_cmd_trace 6 2 1 0 1 5 6 7 0x920 ++ ex_cmd_trace 55 0 1 0 1 1 2 3 0x120) (rfl)⟩

/-- Witness for C19: CMD3 on the example host, whose response word 3 is
`0xabcd0520`; the card address becomes `0xabcd`. -/
theorem send_cmd_rca_capture_witness :
    (send_cmd ex_platform ex_host SD_SEND_RELATIVE_ADDR 0 SDCARD_CTRL_RESPONSE_SHORT SDCARD_CTRL_DATA_TRANSFER_NONE [1, 0x11, 0x22, 0x33, 0xabcd0520] = some ((SD_OK, ex_rca_host), [], (ex_cmd_trace 3 0 1 0 1 0x11 0x22 0x33 0xabcd0520))) ∧
    (∃ (st1 : Nat) (s1 : Script) (t1 : List Ev),
      sdcard_wait_done Reg.SDCORE_CMDEVT [1, 0x11, 0x22, 0x33, 0xabcd0520] = some (st1, s1, t1) ∧
      (st1 = SD_OK →
        ex_rca_host.rca = (if ex_host.app_cmd = false ∧ SD_SEND_RELATIVE_ADDR % 2 ^ 8 = SD_SEND_RELATIVE_ADDR
          then (ex_rca_host.resp 3 >>> 16) &&& 0xffff else ex_host.rca) ∧
        (ex_rca_host.resp 3 >>> 16) &&& 0xffff = ex_rca_host.resp 3 / 2 ^ 16 % 2 ^ 16 ∧
        (SDCARD_CTRL_RESPONSE_SHORT % 2 ^ 8 = SDCARD_CTRL_RESPONSE_NONE → ex_rca_host.resp = ex_host.resp) ∧
        (SDCARD_CTRL_RESPONSE_SHORT % 2 ^ 8 ≠ SDCARD_CTRL_RESPONSE_NONE →
          ∃ r0 r1 r2 r3 rest, s1 = r0 :: r1 :: r2 :: r3 :: rest ∧ ex_rca_host.resp 3 = r3 % 2 ^ 32)) ∧
      (st1 ≠ SD_OK → ex_rca_host.rca = ex_host.rca)) :=
  ⟨rfl,
    send_cmd_rca_capture ex_platform ex_host ex_rca_host SD_SEND_RELATIVE_ADDR 0 SDCARD_CTRL_RESPONSE_SHORT SDCARD_CTRL_DATA_TRANSFER_NONE SD_OK [1, 0x11, 0x22, 0x33, 0xabcd0520] [] (ex_cmd_trace 3 0 1 0 1 0x11 0x22 0x33 0xabcd0520) (rfl)⟩

/-- Witness for C20: two idle polls, then the event byte `0x05` (timeout); the two
values after it stay in the script. -/
theorem send_cmd_command_phase_failure_witness :
    (∀ x ∈ [0, 4], x.testBit 0 = false) ∧
    ((5 : Nat).testBit 0 = true) ∧
    (sdcard_wait_done_decode (5 % 2 ^ 8) ≠ SD_OK) ∧
    (send_cmd ex_platform ex_host 13 0x200 SDCARD_CTRL_RESPONSE_SHORT SDCARD_CTRL_DATA_TRANSFER_NONE ([0, 4] ++ 5 :: [9, 9])
      = some ((sdcard_wait_done_decode (5 % 2 ^ 8), ex_host), [9, 9],
          cmd_issue 13 0x200 SDCARD_CTRL_RESPONSE_SHORT SDCARD_CTRL_DATA_TRANSFER_NONE ++
            ([0, 4].flatMap (fun x => [Ev.read Reg.SDCORE_CMDEVT 1 (x % 2 ^ 8), Ev.udelay 5])
              ++ [Ev.read Reg.SDCORE_CMDEVT 1 (5 % 2 ^ 8)]))) :=
  ⟨by decide, by decide, by decide,
    send_cmd_command_phase_failure ex_platform ex_host 13 0x200 SDCARD_CTRL_RESPONSE_SHORT SDCARD_CTRL_DATA_TRANSFER_NONE [0, 4] 5 [9, 9] (by decide) (by decide) (by decide)⟩

/-- Witness for C21: the single-block read of 512 bytes on the example host. -/
theorem litex_request_read_setup_witness :
    (ex_read_mrq.data = some ex_read_data) ∧
    (ex_host.is_bus_width_set = true) ∧
    (litex_request ex_platform ex_mmc ex_host ex_read_mrq ex_read_script = some (((ex_with_resp ex_host 0x11 0x22 0x33 0x900), ex_read_mrq_done), [], (ex_read_setup_trace ++ ex_read_cmd_trace ++ [Ev.sg_copy_from_buffer 512, Ev.mmc_request_done]))) ∧
    ((ex_read_data.flags &&& MMC_DATA_READ ≠ 0 →
      ∃ t', (ex_read_setup_trace ++ ex_read_cmd_trace ++ [Ev.sg_copy_from_buffer 512, Ev.mmc_request_done]) =
        [Ev.write Reg.SDBLK2MEM_ENA 1 0,
         Ev.write Reg.SDBLK2MEM_BASE 8 (ex_host.dma_handle % 2 ^ 64),
         Ev.write Reg.SDBLK2MEM_LEN 4 ((ex_read_data.blksz * ex_read_data.blocks) % 2 ^ 32),
         Ev.write Reg.SDBLK2MEM_ENA 1 1,
         Ev.write Reg.SDCORE_BLKLEN 2 (ex_read_data.blksz % 2 ^ 16),
         Ev.write Reg.SDCORE_BLKCNT 4 (ex_read_data.blocks % 2 ^ 32)]
        ++ cmd_issue ex_read_mrq.cmd.opcode ex_read_mrq.cmd.arg (litex_request_response_len ex_read_mrq.cmd.flags)
            SDCARD_CTRL_DATA_TRANSFER_READ ++ t') ∧
    (ex_read_data.flags &&& MMC_DATA_READ = 0 → ex_read_data.flags &&& MMC_DATA_WRITE = 0 →
      ∃ t', (ex_read_setup_trace ++ ex_read_cmd_trace ++ [Ev.sg_copy_from_buffer 512, Ev.mmc_request_done]) =
        [Ev.write Reg.SDCORE_BLKLEN 2 (ex_read_data.blksz % 2 ^ 16),
         Ev.write Reg.SDCORE_BLKCNT 4 (ex_read_data.blocks % 2 ^ 32)]
        ++ cmd_issue ex_read_mrq.cmd.opcode ex_read_mrq.cmd.arg (litex_request_response_len ex_read_mrq.cmd.flags)
            SDCARD_CTRL_DATA_TRANSFER_NONE ++ t') ∧
    (∃ (pre t' : List Ev) (transfer : Nat), (ex_read_setup_trace ++ ex_read_cmd_trace ++ [Ev.sg_copy_from_buffer 512, Ev.mmc_request_done]) =
        pre ++ [Ev.write Reg.SDCORE_BLKLEN 2 (ex_read_data.blksz % 2 ^ 16),
                Ev.write Reg.SDCORE_BLKCNT 4 (ex_read_data.blocks % 2 ^ 32)]
        ++ cmd_issue ex_read_mrq.cmd.opcode ex_read_mrq.cmd.arg (litex_request_response_len ex_read_mrq.cmd.flags)
            transfer ++ t' ∧
        ∀ e ∈ pre, ∀ v, e ≠ Ev.write Reg.SDCORE_CMDCMD 4 v) ∧
    (ex_host.dma_handle < 2 ^ 64 → ex_host.dma_handle % 2 ^ 64 = ex_host.dma_handle) ∧
    (ex_read_data.blksz < 2 ^ 16 → ex_read_data.blksz % 2 ^ 16 = ex_read_data.blksz) ∧
    (ex_read_data.blocks < 2 ^ 32 → ex_read_data.blocks % 2 ^ 32 = ex_read_data.blocks)) :=
  ⟨rfl, rfl, rfl,
    litex_request_read_setup ex_platform ex_mmc ex_host (ex_with_resp ex_host 0x11 0x22 0x33 0x900) ex_read_mrq ex_read_mrq_done ex_read_data ex_read_script [] (ex_read_setup_trace ++ ex_read_cmd_trace ++ [Ev.sg_copy_from_buffer 512, Ev.mmc_request_done]) (rfl) (rfl) (rfl)⟩

/-- Witness for C22: the command of the single-block read; `jiffies` reads 5000
after the data phase, so the deadline is 5200. -/
theorem send_cmd_dma_wait_bounded_witness :
    (SDCARD_CTRL_DATA_TRANSFER_READ % 2 ^ 8 ≠ SDCARD_CTRL_DATA_TRANSFER_NONE) ∧
    (sdcard_wait_done Reg.SDCORE_CMDEVT ex_read_script = some (SD_OK, [0x11, 0x22, 0x33, 0x900, 1, 5000, 1], [Ev.read Reg.SDCORE_CMDEVT 1 1])) ∧
    ((if SDCARD_CTRL_RESPONSE_SHORT % 2 ^ 8 ≠ SDCARD_CTRL_RESPONSE_NONE then send_cmd_read_resp ex_host
      else pure ex_host) [0x11, 0x22, 0x33, 0x900, 1, 5000, 1] = some ((ex_with_resp ex_host 0x11 0x22 0x33 0x900), [1, 5000, 1], [Ev.read (Reg.SDCORE_CMDRSP 0) 4 0x11, Ev.read (Reg.SDCORE_CMDRSP 1) 4 0x22, Ev.read (Reg.SDCORE_CMDRSP 2) 4 0x33, Ev.read (Reg.SDCORE_CMDRSP 3) 4 0x900])) ∧
    (sdcard_wait_done Reg.SDCORE_DATAEVT [1, 5000, 1] = some (SD_OK, 5000 :: [1], [Ev.read Reg.SDCORE_DATAEVT 1 1])) ∧
    (Reg.SDBLK2MEM_DONE = if SDCARD_CTRL_DATA_TRANSFER_READ % 2 ^ 8 = SDCARD_CTRL_DATA_TRANSFER_READ then Reg.SDBLK2MEM_DONE
      else Reg.SDMEM2BLK_DONE) ∧
    (5200 = (5000 % 2 ^ ex_platform.BITS_PER_LONG + (ex_platform.HZ <<< 1)) % 2 ^ ex_platform.BITS_PER_LONG) ∧
    ((∀ (polls : List (Nat × Nat)) (v : Nat) (rest : Script),
      (∀ q ∈ polls, (q.1 % 2 ^ 8) &&& 0x01 = 0 ∧
        time_after ex_platform (q.2 % 2 ^ ex_platform.BITS_PER_LONG) 5200 = false) →
      (v % 2 ^ 8) &&& 0x01 ≠ 0 →
      [1] = dma_polls_script polls ++ v :: rest →
      ∃ h2, send_cmd ex_platform ex_host 17 0x200 SDCARD_CTRL_RESPONSE_SHORT SDCARD_CTRL_DATA_TRANSFER_READ ex_read_script
        = some ((SD_OK, h2), rest,
            cmd_issue 17 0x200 SDCARD_CTRL_RESPONSE_SHORT SDCARD_CTRL_DATA_TRANSFER_READ ++ ([Ev.read Reg.SDCORE_CMDEVT 1 1] ++ ([Ev.read (Reg.SDCORE_CMDRSP 0) 4 0x11, Ev.read (Reg.SDCORE_CMDRSP 1) 4 0x22, Ev.read (Reg.SDCORE_CMDRSP 2) 4 0x33, Ev.read (Reg.SDCORE_CMDRSP 3) 4 0x900] ++ ([Ev.read Reg.SDCORE_DATAEVT 1 1] ++
              (Ev.jiffies (5000 % 2 ^ ex_platform.BITS_PER_LONG) ::
                (dma_polls_trace ex_platform Reg.SDBLK2MEM_DONE polls ++ [Ev.read Reg.SDBLK2MEM_DONE 1 (v % 2 ^ 8)]))))))) ∧
    (∀ (polls : List (Nat × Nat)) (v now : Nat) (rest : Script),
      (∀ q ∈ polls, (q.1 % 2 ^ 8) &&& 0x01 = 0 ∧
        time_after ex_platform (q.2 % 2 ^ ex_platform.BITS_PER_LONG) 5200 = false) →
      (v % 2 ^ 8) &&& 0x01 = 0 →
      time_after ex_platform (now % 2 ^ ex_platform.BITS_PER_LONG) 5200 = true →
      [1] = dma_polls_script polls ++ v :: now :: rest →
      ∃ h2, send_cmd ex_platform ex_host 17 0x200 SDCARD_CTRL_RESPONSE_SHORT SDCARD_CTRL_DATA_TRANSFER_READ ex_read_script
        = some ((SD_TIMEOUT, h2), rest,
            cmd_issue 17 0x200 SDCARD_CTRL_RESPONSE_SHORT SDCARD_CTRL_DATA_TRANSFER_READ ++ ([Ev.read Reg.SDCORE_CMDEVT 1 1] ++ ([Ev.read (Reg.SDCORE_CMDRSP 0) 4 0x11, Ev.read (Reg.SDCORE_CMDRSP 1) 4 0x22, Ev.read (Reg.SDCORE_CMDRSP 2) 4 0x33, Ev.read (Reg.SDCORE_CMDRSP 3) 4 0x900] ++ ([Ev.read Reg.SDCORE_DATAEVT 1 1] ++
              (Ev.jiffies (5000 % 2 ^ ex_platform.BITS_PER_LONG) ::
                (dma_polls_trace ex_platform Reg.SDBLK2MEM_DONE polls ++
                  [Ev.read Reg.SDBLK2MEM_DONE 1 (v % 2 ^ 8),
                   Ev.jiffies (now % 2 ^ ex_platform.BITS_PER_LONG)]))))))) ∧
    (∀ (st : Nat) (h2 : litex_mmc_host) (s2 : Script) (t : List Ev),
      send_cmd ex_platform ex_host 17 0x200 SDCARD_CTRL_RESPONSE_SHORT SDCARD_CTRL_DATA_TRANSFER_READ ex_read_script = some ((st, h2), s2, t) →
      ∃ polls : List (Nat × Nat),
        (∀ q ∈ polls, (q.1 % 2 ^ 8) &&& 0x01 = 0 ∧
          time_after ex_platform (q.2 % 2 ^ ex_platform.BITS_PER_LONG) 5200 = false) ∧
        ((st = SD_OK ∧ ∃ v, (v % 2 ^ 8) &&& 0x01 ≠ 0 ∧
            [1] = dma_polls_script polls ++ v :: s2) ∨
         (st = SD_TIMEOUT ∧ ∃ v now, (v % 2 ^ 8) &&& 0x01 = 0 ∧
            time_after ex_platform (now % 2 ^ ex_platform.BITS_PER_LONG) 5200 = true ∧
            [1] = dma_polls_script polls ++ v :: now :: s2 ∧
            (5000 % 2 ^ ex_platform.BITS_PER_LONG + 2 * ex_platform.HZ < 2 ^ ex_platform.BITS_PER_LONG →
              5000 % 2 ^ ex_platform.BITS_PER_LONG + 2 * ex_platform.HZ
                < now % 2 ^ ex_platform.BITS_PER_LONG + 2 ^ (ex_platform.BITS_PER_LONG - 1) →
              5000 % 2 ^ ex_platform.BITS_PER_LONG + 2 * ex_platform.HZ < now % 2 ^ ex_platform.BITS_PER_LONG))))) :=
  ⟨by decide, rfl, rfl, rfl, rfl, rfl,
    send_cmd_dma_wait_bounded ex_platform ex_host (ex_with_resp ex_host 0x11 0x22 0x33 0x900) 17 0x200 SDCARD_CTRL_RESPONSE_SHORT SDCARD_CTRL_DATA_TRANSFER_READ ex_read_script [0x11, 0x22, 0x33, 0x900, 1, 5000, 1] [1, 5000, 1] [1] [Ev.read Reg.SDCORE_CMDEVT 1 1] [Ev.read (Reg.SDCORE_CMDRSP 0) 4 0x11, Ev.read (Reg.SDCORE_CMDRSP 1) 4 0x22, Ev.read (Reg.SDCORE_CMDRSP 2) 4 0x33, Ev.read (Reg.SDCORE_CMDRSP 3) 4 0x900] [Ev.read Reg.SDCORE_DATAEVT 1 1] 5000 5200 Reg.SDBLK2MEM_DONE (by decide) (rfl) (rfl) (rfl) (rfl) (rfl)⟩

/-- Witness for C24: on a host whose previous command was not CMD55, CMD55 and
ACMD6 both succeed and `app_cmd` is false again. -/
theorem litex_set_bus_width_keeps_app_cmd_witness :
    (litex_set_bus_width ex_platform ex_host_absent [1, 1, 2, 3, 0x120, 1, 5, 6, 7, 0x920] = some ((SD_OK, (ex_with_resp (ex_with_resp ex_host_absent 1 2 3 0x120) 5 6 7 0x920)), [], ex_reinsert_width_trace)) ∧
    ((ex_host_absent.app_cmd = false →
      ∃ (st1 : Nat) (h1 : litex_mmc_host) (s1 : Script) (t1 t2 : List Ev),
        send_app_cmd ex_platform ex_host_absent [1, 1, 2, 3, 0x120, 1, 5, 6, 7, 0x920] = some ((st1, h1), s1, t1) ∧
        send_app_set_bus_width_cmd ex_platform h1 MMC_BUS_WIDTH_4 s1 = some ((SD_OK, (ex_with_resp (ex_with_resp ex_host_absent 1 2 3 0x120) 5 6 7 0x920)), [], t2) ∧
        (st1 = SD_OK → SD_OK = SD_OK → h1.app_cmd = true ∧ (ex_with_resp (ex_with_resp ex_host_absent 1 2 3 0x120) 5 6 7 0x920).app_cmd = ex_host_absent.app_cmd)) ∧
    (ex_host_absent.app_cmd = true →
      ∃ (h1 : litex_mmc_host) (s1 : Script) (t1 : List Ev) (st3 : Nat) (t3 : List Ev),
        send_app_set_bus_width_cmd ex_platform ex_host_absent MMC_BUS_WIDTH_4 [1, 1, 2, 3, 0x120, 1, 5, 6, 7, 0x920] = some ((SD_OK, h1), s1, t1) ∧
        send_app_cmd ex_platform h1 s1 = some ((st3, (ex_with_resp (ex_with_resp ex_host_absent 1 2 3 0x120) 5 6 7 0x920)), [], t3) ∧
        (SD_OK = SD_OK → st3 = SD_OK → h1.app_cmd = false ∧ (ex_with_resp (ex_with_resp ex_host_absent 1 2 3 0x120) 5 6 7 0x920).app_cmd = ex_host_absent.app_cmd))) :=
  ⟨rfl,
    litex_set_bus_width_keeps_app_cmd ex_platform ex_host_absent (ex_with_resp (ex_with_resp ex_host_absent 1 2 3 0x120) 5 6 7 0x920) SD_OK [1, 1, 2, 3, 0x120, 1, 5, 6, 7, 0x920] [] ex_reinsert_width_trace (rfl)⟩

/-- Witness for C30: the bridging CMD55 times out (event byte `0x05`), ACMD6 is
sent all the same and succeeds, and the call returns `SD_OK`. -/
theorem litex_set_bus_width_status_witness :
    ex_host_absent.app_cmd = false ∧
    send_app_cmd ex_platform ex_host_absent [5, 1, 5, 6, 7, 0x920]
      = some ((SD_TIMEOUT, ex_host_absent), [1, 5, 6, 7, 0x920], ex_cmd_fail_trace 55 0 1 0 5) ∧
    send_app_set_bus_width_cmd ex_platform ex_host_absent MMC_BUS_WIDTH_4 [1, 5, 6, 7, 0x920]
      = some ((SD_OK, ex_with_resp ex_host_absent 5 6 7 0x920), [],
          ex_cmd_trace 6 2 1 0 1 5 6 7 0x920) ∧
    litex_set_bus_width ex_platform ex_host_absent [5, 1, 5, 6, 7, 0x920]
      = some ((SD_OK, ex_with_resp ex_host_absent 5 6 7 0x920), [],
          ex_cmd_fail_trace 55 0 1 0 5 ++ ex_cmd_trace 6 2 1 0 1 5 6 7 0x920) :=
  ⟨rfl, rfl, rfl,
    (litex_set_bus_width_status ex_platform ex_host_absent [5, 1, 5, 6, 7, 0x920]).1 rfl
      SD_TIMEOUT ex_host_absent [1, 5, 6, 7, 0x920] (ex_cmd_fail_trace 55 0 1 0 5)
      SD_OK (ex_with_resp ex_host_absent 5 6 7 0x920) [] (ex_cmd_trace 6 2 1 0 1 5 6 7 0x920)
      rfl rfl⟩

/-- Witness for C29 (amended): the example host, whose frequency is 100 MHz, and
a requested clock of 25 MHz. -/
theorem sdclk_set_clk_divider_witness :
    (ex_host.freq < 2 ^ 32) ∧
    (25000000 < 2 ^ 32) ∧
    (25000000 = 0 ∨ (0 < 25000000 ∧ 25000000 ≤ ex_host.freq)) ∧
    (ex_host.freq / 25000000 ≤ 2 ^ 31) ∧
    (∃ (d m : Nat),
      sdclk_set_clk ex_host 25000000 [] = some ((), [], [Ev.write Reg.SDPHY_CLOCKERDIV 2 d]) ∧
      (∃ k, d = 2 ^ k) ∧ 2 ≤ d ∧ d ≤ 256 ∧
      (25000000 = 0 → d = 256) ∧
      (0 < 25000000 →
        ex_host.freq / 25000000 ≤ 2 ^ m ∧ (∀ k, ex_host.freq / 25000000 ≤ 2 ^ k → m ≤ k) ∧
        d = min (max (2 ^ m) 2) 256)) :=
  ⟨by decide, by decide, Or.inr ⟨by decide, by decide⟩, by decide,
    sdclk_set_clk_divider ex_host 25000000 [] (by decide) (by decide) (Or.inr ⟨by decide, by decide⟩) (by decide)⟩

/-- Witness for C26 (amended): the single-block read of 512 bytes on the example
host, whose DMA buffer has 8192 bytes. -/
theorem litex_request_dma_length_bounded_witness :
    (ex_read_mrq.data = some ex_read_data) ∧
    (ex_read_data.flags &&& MMC_DATA_READ ≠ 0 → ex_read_data.blksz * ex_read_data.blocks ≤ ex_host.buffer_size) ∧
    ((∀ (hb : litex_mmc_host) (sb : Script) (tb : List Ev),
      litex_request_bus_width ex_platform ex_host ex_read_script = some ((true, hb), sb, tb) →
      ∃ (h1 : litex_mmc_host) (ts : List Ev),
        litex_request_prepare ex_platform ex_host ex_read_mrq.data ex_read_script
          = some ((true, h1,
              if ex_read_data.flags &&& MMC_DATA_READ ≠ 0 then SDCARD_CTRL_DATA_TRANSFER_READ
              else if ex_read_data.flags &&& MMC_DATA_WRITE ≠ 0 then SDCARD_CTRL_DATA_TRANSFER_WRITE
              else SDCARD_CTRL_DATA_TRANSFER_NONE), sb, tb ++ ts) ∧
        (ex_read_data.flags &&& MMC_DATA_READ ≠ 0 →
          Ev.write Reg.SDBLK2MEM_LEN 4 ((ex_read_data.blksz * ex_read_data.blocks) % 2 ^ 32) ∈ ts) ∧
        (ex_read_data.flags &&& MMC_DATA_READ = 0 → ex_read_data.flags &&& MMC_DATA_WRITE ≠ 0 →
          Ev.write Reg.SDMEM2BLK_LEN 4
            (min ((ex_read_data.blksz * ex_read_data.blocks) % 2 ^ 32) (ex_host.buffer_size % 2 ^ 32)) ∈ ts) ∧
        (∀ w v, Ev.write Reg.SDBLK2MEM_LEN w v ∈ tb ++ ts ∨
            Ev.write Reg.SDMEM2BLK_LEN w v ∈ tb ++ ts → v ≤ ex_host.buffer_size)) ∧
    (∀ (host' : litex_mmc_host) (mrq' : mmc_request) (s' : Script) (tr : List Ev),
      litex_request ex_platform ex_mmc ex_host ex_read_mrq ex_read_script = some ((host', mrq'), s', tr) →
      (∀ w v, Ev.write Reg.SDBLK2MEM_LEN w v ∈ tr →
        ex_read_data.flags &&& MMC_DATA_READ ≠ 0 ∧ v = (ex_read_data.blksz * ex_read_data.blocks) % 2 ^ 32 ∧
          v ≤ ex_host.buffer_size) ∧
      (∀ w v, Ev.write Reg.SDMEM2BLK_LEN w v ∈ tr →
        ex_read_data.flags &&& MMC_DATA_READ = 0 ∧ ex_read_data.flags &&& MMC_DATA_WRITE ≠ 0 ∧
          v = min ((ex_read_data.blksz * ex_read_data.blocks) % 2 ^ 32) (ex_host.buffer_size % 2 ^ 32) ∧
          v ≤ ex_host.buffer_size))) :=
  ⟨rfl, fun _ => by decide,
    litex_request_dma_length_bounded ex_platform ex_mmc ex_host ex_read_mrq ex_read_data ex_read_script (rfl) (fun _ => by decide)⟩

/-- Witness for C27 (amended): the successful write of 8 blocks of 512 bytes, 4096
bytes, which is `max_req_size`, on the example host. -/
theorem litex_request_write_lengths_agree_witness :
    (ex_write_mrq.data = some ex_write_data) ∧
    (ex_write_data.flags &&& MMC_DATA_READ = 0) ∧
    (ex_write_data.flags &&& MMC_DATA_WRITE ≠ 0) ∧
    (32 ≤ ex_platform.BITS_PER_LONG) ∧
    (ex_host.buffer_size = 2 * ex_mmc.max_req_size) ∧
    (ex_host.buffer_size < 2 ^ 31) ∧
    (ex_write_data.blksz * ex_write_data.blocks ≤ ex_mmc.max_req_size) ∧
    (litex_request ex_platform ex_mmc ex_host ex_write_mrq ex_write_script = some (((ex_with_resp (ex_with_resp ex_write_host 0x11 0x22 0x33 0x900) 0x55 0x66 0x77 0xb00), ex_write_mrq_done), [], (ex_write_setup_trace ++ ex_write_cmd_trace ++ ex_cmd_trace 12 0 1 0 1 0x55 0x66 0x77 0xb00 ++ [Ev.mmc_request_done]))) ∧
    (ex_write_mrq_done.cmd.error = 0) ∧
    (∃ d' : mmc_data, ex_write_mrq_done.data = some d' ∧
      d'.bytes_xfered = ex_write_data.blksz * ex_write_data.blocks ∧
      Ev.write Reg.SDMEM2BLK_LEN 4 d'.bytes_xfered ∈ (ex_write_setup_trace ++ ex_write_cmd_trace ++ ex_cmd_trace 12 0 1 0 1 0x55 0x66 0x77 0xb00 ++ [Ev.mmc_request_done]) ∧
      (∀ w v, Ev.write Reg.SDMEM2BLK_LEN w v ∈ (ex_write_setup_trace ++ ex_write_cmd_trace ++ ex_cmd_trace 12 0 1 0 1 0x55 0x66 0x77 0xb00 ++ [Ev.mmc_request_done]) → v = d'.bytes_xfered) ∧
      Ev.sg_copy_to_buffer d'.bytes_xfered ∈ (ex_write_setup_trace ++ ex_write_cmd_trace ++ ex_cmd_trace 12 0 1 0 1 0x55 0x66 0x77 0xb00 ++ [Ev.mmc_request_done]) ∧
      (∀ n, Ev.sg_copy_to_buffer n ∈ (ex_write_setup_trace ++ ex_write_cmd_trace ++ ex_cmd_trace 12 0 1 0 1 0x55 0x66 0x77 0xb00 ++ [Ev.mmc_request_done]) → n = d'.bytes_xfered) ∧
      (ex_with_resp (ex_with_resp ex_write_host 0x11 0x22 0x33 0x900) 0x55 0x66 0x77 0xb00).buffer = sg_copy_to_buffer ex_write_data.sg ex_host.buffer d'.bytes_xfered) :=
  ⟨rfl, by decide, by decide, by decide, rfl, by decide, by decide, rfl, rfl,
    litex_request_write_lengths_agree ex_platform ex_mmc ex_host (ex_with_resp (ex_with_resp ex_write_host 0x11 0x22 0x33 0x900) 0x55 0x66 0x77 0xb00) ex_write_mrq ex_write_mrq_done ex_write_data ex_write_script [] (ex_write_setup_trace ++ ex_write_cmd_trace ++ ex_cmd_trace 12 0 1 0 1 0x55 0x66 0x77 0xb00 ++ [Ev.mmc_request_done]) (rfl) (by decide) (by decide) (by decide) (rfl) (by decide) (by decide) (rfl) (rfl)⟩

end Litex
